import Mathlib

/-!
# ClueGetter: message verdict pipeline

A shallow embedding of `core/message.go`.

Modelling conventions.

* `float64` scores, weights and thresholds are exact rationals (`ℚ`): rounding,
  infinities and NaN are outside the model.
* A Go run-time panic is an explicit `Except` error; the deferred `recover` of
  `messageGetVerdict` is the wrapper that turns it into a verdict.
* The channel returned by `messageGetResults` is the list of the results in
  the order in which they arrive.
* `*MessageCheckResult` pointers are indices into the list of collected
  results (`flatResults`), which serves as the heap: the per-action lists
  `results[a]` hold such indices, so that the in-place update of
  `WeightedScore` is seen through them, as it is in the source.
* Package-level variables (`Config.ClueGetter.Exit_On_Panic`, `hostname`,
  `MessageModuleGroups`) and the clock are the fields of `Globals`.
-/

namespace ClueGetter

/-! ## Data model -/

/-- The constant `MessagePermit` (`iota` = 0). -/
abbrev MessagePermit : Int := 0

/-- The constant `MessageTempFail` (1). -/
abbrev MessageTempFail : Int := 1

/-- The constant `MessageReject` (2). -/
abbrev MessageReject : Int := 2

/-- The constant `MessageError` (3). -/
abbrev MessageError : Int := 3

/-- The struct `MessageHeader`. -/
structure MessageHeader where
  Key : String
  Value : String
  milterIdx : Int := 0
  flagUnique : Bool := false
  deleted : Bool := false
  deriving DecidableEq

/-- The struct `MessageCheckResult`; `Determinants` is `none` for a nil map.
`Duration` and `Callbacks` play no part in the verdict and are left out. -/
structure MessageCheckResult where
  Module : String
  SuggestedAction : Int
  Message : String
  Score : ℚ
  Determinants : Option (List (String × String)) := none
  WeightedScore : ℚ := 0
  deriving DecidableEq

/-- The struct `MessageModuleGroupMember`. -/
structure MessageModuleGroupMember where
  module : String
  weight : ℚ
  deriving DecidableEq

/-- The struct `MessageModuleGroup`. -/
structure MessageModuleGroup where
  modules : List MessageModuleGroupMember
  name : String
  totalWeight : ℚ
  deriving DecidableEq

/-- The settings of `config.Greylisting`. The declaration is not part of the sources at hand;
the period (in minutes) is an unsigned integer, which the source converts with `int64(...)`
and `float64(...)`. -/
structure GreylistingConfig where
  Enabled : Bool := false
  Initial_Score : ℚ := 0
  Initial_Period : Nat := 0
  Whitelist_Spf : List String := []
  deriving DecidableEq

/-- The per-session settings of `config.ClueGetter` that the pipeline reads, and those of
`config.Greylisting`. -/
structure SessionConfig where
  Breaker_Score : ℚ
  Message_Reject_Score : ℚ
  Message_Tempfail_Score : ℚ
  Message_Spamflag_Score : ℚ
  Insert_Missing_Message_Id : Bool := false
  Greylisting : GreylistingConfig := {}
  deriving DecidableEq

/-- The part of `MilterSession` read here: the peer address, the value of
`getMtaHostName()` and the effective configuration. -/
structure MilterSession where
  Ip : String
  MtaHostName : String
  config : SessionConfig
  deriving DecidableEq

/-- The struct `Message` (body, date and the mutex are left out; recipients
and sender are kept in their string form). -/
structure Message where
  session : MilterSession
  QueueId : String
  From : String
  Rcpt : List String
  Headers : List MessageHeader
  Verdict : Int := 0
  VerdictMsg : String := ""
  RejectScore : ℚ := 0
  RejectScoreThreshold : ℚ := 0
  TempfailScore : ℚ := 0
  TempfailScoreThreshold : ℚ := 0
  CheckResults : List MessageCheckResult := []
  addHeaders : List MessageHeader := []
  injectMessageId : String := ""
  deriving DecidableEq

/-- Package-level state read by the pipeline, and the clock. -/
structure Globals where
  Exit_On_Panic : Bool
  hostname : String
  MessageModuleGroups : List MessageModuleGroup
  unixNow : Int

/-- A Go array `[4]T`, indexed by an `int`. -/
structure Arr4 (α : Type) where
  a0 : α
  a1 : α
  a2 : α
  a3 : α
  deriving DecidableEq

/-- Read `arr[i]`; `none` is the index-out-of-range panic. -/
def Arr4.get? {α : Type} (arr : Arr4 α) (i : Int) : Option α :=
  if i = 0 then some arr.a0
  else if i = 1 then some arr.a1
  else if i = 2 then some arr.a2
  else if i = 3 then some arr.a3
  else none

/-- Write `arr[i] = v`; `none` is the index-out-of-range panic. -/
def Arr4.set? {α : Type} (arr : Arr4 α) (i : Int) (v : α) : Option (Arr4 α) :=
  if i = 0 then some { arr with a0 := v }
  else if i = 1 then some { arr with a1 := v }
  else if i = 2 then some { arr with a2 := v }
  else if i = 3 then some { arr with a3 := v }
  else none

/-- Apply a function to every cell. -/
def Arr4.map {α β : Type} (f : α → β) (arr : Arr4 α) : Arr4 β :=
  ⟨f arr.a0, f arr.a1, f arr.a2, f arr.a3⟩

/-! ## Strings -/

/-- The loop of `strings.Replace(s, old, new, -1)` for a non-empty `old`: the
counter is the number of characters of a match still to be skipped. -/
def replaceGo (old new : List Char) : Nat → List Char → List Char
  | _, [] => []
  | k + 1, _ :: cs => replaceGo old new k cs
  | 0, c :: cs =>
    if old.isPrefixOf (c :: cs) then new ++ replaceGo old new (old.length - 1) cs
    else c :: replaceGo old new 0 cs

/-- `strings.Replace(s, old, new, -1)`, for the non-empty tokens used here. -/
def stringsReplace (s old new : String) : String :=
  ⟨replaceGo old.data new.data 0 s.data⟩

/-- `strings.EqualFold`, on ASCII letters. -/
def stringsEqualFold (a b : String) : Bool :=
  a.data.map Char.toLower == b.data.map Char.toLower

/-- Round a non-negative rational to the nearest integer, ties to even. -/
def roundHalfEven (q : ℚ) : Nat :=
  let fl := (Rat.floor q).toNat
  let r := q - fl
  if r < 1 / 2 then fl
  else if 1 / 2 < r then fl + 1
  else if fl % 2 = 0 then fl else fl + 1

/-- `fmt.Sprintf("%.2f", x)`. -/
def sprintf2f (x : ℚ) : String :=
  let n := roundHalfEven (|x| * 100)
  let frac := n % 100
  (if x < 0 then "-" else "") ++ toString (n / 100) ++ "." ++
    (if frac < 10 then "0" else "") ++ toString frac

/-! ## Header helpers and the Message-Id -/

/-- The function `MessageGenerateMessageId`, at the clock value `unixNow`. -/
def MessageGenerateMessageId (g : Globals) (queueId host : String) : String :=
  let host := if host ≠ "" then g.hostname else host
  "<" ++ toString g.unixNow ++ "." ++ queueId ++ ".cluegetter@" ++ host ++ ">"

/-- The function `messageGetMessageId`: the value and the message after the
possible assignment of `injectMessageId`. -/
def messageGetMessageId (g : Globals) (msg : Message) : String × Message :=
  match msg.Headers.find? (fun v => stringsEqualFold v.Key "Message-Id") with
  | some v => (v.Value, msg)
  | none =>
    let msg :=
      if msg.injectMessageId = "" then
        { msg with injectMessageId :=
            MessageGenerateMessageId g msg.QueueId msg.session.MtaHostName }
      else msg
    (msg.injectMessageId, msg)

/-- The function `messageEnsureHasMessageId`. -/
def messageEnsureHasMessageId (g : Globals) (msg : Message) : Message :=
  if msg.Headers.any (fun v => stringsEqualFold v.Key "Message-Id") then msg
  else
    let p := messageGetMessageId g msg
    { p.2 with Headers := p.2.Headers ++ [{ Key := "Message-Id", Value := p.1 }] }

/-- The method `substituteStringVars`. -/
def substituteStringVars (msg : Message) (s : String) : String :=
  let sess := msg.session
  let rejectscore : ℚ := msg.CheckResults.foldl
    (fun acc result =>
      if result.SuggestedAction ≠ MessageReject then acc else acc + result.WeightedScore) 0
  let out := stringsReplace s "%{clientIp}" sess.Ip
  let out := stringsReplace out "%{hostname}" sess.MtaHostName
  let out := stringsReplace out "%{rejectScore}" (sprintf2f rejectscore)
  if rejectscore ≥ msg.session.config.Message_Spamflag_Score then
    stringsReplace out "%{spamFlag}" "YES"
  else
    stringsReplace out "%{spamFlag}" "NO"

/-! ## Module-group weighting -/

/-- The first pair of nested loops of `messageWeighResults` for one group: the
weight of the members with a non-error result, and the number of error
results of members. -/
def groupTally (moduleGroup : MessageModuleGroup) (results : List MessageCheckResult) :
    ℚ × Nat :=
  results.foldl
    (fun acc moduleResult =>
      moduleGroup.modules.foldl
        (fun acc moduleGroupModule =>
          if moduleResult.Module ≠ moduleGroupModule.module then acc
          else if moduleResult.SuggestedAction = MessageError then (acc.1, acc.2 + 1)
          else (acc.1 + moduleGroupModule.weight, acc.2))
        acc)
    (0, 0)

/-- The inner loop of the second pair of loops, for one result. -/
def weighOne (moduleGroup : MessageModuleGroup) (multiply : ℚ)
    (moduleResult : MessageCheckResult) : MessageCheckResult :=
  moduleGroup.modules.foldl
    (fun moduleResult moduleGroupModule =>
      if moduleResult.Module ≠ moduleGroupModule.module ∨
          moduleResult.SuggestedAction = MessageError then moduleResult
      else
        { moduleResult with
          WeightedScore := moduleResult.WeightedScore * moduleGroupModule.weight * multiply })
    moduleResult

/-- The body of the loop over the module groups in `messageWeighResults`. -/
def weighGroup (acc : List MessageCheckResult × Int) (moduleGroup : MessageModuleGroup) :
    List MessageCheckResult × Int :=
  let tally := groupTally moduleGroup acc.1
  if (tally.2 : Int) ≠ moduleGroup.modules.length then
    let multiply := 1 * (moduleGroup.totalWeight / tally.1)
    (acc.1.map (weighOne moduleGroup multiply), acc.2 + tally.2)
  else acc

/-- The function `messageWeighResults`: the results after the in-place update
and `ignoreErrorCount`. -/
def messageWeighResults (groups : List MessageModuleGroup)
    (results : List MessageCheckResult) : List MessageCheckResult × Int :=
  groups.foldl weighGroup (results, 0)

/-! ## Collecting the results -/

/-- The local state of the collection loop of `messageGetVerdict`. -/
structure Collected where
  flatResults : List MessageCheckResult
  results : Arr4 (List Nat)
  breakerScore : Arr4 ℚ
  errorCount : Int

/-- The state before the first result arrives. -/
def Collected.init : Collected :=
  ⟨[], ⟨[], [], [], []⟩, ⟨0, 0, 0, 0⟩, 0⟩

/-- One iteration of the collection loop; the flag is `break`, and `none` is
the index-out-of-range panic of `results[result.SuggestedAction]`. -/
def collectStep (sconf : SessionConfig) (st : Collected) (result : MessageCheckResult) :
    Option (Collected × Bool) :=
  let result :=
    if result.Score = 0 then { result with SuggestedAction := MessagePermit } else result
  match st.results.get? result.SuggestedAction,
      st.breakerScore.get? result.SuggestedAction with
  | some lst, some b =>
    match st.results.set? result.SuggestedAction (lst ++ [st.flatResults.length]),
        st.breakerScore.set? result.SuggestedAction (b + result.Score) with
    | some results, some breakerScore =>
      let flatResults := st.flatResults ++ [{ result with WeightedScore := result.Score }]
      if result.SuggestedAction = MessageError then
        some (⟨flatResults, results, breakerScore, st.errorCount + 1⟩, false)
      else if b + result.Score ≥ sconf.Breaker_Score then
        some (⟨flatResults, results, breakerScore, st.errorCount⟩, true)
      else
        some (⟨flatResults, results, breakerScore, st.errorCount⟩, false)
    | _, _ => none
  | _, _ => none

/-- The collection loop over the results in arrival order; `.error st` is a
panic in the state `st`. -/
def collectLoop (sconf : SessionConfig) :
    Collected → List MessageCheckResult → Except Collected Collected
  | st, [] => .ok st
  | st, result :: rest =>
    match collectStep sconf st result with
    | none => .error st
    | some (st1, true) => .ok st1
    | some (st1, false) => collectLoop sconf st1 rest

/-- Follow the pointers of a per-action list into the heap. -/
def deref (heap : List MessageCheckResult) (ptrs : List Nat) : List MessageCheckResult :=
  ptrs.filterMap (fun i => heap[i]?)

/-! ## The verdict -/

/-- The closure `getDecidingResultWithMessage`; `none` is the panic of
`results[0]` on an empty list. -/
def getDecidingResultWithMessage (results : List MessageCheckResult) :
    Option MessageCheckResult :=
  match results with
  | [] => none
  | r0 :: _ =>
    some (results.foldl
      (fun (acc : MessageCheckResult × ℚ) result =>
        if result.WeightedScore > acc.2 ∧ result.Message ≠ "" then
          (result, result.WeightedScore)
        else acc)
      (r0, 0)).1

/-- The loop that sums `WeightedScore` per action and replaces a nil
`Determinants`; `none` is an index-out-of-range panic. -/
def totalsLoop : Arr4 ℚ × List MessageCheckResult → List MessageCheckResult →
    Option (Arr4 ℚ × List MessageCheckResult)
  | acc, [] => some acc
  | acc, result :: rest =>
    match acc.1.get? result.SuggestedAction with
    | none => none
    | some t =>
      match acc.1.set? result.SuggestedAction (t + result.WeightedScore) with
      | none => none
      | some totalScores =>
        let result :=
          if result.Determinants = none then { result with Determinants := some [] }
          else result
        totalsLoop (totalScores, acc.2 ++ [result]) rest

/-- What `messageGetVerdict` hands back when it returns. -/
structure VerdictReturn where
  verdict : Int
  msgStr : String
  results : Arr4 (List MessageCheckResult)
  msg : Message
  deriving DecidableEq

/-- The end of `messageGetVerdict`, from the fallback status message on. -/
def verdictFinish (msg : Message) (st : Collected) (flatResults : List MessageCheckResult)
    (totalScores : Arr4 ℚ) (verdict : Int) (statusMsg : String) : VerdictReturn :=
  let statusMsg :=
    if verdict ≠ MessagePermit ∧ statusMsg = "" then "Reason Unspecified" else statusMsg
  let sconf := msg.session.config
  let msg := { msg with
    Verdict := verdict
    VerdictMsg := substituteStringVars msg statusMsg
    RejectScore := totalScores.a2
    RejectScoreThreshold := sconf.Message_Reject_Score
    TempfailScore := totalScores.a1
    TempfailScoreThreshold := sconf.Message_Tempfail_Score
    CheckResults := flatResults }
  ⟨msg.Verdict, msg.VerdictMsg, st.results.map (deref flatResults), msg⟩

/-- The part of `messageGetVerdict` after the collection loop; `.error` is a
panic, with the per-action lists and the message as they are at that point. -/
def verdictReduce (g : Globals) (msg : Message) (st : Collected) :
    Except (Arr4 (List MessageCheckResult) × Message) VerdictReturn :=
  let weighed := messageWeighResults g.MessageModuleGroups st.flatResults
  let errorCount := st.errorCount - weighed.2
  let msg := messageEnsureHasMessageId g msg
  match totalsLoop (⟨0, 0, 0, 0⟩, []) weighed.1 with
  | none => .error (st.results.map (deref weighed.1), msg)
  | some (totalScores, flatResults) =>
    let sconf := msg.session.config
    if totalScores.a2 ≥ sconf.Message_Reject_Score then
      match getDecidingResultWithMessage (deref flatResults st.results.a2) with
      | none => .error (st.results.map (deref flatResults), msg)
      | some r => .ok (verdictFinish msg st flatResults totalScores MessageReject r.Message)
    else if errorCount > 0 then
      .ok (verdictFinish msg st flatResults totalScores MessageTempFail
        "An internal server error ocurred")
    else if totalScores.a1 + totalScores.a2 ≥ sconf.Message_Tempfail_Score then
      match getDecidingResultWithMessage (deref flatResults st.results.a1) with
      | none => .error (st.results.map (deref flatResults), msg)
      | some r => .ok (verdictFinish msg st flatResults totalScores MessageTempFail r.Message)
    else
      .ok (verdictFinish msg st flatResults totalScores MessagePermit "")

/-- How a call of `messageGetVerdict` ends: it returns, or the panic is not
recovered (`Exit_On_Panic`) and the process goes down. -/
inductive Outcome where
  | returned (r : VerdictReturn)
  | crashed
  deriving DecidableEq

/-- The function `messageGetVerdict`, on the results in arrival order, with
its deferred `recover`. The callbacks run in goroutines of their own, and
`messageSave` only enqueues the archive record (it is taken to return
normally: the sender is set and the record marshals); neither touches what is
returned, and both are left out. -/
def messageGetVerdict (g : Globals) (msg : Message) (arrivals : List MessageCheckResult) :
    Outcome :=
  let body : Except (Arr4 (List MessageCheckResult) × Message) VerdictReturn :=
    match collectLoop msg.session.config Collected.init arrivals with
    | .error st => .error (st.results.map (deref st.flatResults), msg)
    | .ok st => verdictReduce g msg st
  match body with
  | .ok r => .returned r
  | .error (results, msg) =>
    if g.Exit_On_Panic then .crashed
    else .returned ⟨MessageTempFail, "An internal error occurred.", results, msg⟩

/-! ## The header mutator -/

/-- Whether `pat` occurs in a list of characters. -/
def hasInfix (pat : List Char) : List Char → Bool
  | [] => pat.isPrefixOf []
  | c :: cs => pat.isPrefixOf (c :: cs) || hasInfix pat cs

/-- The test `strings.Index(s, sub) != -1`. -/
def stringsContains (s sub : String) : Bool :=
  hasInfix sub.data s.data

/-- The method `GetHeader`. -/
def Message.GetHeader (msg : Message) (key : String) (includeDeleted : Bool) :
    List MessageHeader :=
  msg.Headers.filter (fun hdr => stringsEqualFold hdr.Key key && (includeDeleted || !hdr.deleted))

/-- The first loop of `messageGetMutableHeaders`, from index `k` on: `todo` is what is left of
the slice that `range` iterates, `addHeaders` the current `msg.addHeaders`. `none` is a panic:
`msg.Rcpt[1:]` on a message without recipient, or an index out of range. -/
def expandRecipientsLoop (rcpt : List String) :
    Nat → List MessageHeader → List MessageHeader → Option (List MessageHeader)
  | _, [], addHeaders => some addHeaders
  | k, v :: todo, addHeaders =>
    if stringsContains v.Value "%{recipient}" = false then
      expandRecipientsLoop rcpt (k + 1) todo addHeaders
    else
      match rcpt with
      | [] => none
      | rcpt0 :: others =>
        match addHeaders[k]? with
        | none => none
        | some hk =>
          let addHeaders := addHeaders ++ others.map
            (fun r => { Key := v.Key, Value := stringsReplace hk.Value "%{recipient}" r })
          let addHeaders := addHeaders.set k
            { hk with Value := stringsReplace hk.Value "%{recipient}" rcpt0 }
          expandRecipientsLoop rcpt (k + 1) todo addHeaders

/-- The first loop of `messageGetMutableHeaders`. -/
def expandRecipients (msg : Message) : Option (List MessageHeader) :=
  expandRecipientsLoop msg.Rcpt 0 msg.addHeaders msg.addHeaders

/-- The conditional append of the `Message-Id` header. -/
def appendInjectedMessageId (msg : Message) (addHeaders : List MessageHeader) :
    List MessageHeader :=
  if msg.session.config.Insert_Missing_Message_Id = true ∧ msg.injectMessageId ≠ "" then
    addHeaders ++ [{ Key := "Message-Id", Value := msg.injectMessageId }]
  else addHeaders

/-- The delete list that the second loop builds. -/
def uniqueDeletes (msg : Message) (addHeaders : List MessageHeader) : List MessageHeader :=
  addHeaders.foldl
    (fun delete v => if v.flagUnique then delete ++ msg.GetHeader v.Key false else delete) []

/-- The values after the second loop. -/
def substituteHeaders (msg : Message) (addHeaders : List MessageHeader) : List MessageHeader :=
  addHeaders.map (fun h => { h with Value := substituteStringVars msg h.Value })

/-- The removal loop of `messageGetMutableHeaders`: `n` iterations are left, `i` is the value
that `range` gives to `k`. `none` is an index out of range. -/
def removeEmptyLoop : Nat → Int → Int → List MessageHeader → Option (List MessageHeader)
  | 0, _, _, addHeaders => some addHeaders
  | n + 1, i, deleted, addHeaders =>
    let k := i - deleted
    if k < 0 then none
    else
      match addHeaders[k.toNat]? with
      | none => none
      | some h =>
        if h.Value ≠ "" then removeEmptyLoop n (i + 1) deleted addHeaders
        else
          let addHeaders :=
            if (addHeaders.length : Int) > k then
              addHeaders.take k.toNat ++ addHeaders.drop (k.toNat + 1)
            else addHeaders.take k.toNat
          removeEmptyLoop n (i + 1) (deleted + 1) addHeaders

/-- The list of the add-headers as it is after the substitution loop, before the empty
values are dropped. -/
def substitutedHeaders (msg : Message) : Option (List MessageHeader) :=
  (expandRecipients msg).map (fun l => substituteHeaders msg (appendInjectedMessageId msg l))

/-- The function `messageGetMutableHeaders`: the lists `add` and `delete`; `msg.addHeaders`
is `add` afterwards. The parameter `results` is not used by the source either. -/
def messageGetMutableHeaders (msg : Message) (_results : Arr4 (List MessageCheckResult)) :
    Option (List MessageHeader × List MessageHeader) :=
  match expandRecipients msg with
  | none => none
  | some expanded =>
    let addHeaders := appendInjectedMessageId msg expanded
    let delete := uniqueDeletes msg addHeaders
    let addHeaders := substituteHeaders msg addHeaders
    match removeEmptyLoop addHeaders.length 0 0 addHeaders with
    | none => none
    | some add => some (add, delete)

/-! ## Greylisting -/

/-- The result of an SPF query (the constants of libspf2). -/
inductive SpfResult where
  | INVALID | NEUTRAL | PASS | FAIL | SOFTFAIL | NONE | TEMPERROR | PERMERROR
  deriving DecidableEq

/-- The struct `greylistVerdict`; the date is an instant in nanoseconds. -/
structure greylistVerdict where
  verdict : String
  date : Int
  deriving DecidableEq

/-- A value held by the keyed cache. -/
inductive RedisValue where
  | int (n : Int)
  | str (s : String)
  deriving DecidableEq

/-- An entry of the keyed cache: it is live before `expiresAt` (unix seconds). -/
structure RedisEntry where
  key : String
  value : RedisValue
  expiresAt : Int
  deriving DecidableEq

/-- The live entry of a key at a given time. -/
def redisLookup (store : List RedisEntry) (now : Int) (key : String) : Option RedisEntry :=
  store.find? (fun e => decide (e.key = key ∧ now < e.expiresAt))

/-- The call `redisClient.Get(key).Int64()`: `none` is an error. -/
def redisGetInt64 (store : List RedisEntry) (now : Int) (key : String) : Option Int :=
  match redisLookup store now key with
  | some ⟨_, .int n, _⟩ => some n
  | _ => none

/-- The call `redisClient.Set(key, value, ttl)`, the lifetime in seconds. -/
def redisSet (store : List RedisEntry) (now : Int) (key : String) (value : RedisValue)
    (ttl : Int) : List RedisEntry :=
  ⟨key, value, now + ttl⟩ :: store.filter (fun e => decide (e.key ≠ key))

/-- The call `redisClient.Exists(key).Val()`. -/
def redisExists (store : List RedisEntry) (now : Int) (key : String) : Bool :=
  (redisLookup store now key).isSome

/-- What the greylisting module reads outside the message: the two configuration switches,
the instance number, the clock, the SPF resolver, the answers of the relational store and
the keyed cache. -/
structure GreylistEnv where
  Enabled : Bool
  RedisEnabled : Bool
  instanceId : Nat
  unixNow : Int
  nanoNow : Int
  spfQuery : String → String → Except String SpfResult
  whitelistRows : String → Option Bool
  recentVerdicts : Option (List greylistVerdict)
  redis : List RedisEntry

/-- An `error` value put into the determinants. -/
def errorText : Option String → String
  | none => "<nil>"
  | some e => e

/-- A rational put into the determinants. -/
def ratText (q : ℚ) : String :=
  toString q.num ++ "/" ++ toString q.den

/-- The function `greylistIsSpfWhitelisted`, the loop from a given value of `error` on. -/
def greylistIsSpfWhitelistedLoop (env : GreylistEnv) (ip : String) :
    Option String → List String → Bool × String × Option String
  | error, [] => (false, "", error)
  | error, whitelistDomain :: rest =>
    match env.spfQuery whitelistDomain ip with
    | .error err => greylistIsSpfWhitelistedLoop env ip (some err) rest
    | .ok res =>
      if res = SpfResult.PASS then (true, whitelistDomain, error)
      else greylistIsSpfWhitelistedLoop env ip error rest

/-- The function `greylistIsSpfWhitelisted`. -/
def greylistIsSpfWhitelisted (env : GreylistEnv) (ip : String) (whitelist : List String) :
    Bool × String × Option String :=
  greylistIsSpfWhitelistedLoop env ip none whitelist

/-- The function `greylistIsWhitelistedRedis`. -/
def greylistIsWhitelistedRedis (env : GreylistEnv) (ip : String) : Bool :=
  redisExists env.redis env.unixNow
    ("cluegetter-" ++ toString env.instanceId ++ "-greylisting-ip-" ++ ip)

/-- The function `greylistIsWhitelistedRdbms`: a failed query counts as not whitelisted. -/
def greylistIsWhitelistedRdbms (env : GreylistEnv) (ip : String) : Bool :=
  match env.whitelistRows ip with
  | none => false
  | some found => found

/-- The function `greylistIsWhitelisted`. -/
def greylistIsWhitelisted (env : GreylistEnv) (ip : String) : Bool :=
  if env.RedisEnabled then greylistIsWhitelistedRedis env ip
  else greylistIsWhitelistedRdbms env ip

/-- The cache key of a message: instance, peer address, sender and recipients. -/
def greylistMsgKey (env : GreylistEnv) (msg : Message) : String :=
  "cluegetter-" ++ toString env.instanceId ++ "-greylisting-msg-" ++ msg.session.Ip ++ "_" ++
    msg.From ++ "_" ++ "[" ++ " ".intercalate msg.Rcpt ++ "]"

/-- The function `greylistGetVerdictRedis`: the result and the cache afterwards. -/
def greylistGetVerdictRedis (env : GreylistEnv) (msg : Message)
    (spfWhitelistErr : Option String) (spfDomain : String) :
    MessageCheckResult × List RedisEntry :=
  let determinants : List (String × String) :=
    [("Found in whitelist", "false"), ("Found in SPF whitelist", "false"),
      ("SpfError", errorText spfWhitelistErr), ("SpfDomain", spfDomain), ("Store", "redis")]
  let sess := msg.session
  let key := greylistMsgKey env msg
  let tempfail (determinants : List (String × String)) : MessageCheckResult :=
    { Module := "greylisting", SuggestedAction := MessageTempFail,
      Message := "Greylisting in effect, please come back later",
      Score := sess.config.Greylisting.Initial_Score, Determinants := some determinants }
  match redisGetInt64 env.redis env.unixNow key with
  | some res =>
    let determinants := determinants ++ [("time_diff", toString (env.unixNow - res))]
    if res + (sess.config.Greylisting.Initial_Period : Int) * 60 < env.unixNow then
      ({ Module := "greylisting", SuggestedAction := MessagePermit, Message := "", Score := 1,
         Determinants := some determinants }, env.redis)
    else (tempfail determinants, env.redis)
  | none =>
    (tempfail determinants,
      redisSet env.redis env.unixNow key (.int env.unixNow) (90 * 60))

/-- The function `greylistGetVerdictRdbms`, on the rows that `greylistGetRecentVerdicts`
returns; `none` is the panic of `(*verdicts)[0]` on an empty list. -/
def greylistGetVerdictRdbms (env : GreylistEnv) (msg : Message)
    (verdicts : List greylistVerdict) (spfWhitelistErr : Option String) (spfDomain : String) :
    Option MessageCheckResult :=
  let counts : Nat × Nat := verdicts.foldl
    (fun acc verdict =>
      if verdict.verdict = "permit" then (acc.1 + 1, acc.2) else (acc.1, acc.2 + 1)) (0, 0)
  let allowCount := counts.1
  let disallowCount := counts.2
  let timeDiff? : Option ℚ :=
    if allowCount > 0 ∨ disallowCount > 0 then
      match verdicts[0]? with
      | none => none
      | some firstVerdict => some (((env.nanoNow - firstVerdict.date : Int) : ℚ) / 60000000000)
    else some (-1)
  match timeDiff? with
  | none => none
  | some timeDiff =>
    let determinants : List (String × String) :=
      [("verdicts_allow", toString allowCount), ("verdicts_disallow", toString disallowCount),
        ("time_diff", ratText timeDiff), ("Found in whitelist", "false"),
        ("Found in SPF whitelist", "false"), ("SpfError", errorText spfWhitelistErr),
        ("SpfDomain", spfDomain)]
    if allowCount > 0 ∨ timeDiff > (msg.session.config.Greylisting.Initial_Period : ℚ) then
      some { Module := "greylisting", SuggestedAction := MessagePermit, Message := "",
             Score := 1, Determinants := some determinants }
    else
      some { Module := "greylisting", SuggestedAction := MessageTempFail,
             Message := "Greylisting in effect, please come back later",
             Score := msg.session.config.Greylisting.Initial_Score,
             Determinants := some determinants }

/-- The function `greylistGetRecentVerdicts`: `none` is a panic, of `msg.Rcpt[0]` on a message
without recipient or of the failed query. -/
def greylistGetRecentVerdicts (env : GreylistEnv) (msg : Message) :
    Option (List greylistVerdict) :=
  match msg.Rcpt with
  | [] => none
  | _ :: _ => env.recentVerdicts

/-- The function `greylistGetResult` of the core package: `none` is a panic; a result `none`
is the nil that a disabled module returns; the second component is the cache afterwards. -/
def greylistGetResult (env : GreylistEnv) (msg : Message) :
    Option (Option MessageCheckResult × List RedisEntry) :=
  if env.Enabled = false ∨ msg.session.config.Greylisting.Enabled = false then
    some (none, env.redis)
  else
    let ip := msg.session.Ip
    let whitelist := msg.session.config.Greylisting.Whitelist_Spf
    let spf := greylistIsSpfWhitelisted env ip whitelist
    if spf.1 then
      some (some { Module := "greylisting", SuggestedAction := MessagePermit, Message := "",
                   Score := 1,
                   Determinants := some [("Found in SPF whitelist", "true"),
                     ("SpfError", errorText spf.2.2), ("SpfDomain", spf.2.1)] }, env.redis)
    else if greylistIsWhitelisted env ip then
      some (some { Module := "greylisting", SuggestedAction := MessagePermit, Message := "",
                   Score := 1,
                   Determinants := some [("Found in whitelist", "true"),
                     ("Found in SPF whitelist", "false"), ("SpfError", errorText spf.2.2),
                     ("SpfDomain", spf.2.1)] }, env.redis)
    else if env.RedisEnabled then
      let r := greylistGetVerdictRedis env msg spf.2.2 spf.2.1
      some (some r.1, r.2)
    else
      match greylistGetRecentVerdicts env msg with
      | none => none
      | some verdicts =>
        match greylistGetVerdictRdbms env msg verdicts spf.2.2 spf.2.1 with
        | none => none
        | some r => some (some r, env.redis)

/-! ## Module-group configuration -/

deriving instance DecidableEq for Except

/-- The call `strings.SplitN(v, " ", 2)` on the characters of `v`: the text before the first
space and, when there is a space, the text after it. -/
def splitAtSpace : List Char → List Char × Option (List Char)
  | [] => ([], none)
  | c :: cs =>
    if c = ' ' then ([], some cs)
    else ((c :: (splitAtSpace cs).1), (splitAtSpace cs).2)

/-- The slice that `strings.SplitN(v, " ", 2)` returns. -/
def stringsSplitN2 (v : String) : List String :=
  match splitAtSpace v.data with
  | (a, none) => [⟨a⟩]
  | (a, some b) => [⟨a⟩, ⟨b⟩]

/-- The map `modules` of `messageStartModuleGroups`: the module names it knows. -/
def knownModules : List String := ["quotas", "spamassassin", "greylisting", "rspamd"]

/-- The value of a decimal digit. -/
def digitValue (c : Char) : Option Nat :=
  if '0' ≤ c ∧ c ≤ '9' then some (c.toNat - 48) else none

/-- The number written by a non-empty run of decimal digits. -/
def parseDigits (cs : List Char) : Option Nat :=
  if cs = [] then none
  else cs.foldl (fun acc c => acc.bind (fun n => (digitValue c).map (fun d => 10 * n + d)))
    (some 0)

/-- The unsigned decimal literals `digits` and `digits.digits`. -/
def parseUnsigned (cs : List Char) : Option ℚ :=
  match cs.span (fun c => c ≠ '.') with
  | (ip, []) => (parseDigits ip).map (fun n => (n : ℚ))
  | (ip, _ :: fp) =>
    (parseDigits ip).bind (fun n =>
      (parseDigits fp).map (fun f => (n : ℚ) + (f : ℚ) / (10 : ℚ) ^ fp.length))

/-- What `strconv.ParseFloat(s, 64)` returns for a plain decimal literal with an optional
sign, `none` being an error. The further forms that `strconv.ParseFloat` reads (exponents,
hexadecimal, `Inf`, `NaN`) are not covered: they are an error here. -/
def parseDecimal (s : String) : Option ℚ :=
  match s.data with
  | '-' :: cs => (parseUnsigned cs).map (fun q => -q)
  | '+' :: cs => parseUnsigned cs
  | cs => parseUnsigned cs

/-- The loop over the entries of one group in `messageStartModuleGroups`. `done` are the
groups appended before, `cur` the members of the group at hand that are set so far (the
others are nil and skipped), `total` its `totalWeight`. `ParseFloat` is
`strconv.ParseFloat(s, 64)`; `.error` is `Log.Fatalf`. -/
def moduleLoop (ParseFloat : String → Option ℚ) (groupName : String)
    (done : List MessageModuleGroup) :
    List MessageModuleGroupMember → ℚ → List String →
      Except String (List MessageModuleGroupMember × ℚ)
  | cur, total, [] => .ok (cur, total)
  | cur, total, v :: rest =>
    match stringsSplitN2 v with
    | split0 :: split1 :: _ =>
      if ¬ (split1 ∈ knownModules) then
        .error ("Unknown module specified for module group " ++ groupName ++ ": " ++ split1)
      else
        match ParseFloat split0 with
        | none =>
          .error ("Invalid weight specified in module group " ++ groupName ++ "/" ++ split1)
        | some weight =>
          match (done ++ [({ modules := cur, name := groupName, totalWeight := total } :
              MessageModuleGroup)]).find?
              (fun existingGroup => existingGroup.modules.any
                (fun existing => decide (split1 = existing.module))) with
          | some existingGroup =>
            .error ("Module " ++ split1 ++ " is already part of module group '" ++
              existingGroup.name ++ "', cannot add to '" ++ groupName ++ "'")
          | none => moduleLoop ParseFloat groupName done (cur ++ [({ module := split1, weight := weight } : MessageModuleGroupMember)])
              (total + weight) rest
    | _ =>
      .error ("Config Error: Incorrectly formatted module group " ++ groupName ++ "/" ++ v)

/-- The loop over `Config.ModuleGroup` in `messageStartModuleGroups`, in the order in which
the map is iterated: each entry is a group name with its `Module` list. -/
def groupLoop (ParseFloat : String → Option ℚ) :
    List MessageModuleGroup → List (String × List String) →
      Except String (List MessageModuleGroup)
  | groups, [] => .ok groups
  | groups, (groupName, modules) :: rest =>
    if modules.length = 0 then
      .error ("Config Error: Module Group " ++ groupName ++ " does not have any modules")
    else
      match moduleLoop ParseFloat groupName groups [] 0 modules with
      | .error e => .error e
      | .ok (members, total) =>
        groupLoop ParseFloat
          (groups ++ [{ modules := members, name := groupName, totalWeight := total }]) rest

/-- The function `messageStartModuleGroups`: the value of `MessageModuleGroups` afterwards,
which is empty before the call; `.error` is `Log.Fatalf`. -/
def messageStartModuleGroups (ParseFloat : String → Option ℚ)
    (config : List (String × List String)) : Except String (List MessageModuleGroup) :=
  groupLoop ParseFloat [] config

/-- What ties a member to its configuration entry: the entry is `weight module`, the module
is a known one and the weight is the number read from the entry. -/
def memberOfEntry (ParseFloat : String → Option ℚ) (m : MessageModuleGroupMember)
    (v : String) : Prop :=
  ∃ split0 more, stringsSplitN2 v = split0 :: m.module :: more ∧
    m.module ∈ knownModules ∧ ParseFloat split0 = some m.weight

/-- What ties a group to its configuration entry. -/
def groupOfEntry (ParseFloat : String → Option ℚ) (g : MessageModuleGroup)
    (c : String × List String) : Prop :=
  g.name = c.1 ∧ g.modules ≠ [] ∧ List.Forall₂ (memberOfEntry ParseFloat) g.modules c.2 ∧
    g.totalWeight = (g.modules.map (fun m => m.weight)).sum

/-! ## The archive record -/

/-- The bytes of the field `Determinants` of an archive record, by what `json.Unmarshal`
makes of them: the text `null`, an object, another value, or no JSON text at all (with the
text of the error). -/
inductive JsonBytes where
  | null
  | object (entries : List (String × String))
  | other
  | invalid (err : String)
  deriving DecidableEq

/-- The call `json.Marshal(result.Determinants)`: `null` for the nil map, an object
otherwise. -/
def jsonMarshal : Option (List (String × String)) → JsonBytes
  | none => .null
  | some entries => .object entries

/-- The conversion of an `int` to the `int32` of `Proto_Message_Verdict`. -/
def toInt32 (n : Int) : Int :=
  (n + 2 ^ 31) % 2 ^ 32 - 2 ^ 31

/-- The struct `Proto_Message_Header`. -/
structure Proto_Message_Header where
  Key : String
  Value : String
  deriving DecidableEq

/-- The struct `Proto_Message_CheckResult` (the duration is left out, as it is in
`MessageCheckResult`). -/
structure Proto_Message_CheckResult where
  MessageId : String
  Module : String
  Verdict : Int
  Score : ℚ
  WeightedScore : ℚ
  Determinants : JsonBytes
  deriving DecidableEq

/-- The struct `Proto_Message` (body and session are left out, as they are in `Message`). -/
structure Proto_Message where
  Id : String
  From : String
  Rcpt : List String
  Headers : List Proto_Message_Header
  Verdict : Int
  VerdictMsg : String
  RejectScore : ℚ
  RejectScoreThreshold : ℚ
  TempfailScore : ℚ
  TempfailScoreThreshold : ℚ
  CheckResults : List Proto_Message_CheckResult
  deriving DecidableEq

/-- The record `protoStruct` that `messageSave` builds from the message; marshalling it and
handing it to the queue are left out. The addresses are in their string form already, which
is what `String()` gives. -/
def messageSave (msg : Message) : Proto_Message :=
  { Id := msg.QueueId
    From := msg.From
    Rcpt := msg.Rcpt
    Headers := msg.Headers.map (fun v => { Key := v.Key, Value := v.Value })
    Verdict := toInt32 msg.Verdict
    VerdictMsg := msg.VerdictMsg
    RejectScore := msg.RejectScore
    RejectScoreThreshold := msg.RejectScoreThreshold
    TempfailScore := msg.TempfailScore
    TempfailScoreThreshold := msg.TempfailScoreThreshold
    CheckResults := msg.CheckResults.map (fun result =>
      { MessageId := msg.QueueId
        Module := result.Module
        Verdict := toInt32 result.SuggestedAction
        Score := result.Score
        WeightedScore := result.WeightedScore
        Determinants := jsonMarshal result.Determinants }) }

/-- The session of a message whose session is not set (the nil pointer); no field of it is
read below. -/
def unsetSession : MilterSession :=
  { Ip := "", MtaHostName := "",
    config := { Breaker_Score := 0, Message_Reject_Score := 0, Message_Tempfail_Score := 0,
                Message_Spamflag_Score := 0 } }

/-- The function `NewMessage`, with the value of `MessageInsertHeaders`. -/
def NewMessage (MessageInsertHeaders : List MessageHeader) : Message :=
  { session := unsetSession, QueueId := "", From := "", Rcpt := [], Headers := [],
    addHeaders := MessageInsertHeaders }

/-- The body of the loop over the check results in `GetAsMessage`; `none` is the panic of the
type assertion `determinants.(map[string]interface{})`. -/
def restoreCheckResult (checkResult : Proto_Message_CheckResult) : Option MessageCheckResult :=
  let determinantsMap : Option (List (String × String)) :=
    match checkResult.Determinants with
    | .invalid err =>
      some [("error",
        "Could not unmarshal determinants from Elasticsearch Database: " ++ err)]
    | .object entries => some entries
    | .null => none
    | .other => none
  determinantsMap.map (fun m =>
    { Module := checkResult.Module
      SuggestedAction := checkResult.Verdict
      Message := ""
      Score := checkResult.Score
      WeightedScore := checkResult.WeightedScore
      Determinants := some m })

/-- Modelled from the spec: the type `address.Address`, whose package is not part of the
sources at hand: an address is `(local, domain)`. -/
structure Address where
  Local : String
  Domain : String
  deriving DecidableEq

/-- Modelled from the spec: the method `String` of an address, "rendered as `local@domain`". -/
def addressString (a : Address) : String :=
  a.Local ++ "@" ++ a.Domain

/-- Modelled from the spec: the function `address.FromString`, which splits an address into
local part and domain; the split is taken at the last `@`, and a text without `@` is all
local part. -/
def addressFromString (s : String) : Address :=
  match s.data.reverse.span (fun c => c ≠ '@') with
  | (_, []) => { Local := s, Domain := "" }
  | (domain, _ :: loc) => { Local := ⟨loc.reverse⟩, Domain := ⟨domain.reverse⟩ }

/-- The call `address.FromString(s)` on a message in which the addresses are kept in their
string form: the string form of the address read. -/
def fromStringForm (s : String) : String :=
  addressString (addressFromString s)

/-- The method `GetAsMessage`; `none` is a panic. -/
def GetAsMessage (MessageInsertHeaders : List MessageHeader) (msg : Proto_Message) :
    Option Message :=
  let out := NewMessage MessageInsertHeaders
  let out := { out with
    QueueId := msg.Id
    From := fromStringForm msg.From
    Verdict := msg.Verdict
    VerdictMsg := msg.VerdictMsg
    RejectScore := msg.RejectScore
    RejectScoreThreshold := msg.RejectScoreThreshold
    TempfailScore := msg.TempfailScore
    TempfailScoreThreshold := msg.TempfailScoreThreshold }
  let out := { out with Rcpt := out.Rcpt ++ msg.Rcpt.map fromStringForm }
  let out := { out with
    Headers := out.Headers ++
      msg.Headers.map (fun hdr : Proto_Message_Header =>
        ({ Key := hdr.Key, Value := hdr.Value } : MessageHeader)) }
  (msg.CheckResults.mapM restoreCheckResult).map (fun restored =>
    { out with CheckResults := out.CheckResults ++ restored })

/-- The values of an `int` that the conversion to `int32` keeps. -/
abbrev inInt32 (n : Int) : Prop :=
  -(2 ^ 31) ≤ n ∧ n < 2 ^ 31

/-- A header as the archive keeps it: key and value, the other fields at their zero
values. -/
def MessageHeader.archived (h : MessageHeader) : MessageHeader :=
  { Key := h.Key, Value := h.Value }

/-- A check result as the archive gives it back: without the message. -/
def MessageCheckResult.archived (r : MessageCheckResult) : MessageCheckResult :=
  { r with Message := "" }

/-- The text is the string form of an address whose domain holds no `@`. -/
def isAddressForm (s : String) : Prop :=
  ∃ a : Address, s = addressString a ∧ '@' ∉ a.Domain.data

/-! ## Definitions for the statements and proofs -/

/-- What the collection loop stores for an arriving result: a score of 0 turns the action into
permit, and `WeightedScore` starts as `Score`. -/
def normalizeResult (result : MessageCheckResult) : MessageCheckResult :=
  { (if result.Score = 0 then { result with SuggestedAction := MessagePermit } else result) with
    WeightedScore := result.Score }

/-- An action that indexes the arrays of length 4: one of the four known actions. -/
def validAction (a : Int) : Prop := a = 0 ∨ a = 1 ∨ a = 2 ∨ a = 3

instance (a : Int) : Decidable (validAction a) := by unfold validAction; infer_instance

/-- The pointers, in order, to the results of action `K` in a heap whose actions are `acts`. -/
def ptrsOf (acts : List Int) (K : Int) : List Nat :=
  (List.range acts.length).filter (fun i => decide (acts[i]? = some K))

/-- What the collection loop maintains: the actions are known ones, each per-action list holds
the pointers to the results of its action, and the error count is the number of error results. -/
structure CollectInv (st : Collected) : Prop where
  valid : ∀ r ∈ st.flatResults, validAction r.SuggestedAction
  p0 : st.results.a0 = ptrsOf (st.flatResults.map (·.SuggestedAction)) 0
  p1 : st.results.a1 = ptrsOf (st.flatResults.map (·.SuggestedAction)) 1
  p2 : st.results.a2 = ptrsOf (st.flatResults.map (·.SuggestedAction)) 2
  p3 : st.results.a3 = ptrsOf (st.flatResults.map (·.SuggestedAction)) 3
  errs : st.errorCount =
    ((st.flatResults.filter (fun r => decide (r.SuggestedAction = MessageError))).length : Int)

/-- The running raw-score total of an action over the results collected so far. -/
def runningTotal (flat : List MessageCheckResult) (K : Int) : ℚ :=
  ((flat.filter (fun r => decide (r.SuggestedAction = K))).map (·.Score)).sum

/-- Read the cell of a known action. -/
def Arr4.sel {α : Type} (arr : Arr4 α) (i : Int) : α :=
  if i = 0 then arr.a0 else if i = 1 then arr.a1 else if i = 2 then arr.a2 else arr.a3

/-- Update the cell of a known action. -/
def Arr4.upd {α : Type} (arr : Arr4 α) (i : Int) (f : α → α) : Arr4 α :=
  if i = 0 then { arr with a0 := f arr.a0 }
  else if i = 1 then { arr with a1 := f arr.a1 }
  else if i = 2 then { arr with a2 := f arr.a2 }
  else { arr with a3 := f arr.a3 }

/-- What the collection loop maintains for the breaker: each cell of `breakerScore` is the
running raw-score total of its action. -/
structure BreakerInv (st : Collected) : Prop where
  b0 : st.breakerScore.a0 = runningTotal st.flatResults 0
  b1 : st.breakerScore.a1 = runningTotal st.flatResults 1
  b2 : st.breakerScore.a2 = runningTotal st.flatResults 2
  b3 : st.breakerScore.a3 = runningTotal st.flatResults 3

/-- Whether the list of results collected so far ends at a result that brings the running
raw-score total of its own action to the breaker score; with `withError` the error action
counts too. -/
def crossesAt (withError : Bool) (sconf : SessionConfig) (p : List MessageCheckResult) : Bool :=
  match p.getLast? with
  | none => false
  | some x =>
    (withError || decide (x.SuggestedAction ≠ MessageError)) &&
      decide (runningTotal p x.SuggestedAction ≥ sconf.Breaker_Score)

/-- Two results that differ at most in `WeightedScore`. -/
def sameShape (r r1 : MessageCheckResult) : Prop :=
  r1 = { r with WeightedScore := r1.WeightedScore }

/-- The contribution of one result to the tally of a group. -/
def tallyInner (G : MessageModuleGroup) (acc : ℚ × Nat) (r : MessageCheckResult) : ℚ × Nat :=
  G.modules.foldl
    (fun acc moduleGroupModule =>
      if r.Module ≠ moduleGroupModule.module then acc
      else if r.SuggestedAction = MessageError then (acc.1, acc.2 + 1)
      else (acc.1 + moduleGroupModule.weight, acc.2))
    acc

/-- What the loop over one group does to one result, the tally being that of `l`. -/
def groupStep (l : List MessageCheckResult) (r : MessageCheckResult) (G : MessageModuleGroup) :
    MessageCheckResult :=
  if ((groupTally G l).2 : Int) ≠ G.modules.length then
    weighOne G (1 * (G.totalWeight / (groupTally G l).1)) r
  else r

/-- What `messageWeighResults` does to one result of the list `l`. -/
def weighAll (gs : List MessageModuleGroup) (l : List MessageCheckResult)
    (r : MessageCheckResult) : MessageCheckResult :=
  gs.foldl (groupStep l) r

/-- The number of error results that a group makes `messageWeighResults` ignore. -/
def groupIgnored (l : List MessageCheckResult) (G : MessageModuleGroup) : Int :=
  if ((groupTally G l).2 : Int) ≠ G.modules.length then ((groupTally G l).2 : Int) else 0

/-- The sum of `WeightedScore` over the results of one action. -/
def sumWeighted (l : List MessageCheckResult) (K : Int) : ℚ :=
  ((l.filter (fun r => decide (r.SuggestedAction = K))).map (·.WeightedScore)).sum

/-- The replacement of a nil `Determinants` in the totals loop. -/
def fixDeterminants (result : MessageCheckResult) : MessageCheckResult :=
  if result.Determinants = none then { result with Determinants := some [] } else result

/-- The verdict and the status message as functions of the list of collected results; `none`
is the panic of `getDecidingResultWithMessage` on an empty list. -/
def reduceSpec (g : Globals) (msg : Message) (flat : List MessageCheckResult) :
    Option (Int × String) :=
  let w := messageWeighResults g.MessageModuleGroups flat
  let heap := w.1.map fixDeterminants
  let errorCount : Int :=
    ((flat.filter (fun r => decide (r.SuggestedAction = MessageError))).length : Int) - w.2
  let fin : Int → String → Option (Int × String) := fun v s =>
    some (v, substituteStringVars msg
      (if v ≠ MessagePermit ∧ s = "" then "Reason Unspecified" else s))
  if sumWeighted w.1 MessageReject ≥ msg.session.config.Message_Reject_Score then
    (getDecidingResultWithMessage
      (heap.filter (fun r => decide (r.SuggestedAction = MessageReject)))).bind
        (fun r => fin MessageReject r.Message)
  else if errorCount > 0 then fin MessageTempFail "An internal server error ocurred"
  else if sumWeighted w.1 MessageTempFail + sumWeighted w.1 MessageReject ≥
      msg.session.config.Message_Tempfail_Score then
    (getDecidingResultWithMessage
      (heap.filter (fun r => decide (r.SuggestedAction = MessageTempFail)))).bind
        (fun r => fin MessageTempFail r.Message)
  else fin MessagePermit ""

/-- The verdict and the status message of an outcome. -/
def Outcome.view : Outcome → Option (Int × String)
  | .returned r => some (r.verdict, r.msgStr)
  | .crashed => none

/-- The loop body of `getDecidingResultWithMessage`. -/
def decidingStep (acc : MessageCheckResult × ℚ) (result : MessageCheckResult) :
    MessageCheckResult × ℚ :=
  if result.WeightedScore > acc.2 ∧ result.Message ≠ "" then (result, result.WeightedScore)
  else acc

/-- A session configuration with the given reject and tempfail thresholds. -/
def exampleConfig (reject tempfail : ℚ) : SessionConfig :=
  { Breaker_Score := 100, Message_Reject_Score := reject, Message_Tempfail_Score := tempfail,
    Message_Spamflag_Score := 5 }

/-- A fresh message of a session with the given configuration. -/
def exampleMessage (sconf : SessionConfig) : Message :=
  { session := ⟨"192.0.2.1", "mx.example.org", sconf⟩, QueueId := "4F2A",
    From := "alice@example.org", Rcpt := ["bob@example.net"], Headers := [] }

/-- Package-level state with the given panic switch and module groups. -/
def exampleGlobals (exitOnPanic : Bool) (groups : List MessageModuleGroup) : Globals :=
  ⟨exitOnPanic, "filter.example.net", groups, 1456000000⟩

/-- The remaining error count of `messageGetVerdict`: the error results collected, less those
that `messageWeighResults` ignores. -/
def remainingErrors (g : Globals) (flat : List MessageCheckResult) : Int :=
  ((flat.filter (fun r => decide (r.SuggestedAction = MessageError))).length : Int) -
    (messageWeighResults g.MessageModuleGroups flat).2

/-- The results after weighting. -/
def weighted (g : Globals) (flat : List MessageCheckResult) : List MessageCheckResult :=
  (messageWeighResults g.MessageModuleGroups flat).1

/-- The list of results that the collection loop of `messageGetVerdict` gathers from the
results in arrival order; `none` when the loop panics. -/
def collectedResults (sconf : SessionConfig) (arrivals : List MessageCheckResult) :
    Option (List MessageCheckResult) :=
  match collectLoop sconf Collected.init arrivals with
  | .ok st => some st.flatResults
  | .error _ => none

/-- One collected result: the error result that `messageGetResults` posts for a module
that panicked. -/
def arrivalsOneError : List MessageCheckResult :=
  [{ Module := "quotas", SuggestedAction := MessageError,
     Message := "An internal error ocurred", Score := 25 }]

/-- One collected result: spamassassin suggests reject with score 3. -/
def arrivalsLowReject : List MessageCheckResult :=
  [{ Module := "spamassassin", SuggestedAction := MessageReject, Message := "spam",
     Score := 3 }]

/-- The result of module A in the first scenario: score 10, reject. -/
def resultA : MessageCheckResult :=
  { Module := "quotas", SuggestedAction := MessageReject, Message := "Policy rejection",
    Score := 10 }

/-- The result of module B in the first scenario: score 0, permit. -/
def resultB : MessageCheckResult :=
  { Module := "greylisting", SuggestedAction := MessagePermit, Message := "", Score := 0 }

/-- The weight that one result adds to the tally of a group. -/
def tallyWeight (G : MessageModuleGroup) (r : MessageCheckResult) : ℚ :=
  ((G.modules.filter
    (fun m => decide (r.Module = m.module ∧ r.SuggestedAction ≠ MessageError))).map
      (·.weight)).sum

/-- The number of errors that one result adds to the tally of a group. -/
def tallyErrors (G : MessageModuleGroup) (r : MessageCheckResult) : Nat :=
  (G.modules.filter
    (fun m => decide (r.Module = m.module ∧ r.SuggestedAction = MessageError))).length

/-- Every member of the group has an error result. -/
def allErrored (G : MessageModuleGroup) (results : List MessageCheckResult) : Prop :=
  ∀ m ∈ G.modules, ∃ r ∈ results, r.Module = m.module ∧ r.SuggestedAction = MessageError

instance (G : MessageModuleGroup) (results : List MessageCheckResult) :
    Decidable (allErrored G results) := by
  unfold allErrored; infer_instance

/-- The sum of the weights of the members of the group whose result is not an error. -/
def liveWeight (G : MessageModuleGroup) (results : List MessageCheckResult) : ℚ :=
  ((G.modules.filter
    (fun m => decide (∃ r ∈ results, r.Module = m.module ∧
      r.SuggestedAction ≠ MessageError))).map (·.weight)).sum

/-- The number of members of the group whose result is an error. -/
def erroredMembers (G : MessageModuleGroup) (results : List MessageCheckResult) : Nat :=
  (G.modules.filter
    (fun m => decide (∃ r ∈ results, r.Module = m.module ∧
      r.SuggestedAction = MessageError))).length

/-- The loop body of the second pair of loops for one result and one member. -/
def weighMember (mult : ℚ) (moduleResult : MessageCheckResult)
    (moduleGroupModule : MessageModuleGroupMember) : MessageCheckResult :=
  if moduleResult.Module ≠ moduleGroupModule.module ∨
      moduleResult.SuggestedAction = MessageError then moduleResult
  else
    { moduleResult with
      WeightedScore := moduleResult.WeightedScore * moduleGroupModule.weight * mult }

/-- The module group of the fifth scenario: quotas with weight 1, spamassassin with weight 3. -/
def groupQS : MessageModuleGroup :=
  ⟨[⟨"quotas", 1⟩, ⟨"spamassassin", 3⟩], "antispam", 4⟩

/-- The collected results of the fifth scenario: quotas errors, spamassassin scores 2, reject. -/
def resultsQS : List MessageCheckResult :=
  [{ Module := "quotas", SuggestedAction := MessageError, Message := "An internal error ocurred",
     Score := 25, WeightedScore := 25 },
   { Module := "spamassassin", SuggestedAction := MessageReject, Message := "spam", Score := 2,
     WeightedScore := 2 }]

/-- The errors of one result that the groups make `messageWeighResults` ignore. -/
def ignoredOf (gs : List MessageModuleGroup) (l : List MessageCheckResult)
    (r : MessageCheckResult) : Nat :=
  (gs.map (fun H =>
    if ((groupTally H l).2 : Int) ≠ H.modules.length then tallyErrors H r else 0)).sum

/-- Collected results in which both members of the group error. -/
def resultsBothError : List MessageCheckResult :=
  [{ Module := "quotas", SuggestedAction := MessageError, Message := "", Score := 25,
     WeightedScore := 25 },
   { Module := "spamassassin", SuggestedAction := MessageError, Message := "", Score := 25,
     WeightedScore := 25 }]

/-- Multiply the weighted score of a result. -/
def scaleResult (r : MessageCheckResult) (c : ℚ) : MessageCheckResult :=
  { r with WeightedScore := r.WeightedScore * c }

/-- The factor by which `messageWeighResults` multiplies the weighted score of a result of
the list `l`: what becomes of a weighted score of 1. -/
def weighFactor (gs : List MessageModuleGroup) (l : List MessageCheckResult)
    (r : MessageCheckResult) : ℚ :=
  (weighAll gs l { r with WeightedScore := 1 }).WeightedScore

/-- A session configuration with the breaker score 20. -/
def breakerConfig : SessionConfig :=
  { Breaker_Score := 20, Message_Reject_Score := 50, Message_Tempfail_Score := 40,
    Message_Spamflag_Score := 5 }

/-- Three results in arrival order: permit 15, permit 10, reject 3. -/
def arrivalsPermit : List MessageCheckResult :=
  [{ Module := "greylisting", SuggestedAction := MessagePermit, Message := "", Score := 15 },
   { Module := "quotas", SuggestedAction := MessagePermit, Message := "", Score := 10 },
   { Module := "spamassassin", SuggestedAction := MessageReject, Message := "spam", Score := 3 }]

/-- Two results in arrival order: an error with score 25, then permit 1. -/
def arrivalsError : List MessageCheckResult :=
  [{ Module := "quotas", SuggestedAction := MessageError, Message := "An internal error ocurred",
     Score := 25 },
   { Module := "greylisting", SuggestedAction := MessagePermit, Message := "", Score := 1 }]

/-- The verdict alone, as a function of the collected list; `none` is the panic. -/
def verdictOnly (g : Globals) (msg : Message) (flat : List MessageCheckResult) : Option Int :=
  if sumWeighted (weighted g flat) MessageReject ≥ msg.session.config.Message_Reject_Score then
    if ((weighted g flat).filter (fun r => decide (r.SuggestedAction = MessageReject))).length = 0
    then none else some MessageReject
  else if remainingErrors g flat > 0 then some MessageTempFail
  else if sumWeighted (weighted g flat) MessageTempFail +
      sumWeighted (weighted g flat) MessageReject ≥
        msg.session.config.Message_Tempfail_Score then
    if ((weighted g flat).filter
      (fun r => decide (r.SuggestedAction = MessageTempFail))).length = 0
    then none else some MessageTempFail
  else some MessagePermit

/-- The verdict of an outcome; `none` when the process goes down. -/
def Outcome.verdict? (o : Outcome) : Option Int :=
  o.view.map Prod.fst

/-- The state in which the collection loop ends when it has collected exactly the list
`flat`: the per-action pointer lists, the running totals and the error count. -/
def Collected.ofList (flat : List MessageCheckResult) : Collected :=
  ⟨flat,
    ⟨ptrsOf (flat.map (·.SuggestedAction)) 0, ptrsOf (flat.map (·.SuggestedAction)) 1,
      ptrsOf (flat.map (·.SuggestedAction)) 2, ptrsOf (flat.map (·.SuggestedAction)) 3⟩,
    ⟨runningTotal flat 0, runningTotal flat 1, runningTotal flat 2, runningTotal flat 3⟩,
    ((flat.filter (fun r => decide (r.SuggestedAction = MessageError))).length : Int)⟩

/-- The verdict that the weighting and reduction steps compute from a state of the
collection; `none` is a panic. -/
def reducedVerdict (g : Globals) (msg : Message) (st : Collected) : Option Int :=
  match verdictReduce g msg st with
  | .ok r => some r.verdict
  | .error _ => none

/-- The body of `messageGetVerdict`, before the deferred `recover` acts: `.error` is a panic,
with the per-action lists and the message as they are at that point. -/
def verdictBody (g : Globals) (msg : Message) (arrivals : List MessageCheckResult) :
    Except (Arr4 (List MessageCheckResult) × Message) VerdictReturn :=
  match collectLoop msg.session.config Collected.init arrivals with
  | .error st => .error (st.results.map (deref st.flatResults), msg)
  | .ok st => verdictReduce g msg st

/-- Whether an internal failure (a panic) occurs in the body of `messageGetVerdict`. -/
def bodyPanics (g : Globals) (msg : Message) (arrivals : List MessageCheckResult) : Bool :=
  match verdictBody g msg arrivals with
  | .ok _ => false
  | .error _ => true

/-- The `Verdict` and `VerdictMsg` fields that the message holds after the call. -/
def Outcome.stored : Outcome → Option (Int × String)
  | .returned r => some (r.msg.Verdict, r.msg.VerdictMsg)
  | .crashed => none

/-- The message after the call. -/
def Outcome.msg? : Outcome → Option Message
  | .returned r => some r.msg
  | .crashed => none

/-- One arriving result whose action is outside the four known ones. -/
def arrivalsBadAction : List MessageCheckResult :=
  [{ Module := "rspamd", SuggestedAction := 7, Message := "", Score := 4 }]

/-- The outcome of a second call, on the message as a first call left it. -/
def secondCall (g : Globals) (first : Outcome) (arrivals2 : List MessageCheckResult) :
    Option Outcome :=
  first.msg?.map (fun m => messageGetVerdict g m arrivals2)

/-- The minutes elapsed since a past verdict: `time.Since(date).Minutes()`. -/
def minutesSince (env : GreylistEnv) (v : greylistVerdict) : ℚ :=
  ((env.nanoNow - v.date : Int) : ℚ) / 60000000000

/-- The counting loop of `greylistGetVerdictRdbms`. -/
def verdictCounts (verdicts : List greylistVerdict) : Nat × Nat :=
  verdicts.foldl
    (fun acc verdict =>
      if verdict.verdict = "permit" then (acc.1 + 1, acc.2) else (acc.1, acc.2 + 1)) (0, 0)

/-- A message of a session in which greylisting is on, with the given initial period, the
initial score 7 and two SPF whitelist domains. -/
def greylistMessage (period : Nat) : Message :=
  exampleMessage
    { exampleConfig 5 2 with
      Greylisting := { Enabled := true, Initial_Score := 7, Initial_Period := period,
                       Whitelist_Spf := ["spf.example.org", "spf.example.net"] } }

/-- An environment at a given time with a given cache: the resolver answers neutral, the
relational whitelist has no row, the history is empty. -/
def exampleGreylistEnv (redisEnabled : Bool) (unixNow : Int) (redis : List RedisEntry) :
    GreylistEnv :=
  { Enabled := true, RedisEnabled := redisEnabled, instanceId := 1, unixNow := unixNow,
    nanoNow := unixNow * 1000000000, spfQuery := fun _ _ => .ok .NEUTRAL,
    whitelistRows := fun _ => some false, recentVerdicts := some [], redis := redis }

/-- The second delivery of the same tuple at the time `t2`, after a first delivery in the
environment `env`: `greylistGetVerdictRedis` on the cache that the first call left. -/
def secondDelivery (env : GreylistEnv) (msg : Message) (err1 err2 : Option String)
    (dom1 dom2 : String) (t2 : Int) : MessageCheckResult × List RedisEntry :=
  greylistGetVerdictRedis
    { env with unixNow := t2, redis := (greylistGetVerdictRedis env msg err1 dom1).2 }
    msg err2 dom2

/-- Whether the resolver answers PASS, without error, for a domain and the peer address. -/
def spfPasses (env : GreylistEnv) (ip : String) (domain : String) : Bool :=
  match env.spfQuery domain ip with
  | .ok .PASS => true
  | _ => false

/-- The cache key under which the whitelist holds a peer address. -/
def greylistIpKey (env : GreylistEnv) (ip : String) : String :=
  "cluegetter-" ++ toString env.instanceId ++ "-greylisting-ip-" ++ ip

/-- The peer address is present in the whitelist store: with the cache enabled, the cache
holds a live entry under the key of the address; otherwise the query of the whitelist table
for the address succeeds and has a row. -/
def whitelistHolds (env : GreylistEnv) (ip : String) : Prop :=
  (env.RedisEnabled = true ∧
    ∃ e ∈ env.redis, e.key = greylistIpKey env ip ∧ env.unixNow < e.expiresAt) ∨
  (env.RedisEnabled = false ∧ env.whitelistRows ip = some true)

/-- An environment in which the resolver fails for the first whitelist domain and answers PASS
for the second. -/
def envSpfSecondPasses : GreylistEnv :=
  { exampleGreylistEnv false 1456000000 [] with
    spfQuery := fun domain _ =>
      if domain = "spf.example.org" then .error "lookup failed"
      else if domain = "spf.example.net" then .ok .PASS else .ok .NEUTRAL,
    recentVerdicts := none }

/-- An environment with the cache enabled, in which the cache holds the peer address
192.0.2.1 until the time 1456003600 and no SPF domain passes; the history is not available. -/
def envCacheHoldsIp : GreylistEnv :=
  { exampleGreylistEnv true 1456000000
      [⟨"cluegetter-1-greylisting-ip-192.0.2.1", .str "", 1456003600⟩] with
    recentVerdicts := none }

/-- An environment with the cache disabled, in which the whitelist table has a row for the
peer address 192.0.2.1 and no SPF domain passes; the history is not available. -/
def envTableHoldsIp : GreylistEnv :=
  { exampleGreylistEnv false 1456000000 [] with
    whitelistRows := fun ip => some (decide (ip = "192.0.2.1")),
    recentVerdicts := none }

/-- What the expansion makes of a pending add-header itself: with the token, the value with
the first recipient put in; without it, the header as it is. -/
def expandOriginal (rcpt0 : String) (h : MessageHeader) : MessageHeader :=
  if stringsContains h.Value "%{recipient}" then
    { h with Value := stringsReplace h.Value "%{recipient}" rcpt0 }
  else h

/-- The clones that the expansion appends for a pending add-header: with the token, one per
further recipient, in recipient order; without it, none. -/
def recipientClones (others : List String) (h : MessageHeader) : List MessageHeader :=
  if stringsContains h.Value "%{recipient}" then
    others.map (fun r => { Key := h.Key, Value := stringsReplace h.Value "%{recipient}" r })
  else []

/-- A message with three pending add-headers, the second with an empty value. -/
def msgEmptyHeader : Message :=
  { exampleMessage (exampleConfig 5 2) with
    addHeaders := [{ Key := "X-First", Value := "one" }, { Key := "X-Empty", Value := "" },
      { Key := "X-Last", Value := "%{hostname}" }] }

/-- The message of the sixth scenario: the pending add-header `[U] X-Scan: %{spamFlag}`, two
existing `X-Scan` headers among the headers, and a reject score of 10 over the spam-flag
score 5. -/
def msgScan : Message :=
  { exampleMessage (exampleConfig 5 2) with
    Headers := [{ Key := "X-Scan", Value := "old" }, { Key := "Subject", Value := "hello" },
      { Key := "x-scan", Value := "older" }],
    CheckResults := [{ resultA with WeightedScore := 10 }],
    addHeaders := [{ Key := "X-Scan", Value := "%{spamFlag}", flagUnique := true }] }

/-- A message with two recipients and two pending add-headers, the first with the token. -/
def msgTwoRcpt : Message :=
  { exampleMessage (exampleConfig 5 2) with
    Rcpt := ["bob@example.net", "carol@example.net"],
    addHeaders := [{ Key := "X-Rcpt", Value := "for %{recipient}" },
      { Key := "X-Plain", Value := "text" }] }

/-- The five tokens that the header mutator replaces, in the order of replacement. -/
def knownTokens : List (List Char) :=
  ["%{recipient}".data, "%{clientIp}".data, "%{hostname}".data, "%{rejectScore}".data,
    "%{spamFlag}".data]

/-- A text built from characters other than `%` and from tokens of the list `T`. -/
inductive Template (T : List (List Char)) : List Char → Prop where
  | nil : Template T []
  | text (c : Char) (s : List Char) : c ≠ '%' → Template T s → Template T (c :: s)
  | token (t s : List Char) : t ∈ T → Template T s → Template T (t ++ s)

/-- The check that a text is built from characters other than `%` and from tokens of `T`;
the counter is the number of characters of a token still to be passed. -/
def templateGo (T : List (List Char)) : Nat → List Char → Bool
  | _, [] => true
  | k + 1, _ :: cs => templateGo T k cs
  | 0, c :: cs =>
    if c ≠ '%' then templateGo T 0 cs
    else
      match T.find? (fun t => t.isPrefixOf (c :: cs)) with
      | some t => templateGo T (t.length - 1) cs
      | none => false

/-- Whether two texts differ at a position that both have. -/
def mismatch : List Char → List Char → Bool
  | a :: as, b :: bs => a != b || mismatch as bs
  | _, _ => false

/-- An add-header that holds each of the five tokens once. -/
def headerAllTokens : MessageHeader :=
  { Key := "X-Info"
    Value := "to %{recipient} from %{clientIp} via %{hostname}: %{rejectScore} %{spamFlag}" }

/-- The header that the mutator makes of `headerAllTokens` for the example message. -/
def headerAllReplaced : MessageHeader :=
  { Key := "X-Info"
    Value := "to bob@example.net from 192.0.2.1 via mx.example.org: 10.00 YES" }

/-- A message whose one pending add-header holds each of the five tokens once; its reject
score 10 is over the spam-flag score 5. -/
def msgAllTokens : Message :=
  { exampleMessage (exampleConfig 5 2) with
    CheckResults := [{ resultA with WeightedScore := 10 }],
    addHeaders := [headerAllTokens] }

/-- A message with a pending add-header that holds a token the mutator does not know. -/
def msgUnknownToken : Message :=
  { exampleMessage (exampleConfig 5 2) with
    addHeaders := [{ Key := "X-Sender", Value := "%{sender}" }] }

/-- A message whose recipient address holds `%{` in its local part, with a pending add-header
for the recipient. -/
def msgTokenInRcpt : Message :=
  { exampleMessage (exampleConfig 5 2) with
    Rcpt := ["a%{b}@example.net"],
    addHeaders := [{ Key := "X-Rcpt", Value := "for %{recipient}" }] }

/-- A module group of two members with the weight 1 each. -/
def groupQuotasSpam : MessageModuleGroup :=
  { modules := [⟨"quotas", 1⟩, ⟨"spamassassin", 1⟩], name := "reputation", totalWeight := 2 }

/-- A configuration of two groups. -/
def configTwoGroups : List (String × List String) :=
  [("reputation", ["1 quotas", "2.5 spamassassin"]), ("content", ["3 rspamd"])]

/-- The groups that `messageStartModuleGroups` makes of `configTwoGroups`. -/
def groupsTwoGroups : List MessageModuleGroup :=
  [⟨[⟨"quotas", 1⟩, ⟨"spamassassin", 5 / 2⟩], "reputation", 7 / 2⟩,
    ⟨[⟨"rspamd", 3⟩], "content", 3⟩]

/-- The message of the first scenario after `messageGetVerdict` has decided it. -/
def decidedExample : Message :=
  match messageGetVerdict (exampleGlobals false []) (exampleMessage (exampleConfig 5 2))
      [resultA, resultB] with
  | .returned r => r.msg
  | .crashed => exampleMessage (exampleConfig 5 2)

/-- A decided message with two headers, of which the second is marked deleted and has the
milter index 2. -/
def decidedWithDeletedHeader : Message :=
  { decidedExample with
    Headers := [{ Key := "Subject", Value := "hello" },
      { Key := "X-Old", Value := "1", milterIdx := 2, deleted := true }] }

/-! ## Theorems -/

theorem ptrsOf_concat (acts : List Int) (a K : Int) :
    ptrsOf (acts ++ [a]) K = ptrsOf acts K ++ (if a = K then [acts.length] else []) := by
  unfold ptrsOf
  rw [List.length_append, List.length_singleton, List.range_succ, List.filter_append]
  congr 1
  · apply List.filter_congr
    intro i hi
    rw [List.mem_range] at hi
    rw [List.getElem?_append_left hi]
  · by_cases h : a = K <;> simp [h]

theorem deref_concat_of_lt (heap : List MessageCheckResult) (x : MessageCheckResult)
    (ptrs : List Nat) (h : ∀ i ∈ ptrs, i < heap.length) :
    deref (heap ++ [x]) ptrs = deref heap ptrs := by
  unfold deref
  induction ptrs with
  | nil => rfl
  | cons i rest ih =>
    have hi : i < heap.length := h i (List.mem_cons_self _ _)
    have hr : ∀ j ∈ rest, j < heap.length := fun j hj => h j (List.mem_cons_of_mem _ hj)
    simp only [List.filterMap_cons, List.getElem?_append_left hi, ih hr]

theorem ptrsOf_lt (acts : List Int) (K : Int) : ∀ i ∈ ptrsOf acts K, i < acts.length := by
  intro i hi
  unfold ptrsOf at hi
  exact List.mem_range.mp (List.mem_filter.mp hi).1

theorem deref_ptrsOf (heap : List MessageCheckResult) (K : Int) :
    deref heap (ptrsOf (heap.map (·.SuggestedAction)) K) =
      heap.filter (fun r => decide (r.SuggestedAction = K)) := by
  induction heap using List.reverseRecOn with
  | nil => rfl
  | append_singleton h x ih =>
    rw [List.map_append, List.map_singleton, ptrsOf_concat, List.filter_append]
    have hsplit : ∀ A B : List Nat, deref (h ++ [x]) (A ++ B) =
        deref (h ++ [x]) A ++ deref (h ++ [x]) B := by
      intro A B; unfold deref; rw [List.filterMap_append]
    rw [hsplit, deref_concat_of_lt, ih]
    · congr 1
      by_cases hx : x.SuggestedAction = K
      · simp [hx, deref]
      · simp [hx, deref]
    · intro i hi
      have := ptrsOf_lt _ _ i hi
      simpa using this

theorem runningTotal_concat (flat : List MessageCheckResult) (x : MessageCheckResult) (K : Int) :
    runningTotal (flat ++ [x]) K =
      runningTotal flat K + (if x.SuggestedAction = K then x.Score else 0) := by
  unfold runningTotal
  by_cases h : x.SuggestedAction = K <;> simp [List.filter_append, h]

theorem normalizeResult_Score (r : MessageCheckResult) : (normalizeResult r).Score = r.Score := by
  unfold normalizeResult; split_ifs <;> rfl

theorem collectStep_none_iff (sconf : SessionConfig) (st : Collected) (r : MessageCheckResult) :
    collectStep sconf st r = none ↔ ¬ validAction (normalizeResult r).SuggestedAction := by
  unfold collectStep normalizeResult validAction
  by_cases hs : r.Score = 0
  · simp [hs, Arr4.get?, Arr4.set?]
    split_ifs <;> simp
  · simp only [hs, if_false]
    by_cases h0 : r.SuggestedAction = 0
    · simp [h0, Arr4.get?, Arr4.set?]
      split_ifs <;> simp
    by_cases h1 : r.SuggestedAction = 1
    · simp [h1, Arr4.get?, Arr4.set?]
      split_ifs <;> simp
    by_cases h2 : r.SuggestedAction = 2
    · simp [h2, Arr4.get?, Arr4.set?]
      split_ifs <;> simp
    by_cases h3 : r.SuggestedAction = 3
    · simp [h3, Arr4.get?, Arr4.set?]
    · simp [h0, h1, h2, h3, Arr4.get?, Arr4.set?]

theorem collectStep_valid (sconf : SessionConfig) (st : Collected) (r : MessageCheckResult)
    (hv : validAction (normalizeResult r).SuggestedAction) :
    collectStep sconf st r = some
      (⟨st.flatResults ++ [normalizeResult r],
        st.results.upd (normalizeResult r).SuggestedAction (· ++ [st.flatResults.length]),
        st.breakerScore.upd (normalizeResult r).SuggestedAction (· + r.Score),
        if (normalizeResult r).SuggestedAction = MessageError then st.errorCount + 1
        else st.errorCount⟩,
       decide ((normalizeResult r).SuggestedAction ≠ MessageError ∧
         st.breakerScore.sel (normalizeResult r).SuggestedAction + r.Score ≥
           sconf.Breaker_Score)) := by
  unfold collectStep normalizeResult validAction at *
  by_cases hs : r.Score = 0
  · simp [hs, Arr4.get?, Arr4.set?, Arr4.upd, Arr4.sel]
    split_ifs <;> simp_all
  · simp only [hs, if_false] at hv ⊢
    rcases hv with h | h | h | h
    · simp [h, Arr4.get?, Arr4.set?, Arr4.upd, Arr4.sel]
      split_ifs <;> simp_all
    · simp [h, Arr4.get?, Arr4.set?, Arr4.upd, Arr4.sel]
      split_ifs <;> simp_all
    · simp [h, Arr4.get?, Arr4.set?, Arr4.upd, Arr4.sel]
      split_ifs <;> simp_all
    · simp [h, Arr4.get?, Arr4.set?, Arr4.upd, Arr4.sel]

theorem collectStep_inv {sconf : SessionConfig} {st st1 : Collected} {r : MessageCheckResult}
    {b : Bool} (h : collectStep sconf st r = some (st1, b)) (inv : CollectInv st)
    (binv : BreakerInv st) :
    CollectInv st1 ∧ BreakerInv st1 ∧
      st1.flatResults = st.flatResults ++ [normalizeResult r] ∧
      (b = true ↔ ((normalizeResult r).SuggestedAction ≠ MessageError ∧
        runningTotal st1.flatResults (normalizeResult r).SuggestedAction ≥
          sconf.Breaker_Score)) := by
  have hv : validAction (normalizeResult r).SuggestedAction := by
    by_contra hc
    rw [← collectStep_none_iff sconf st r] at hc
    rw [hc] at h; exact absurd h (by simp)
  rw [collectStep_valid sconf st r hv] at h
  have hS := normalizeResult_Score r
  generalize normalizeResult r = n at *
  simp only [Option.some.injEq, Prod.mk.injEq] at h
  obtain ⟨h1, h2⟩ := h
  subst h1 h2
  obtain ⟨hvalid, p0, p1, p2, p3, herrs⟩ := inv
  obtain ⟨b0, b1, b2, b3⟩ := binv
  have hvalid1 : ∀ x ∈ st.flatResults ++ [n], validAction x.SuggestedAction := by
    intro x hx
    rcases List.mem_append.mp hx with hx | hx
    · exact hvalid x hx
    · rw [List.mem_singleton] at hx; rw [hx]; exact hv
  rcases hv with ha | ha | ha | ha
  all_goals
    refine ⟨⟨hvalid1, ?_, ?_, ?_, ?_, ?_⟩, ⟨?_, ?_, ?_, ?_⟩, rfl, ?_⟩
  all_goals
    simp [Arr4.upd, Arr4.sel, ha, ptrsOf_concat, runningTotal_concat, p0, p1, p2, p3, b0, b1,
      b2, b3, herrs, hS, List.filter_append]

theorem collectInit_inv : CollectInv Collected.init ∧ BreakerInv Collected.init := by
  refine ⟨⟨?_, rfl, rfl, rfl, rfl, rfl⟩, ⟨rfl, rfl, rfl, rfl⟩⟩
  intro r hr; exact absurd hr (List.not_mem_nil r)

theorem collectLoop_spec (sconf : SessionConfig) (rest : List MessageCheckResult) :
    ∀ (st st1 : Collected), CollectInv st → BreakerInv st →
      collectLoop sconf st rest = .ok st1 →
      CollectInv st1 ∧ ∃ k, k ≤ rest.length ∧
        st1.flatResults = st.flatResults ++ (rest.take k).map normalizeResult ∧
        (∀ j, 0 < j → j < k →
          crossesAt false sconf (st.flatResults ++ (rest.take j).map normalizeResult) = false) ∧
        (k = rest.length ∨ (0 < k ∧
          crossesAt false sconf (st.flatResults ++ (rest.take k).map normalizeResult) = true)) := by
  induction rest with
  | nil =>
    intro st st1 inv _ h
    simp only [collectLoop, Except.ok.injEq] at h
    subst h
    exact ⟨inv, 0, le_refl _, by simp, fun j h1 h2 => absurd h2 (by omega), Or.inl rfl⟩
  | cons r rest ih =>
    intro st st1 inv binv h
    rw [collectLoop] at h
    cases hstep : collectStep sconf st r with
    | none => rw [hstep] at h; exact absurd h (by simp)
    | some p =>
      obtain ⟨st2, b⟩ := p
      rw [hstep] at h
      obtain ⟨inv2, binv2, hflat, hb⟩ := collectStep_inv hstep inv binv
      have hcross : crossesAt false sconf (st.flatResults ++ [normalizeResult r]) = b := by
        unfold crossesAt
        rw [List.getLast?_append, List.getLast?_singleton]
        simp only [Option.or_some, Option.getD_some, Bool.false_or]
        rw [← hflat]
        cases b with
        | true =>
          have := hb.mp rfl
          simp [this.1, this.2]
        | false =>
          have hn : ¬ ((normalizeResult r).SuggestedAction ≠ MessageError ∧
              runningTotal st2.flatResults (normalizeResult r).SuggestedAction ≥
                sconf.Breaker_Score) := fun hc => by
            have := hb.mpr hc; exact absurd this (by simp)
          simpa using hn
      cases b with
      | true =>
        simp only [Except.ok.injEq] at h
        subst h
        refine ⟨inv2, 1, by simp, by simpa using hflat, fun j h1 h2 => absurd h2 (by omega),
          Or.inr ⟨Nat.one_pos, by simpa using hcross⟩⟩
      | false =>
        simp only at h
        obtain ⟨inv1, k, hk, hf, hmin, hend⟩ := ih st2 st1 inv2 binv2 h
        refine ⟨inv1, k + 1, by simpa using hk, ?_, ?_, ?_⟩
        · rw [hf, hflat]; simp
        · intro j h1 h2
          rcases Nat.exists_eq_succ_of_ne_zero (Nat.pos_iff_ne_zero.mp h1) with ⟨j', rfl⟩
          by_cases hj : j' = 0
          · subst hj; simpa using hcross
          · have := hmin j' (Nat.pos_of_ne_zero hj) (by omega)
            rw [hflat] at this
            simpa using this
        · rcases hend with hend | ⟨_, hend⟩
          · left; simp [hend]
          · right
            refine ⟨Nat.succ_pos _, ?_⟩
            rw [hflat] at hend
            simpa using hend

theorem collectLoop_ok (sconf : SessionConfig) (rest : List MessageCheckResult) :
    ∀ st : Collected, (∀ r ∈ rest, validAction (normalizeResult r).SuggestedAction) →
      ∃ st1, collectLoop sconf st rest = .ok st1 := by
  induction rest with
  | nil => intro st _; exact ⟨st, rfl⟩
  | cons r rest ih =>
    intro st hv
    rw [collectLoop, collectStep_valid sconf st r (hv r (List.mem_cons_self _ _))]
    have hrest := fun st2 => ih st2 (fun x hx => hv x (List.mem_cons_of_mem _ hx))
    split
    · rename_i heq; exact absurd heq (by simp)
    · exact ⟨_, rfl⟩
    · exact hrest _

theorem sameShape_refl (r : MessageCheckResult) : sameShape r r := rfl

theorem sameShape_trans {a b c : MessageCheckResult} (h1 : sameShape a b) (h2 : sameShape b c) :
    sameShape a c := by
  unfold sameShape at *
  rw [h2, h1]

theorem weighOne_shape (G : MessageModuleGroup) (mult : ℚ) (r : MessageCheckResult) :
    sameShape r (weighOne G mult r) := by
  unfold weighOne
  generalize G.modules = ms
  suffices h : ∀ r1, sameShape r r1 → sameShape r (ms.foldl
      (fun moduleResult moduleGroupModule =>
        if moduleResult.Module ≠ moduleGroupModule.module ∨
            moduleResult.SuggestedAction = MessageError then moduleResult
        else
          { moduleResult with
            WeightedScore := moduleResult.WeightedScore * moduleGroupModule.weight * mult })
      r1) from h r (sameShape_refl r)
  induction ms with
  | nil => intro r1 h; exact h
  | cons m ms ih =>
    intro r1 h
    rw [List.foldl_cons]
    apply ih
    split_ifs
    · exact h
    · exact sameShape_trans h rfl

theorem groupTally_eq (G : MessageModuleGroup) (l : List MessageCheckResult) :
    groupTally G l = l.foldl (tallyInner G) (0, 0) := rfl

theorem tallyInner_shape (G : MessageModuleGroup) (acc : ℚ × Nat) {r r1 : MessageCheckResult}
    (h : sameShape r r1) : tallyInner G acc r1 = tallyInner G acc r := by
  unfold sameShape at h
  unfold tallyInner
  rw [h]

theorem groupTally_shape (G : MessageModuleGroup) (f : MessageCheckResult → MessageCheckResult)
    (hf : ∀ r, sameShape r (f r)) (l : List MessageCheckResult) :
    groupTally G (l.map f) = groupTally G l := by
  rw [groupTally_eq, groupTally_eq, List.foldl_map]
  congr 1
  funext acc r
  exact tallyInner_shape G acc (hf r)

theorem groupStep_shape (l : List MessageCheckResult) (G : MessageModuleGroup)
    (r : MessageCheckResult) : sameShape r (groupStep l r G) := by
  unfold groupStep
  split_ifs
  · exact weighOne_shape _ _ _
  · exact sameShape_refl r

theorem weighAll_shape (gs : List MessageModuleGroup) (l : List MessageCheckResult) :
    ∀ r, sameShape r (weighAll gs l r) := by
  unfold weighAll
  induction gs using List.reverseRecOn with
  | nil => intro r; exact sameShape_refl r
  | append_singleton gs G ih =>
    intro r
    rw [List.foldl_append, List.foldl_cons, List.foldl_nil]
    exact sameShape_trans (ih r) (groupStep_shape _ _ _)

theorem messageWeighResults_eq (gs : List MessageModuleGroup) (l : List MessageCheckResult) :
    messageWeighResults gs l = (l.map (weighAll gs l), ((gs.map (groupIgnored l)).sum : Int)) := by
  unfold messageWeighResults
  induction gs using List.reverseRecOn with
  | nil =>
    have h : weighAll [] l = id := by funext r; rfl
    simp [h]
  | append_singleton gs G ih =>
    rw [List.foldl_append, List.foldl_cons, List.foldl_nil, ih]
    unfold weighGroup
    simp only
    rw [groupTally_shape G _ (weighAll_shape gs l)]
    by_cases hc : ((groupTally G l).2 : Int) ≠ G.modules.length
    · simp only [hc, if_true, ne_eq, not_false_eq_true, List.map_map, List.map_append,
        List.map_cons, List.map_nil, List.sum_append, List.sum_cons, List.sum_nil, add_zero,
        groupIgnored]
      congr 1
      apply List.map_congr_left
      intro r _
      simp [weighAll, List.foldl_append, groupStep, hc]
    · simp only [hc, if_false, List.map_append, List.map_cons, List.map_nil, List.sum_append,
        List.sum_cons, List.sum_nil, add_zero, groupIgnored]
      congr 1
      apply List.map_congr_left
      intro r _
      simp [weighAll, List.foldl_append, groupStep, hc]

theorem fixDeterminants_action (r : MessageCheckResult) :
    (fixDeterminants r).SuggestedAction = r.SuggestedAction := by
  unfold fixDeterminants; split_ifs <;> rfl

theorem fixDeterminants_ws (r : MessageCheckResult) :
    (fixDeterminants r).WeightedScore = r.WeightedScore := by
  unfold fixDeterminants; split_ifs <;> rfl

theorem fixDeterminants_message (r : MessageCheckResult) :
    (fixDeterminants r).Message = r.Message := by
  unfold fixDeterminants; split_ifs <;> rfl

theorem sumWeighted_cons (r : MessageCheckResult) (l : List MessageCheckResult) (K : Int) :
    sumWeighted (r :: l) K =
      (if r.SuggestedAction = K then r.WeightedScore else 0) + sumWeighted l K := by
  unfold sumWeighted
  by_cases h : r.SuggestedAction = K <;> simp [List.filter_cons, h]

theorem totalsLoop_eq (l : List MessageCheckResult) :
    ∀ acc : Arr4 ℚ × List MessageCheckResult, (∀ r ∈ l, validAction r.SuggestedAction) →
      totalsLoop acc l = some
        (⟨acc.1.a0 + sumWeighted l 0, acc.1.a1 + sumWeighted l 1, acc.1.a2 + sumWeighted l 2,
          acc.1.a3 + sumWeighted l 3⟩, acc.2 ++ l.map fixDeterminants) := by
  induction l with
  | nil => intro acc _; simp [totalsLoop, sumWeighted]
  | cons r l ih =>
    intro acc hv
    have hr := hv r (List.mem_cons_self _ _)
    have hl := fun x hx => hv x (List.mem_cons_of_mem _ hx)
    rw [totalsLoop]
    rcases hr with ha | ha | ha | ha
    all_goals
      simp only [ha, Arr4.get?, Arr4.set?]
      simp only [Int.reduceEq, if_true, if_false]
      rw [ih _ hl]
      simp [sumWeighted_cons, ha, fixDeterminants, add_assoc]

theorem sameShape_action {r r1 : MessageCheckResult} (h : sameShape r r1) :
    r1.SuggestedAction = r.SuggestedAction := by
  unfold sameShape at h; rw [h]

theorem sameShape_module {r r1 : MessageCheckResult} (h : sameShape r r1) :
    r1.Module = r.Module := by
  unfold sameShape at h; rw [h]

theorem sameShape_message {r r1 : MessageCheckResult} (h : sameShape r r1) :
    r1.Message = r.Message := by
  unfold sameShape at h; rw [h]

theorem sameShape_score {r r1 : MessageCheckResult} (h : sameShape r r1) :
    r1.Score = r.Score := by
  unfold sameShape at h; rw [h]

theorem ensure_session (g : Globals) (msg : Message) :
    (messageEnsureHasMessageId g msg).session = msg.session := by
  unfold messageEnsureHasMessageId
  split_ifs
  · rfl
  · show (messageGetMessageId g msg).2.session = msg.session
    unfold messageGetMessageId
    split
    · rfl
    · simp only
      split_ifs <;> rfl

theorem ensure_checkResults (g : Globals) (msg : Message) :
    (messageEnsureHasMessageId g msg).CheckResults = msg.CheckResults := by
  unfold messageEnsureHasMessageId
  split_ifs
  · rfl
  · show (messageGetMessageId g msg).2.CheckResults = msg.CheckResults
    unfold messageGetMessageId
    split
    · rfl
    · simp only
      split_ifs <;> rfl

theorem substituteStringVars_ensure (g : Globals) (msg : Message) (s : String) :
    substituteStringVars (messageEnsureHasMessageId g msg) s = substituteStringVars msg s := by
  unfold substituteStringVars
  rw [ensure_session, ensure_checkResults]

theorem verdictReduce_view (g : Globals) (msg : Message) (st : Collected) (inv : CollectInv st) :
    (match verdictReduce g msg st with
      | .ok r => some (r.verdict, r.msgStr)
      | .error _ => none) = reduceSpec g msg st.flatResults := by
  have hW : ∀ r ∈ (messageWeighResults g.MessageModuleGroups st.flatResults).1,
      validAction r.SuggestedAction := by
    rw [messageWeighResults_eq]
    intro r hr
    simp only [List.mem_map] at hr
    obtain ⟨r0, hr0, rfl⟩ := hr
    rw [sameShape_action (weighAll_shape _ _ r0)]
    exact inv.valid r0 hr0
  have hacts : ((messageWeighResults g.MessageModuleGroups st.flatResults).1.map
      fixDeterminants).map (·.SuggestedAction) = st.flatResults.map (·.SuggestedAction) := by
    rw [messageWeighResults_eq]
    simp only [List.map_map]
    apply List.map_congr_left
    intro r _
    simp only [Function.comp, fixDeterminants_action]
    exact sameShape_action (weighAll_shape _ _ r)
  have hd1 := deref_ptrsOf ((messageWeighResults g.MessageModuleGroups st.flatResults).1.map
    fixDeterminants) 1
  have hd2 := deref_ptrsOf ((messageWeighResults g.MessageModuleGroups st.flatResults).1.map
    fixDeterminants) 2
  rw [hacts, ← inv.p1] at hd1
  rw [hacts, ← inv.p2] at hd2
  unfold verdictReduce reduceSpec
  simp only [totalsLoop_eq _ _ hW, List.nil_append, zero_add, hd1, hd2, ensure_session, inv.errs]
  by_cases h1 : sumWeighted (messageWeighResults g.MessageModuleGroups st.flatResults).1
      MessageReject ≥ msg.session.config.Message_Reject_Score
  · simp only [if_pos h1]
    cases getDecidingResultWithMessage _ with
    | none => rfl
    | some r => simp [verdictFinish, substituteStringVars_ensure]
  · simp only [if_neg h1]
    by_cases h2 : ((st.flatResults.filter
        (fun r => decide (r.SuggestedAction = MessageError))).length : Int) -
          (messageWeighResults g.MessageModuleGroups st.flatResults).2 > 0
    · simp only [if_pos h2]
      simp [verdictFinish, substituteStringVars_ensure]
    · simp only [if_neg h2]
      by_cases h3 : sumWeighted (messageWeighResults g.MessageModuleGroups st.flatResults).1
          MessageTempFail + sumWeighted (messageWeighResults g.MessageModuleGroups
            st.flatResults).1 MessageReject ≥ msg.session.config.Message_Tempfail_Score
      · simp only [if_pos h3]
        cases getDecidingResultWithMessage _ with
        | none => rfl
        | some r => simp [verdictFinish, substituteStringVars_ensure]
      · simp only [if_neg h3]
        simp [verdictFinish, substituteStringVars_ensure]

theorem messageGetVerdict_view (g : Globals) (msg : Message) (arrivals : List MessageCheckResult)
    (st : Collected) (h : collectLoop msg.session.config Collected.init arrivals = .ok st) :
    (messageGetVerdict g msg arrivals).view =
      match reduceSpec g msg st.flatResults with
      | some p => some p
      | none =>
        if g.Exit_On_Panic then none else some (MessageTempFail, "An internal error occurred.") := by
  have inv := (collectLoop_spec _ arrivals _ st collectInit_inv.1 collectInit_inv.2 h).1
  have hv := verdictReduce_view g msg st inv
  unfold messageGetVerdict
  simp only [h]
  rw [← hv]
  cases verdictReduce g msg st with
  | ok r => rfl
  | error e =>
    simp only
    split_ifs <;> rfl

theorem replaceGo_no_percent (rest new : List Char) :
    ∀ s : List Char, '%' ∉ s → replaceGo ('%' :: rest) new 0 s = s := by
  intro s
  induction s with
  | nil => intro _; rfl
  | cons c cs ih =>
    intro h
    have hc : c ≠ '%' := fun e => h (e ▸ List.mem_cons_self _ _)
    have hcs : '%' ∉ cs := fun e => h (List.mem_cons_of_mem _ e)
    have hp : List.isPrefixOf ('%' :: rest) (c :: cs) = false := by
      simp [List.isPrefixOf, Ne.symm hc]
    rw [replaceGo, hp]
    simp [ih hcs]

theorem stringsReplace_no_percent (s old new : String) (rest : List Char)
    (hold : old.data = '%' :: rest) (hs : '%' ∉ s.data) : stringsReplace s old new = s := by
  unfold stringsReplace
  rw [hold, replaceGo_no_percent rest new.data s.data hs]

theorem substituteStringVars_no_percent (msg : Message) (s : String) (hs : '%' ∉ s.data) :
    substituteStringVars msg s = s := by
  unfold substituteStringVars
  simp only
  rw [stringsReplace_no_percent s "%{clientIp}" _ _ rfl hs,
    stringsReplace_no_percent s "%{hostname}" _ _ rfl hs,
    stringsReplace_no_percent s "%{rejectScore}" _ _ rfl hs]
  split_ifs
  · exact stringsReplace_no_percent s "%{spamFlag}" _ _ rfl hs
  · exact stringsReplace_no_percent s "%{spamFlag}" _ _ rfl hs

theorem getDeciding_cons (r0 : MessageCheckResult) (t : List MessageCheckResult) :
    getDecidingResultWithMessage (r0 :: t) = some ((r0 :: t).foldl decidingStep (r0, 0)).1 := rfl

theorem decidingStep_below (r : MessageCheckResult) (pre : List MessageCheckResult) :
    ∀ acc : MessageCheckResult × ℚ, acc.2 < r.WeightedScore →
      (∀ x ∈ pre, x.Message ≠ "" → x.WeightedScore < r.WeightedScore) →
      (pre.foldl decidingStep acc).2 < r.WeightedScore := by
  induction pre with
  | nil => intro acc h _; exact h
  | cons x pre ih =>
    intro acc h hpre
    rw [List.foldl_cons]
    apply ih
    · unfold decidingStep
      split_ifs with hc
      · exact hpre x (List.mem_cons_self _ _) hc.2
      · exact h
    · exact fun y hy => hpre y (List.mem_cons_of_mem _ hy)

theorem decidingStep_keep (r : MessageCheckResult) (post : List MessageCheckResult) :
    (∀ x ∈ post, x.Message ≠ "" → x.WeightedScore ≤ r.WeightedScore) →
      post.foldl decidingStep (r, r.WeightedScore) = (r, r.WeightedScore) := by
  induction post with
  | nil => intro _; rfl
  | cons x post ih =>
    intro hpost
    rw [List.foldl_cons]
    have hx : decidingStep (r, r.WeightedScore) x = (r, r.WeightedScore) := by
      unfold decidingStep
      split_ifs with hc
      · exact absurd (hpost x (List.mem_cons_self _ _) hc.2) (not_le.mpr hc.1)
      · rfl
    rw [hx]
    exact ih (fun y hy => hpost y (List.mem_cons_of_mem _ hy))

/-- The closure returns the first result that reaches the greatest weighted score among the
results with a non-empty message, when that score is positive. -/
theorem getDeciding_first_max (pre post : List MessageCheckResult) (r : MessageCheckResult)
    (hm : r.Message ≠ "") (hpos : 0 < r.WeightedScore)
    (hpre : ∀ x ∈ pre, x.Message ≠ "" → x.WeightedScore < r.WeightedScore)
    (hpost : ∀ x ∈ post, x.Message ≠ "" → x.WeightedScore ≤ r.WeightedScore) :
    getDecidingResultWithMessage (pre ++ r :: post) = some r := by
  have key : ∀ r0 : MessageCheckResult,
      ((pre ++ r :: post).foldl decidingStep (r0, 0)).1 = r := by
    intro r0
    rw [List.foldl_append, List.foldl_cons]
    have hb := decidingStep_below r pre (r0, 0) hpos hpre
    have hr : decidingStep (pre.foldl decidingStep (r0, 0)) r = (r, r.WeightedScore) := by
      unfold decidingStep
      rw [if_pos ⟨hb, hm⟩]
    rw [hr, decidingStep_keep r post hpost]
  cases pre with
  | nil => rw [List.nil_append, getDeciding_cons]; exact congrArg some (key r)
  | cons p ps => rw [List.cons_append, getDeciding_cons]; exact congrArg some (key p)

/-- With no non-empty message in a non-empty list the closure returns the first result. -/
theorem getDeciding_all_empty (r0 : MessageCheckResult) (t : List MessageCheckResult)
    (h : ∀ x ∈ r0 :: t, x.Message = "") :
    getDecidingResultWithMessage (r0 :: t) = some r0 := by
  rw [getDeciding_cons]
  have key : ∀ l : List MessageCheckResult, (∀ x ∈ l, x.Message = "") →
      l.foldl decidingStep (r0, 0) = (r0, 0) := by
    intro l
    induction l with
    | nil => intro _; rfl
    | cons x l ih =>
      intro hl
      rw [List.foldl_cons]
      have hx : decidingStep (r0, 0) x = (r0, 0) := by
        unfold decidingStep
        rw [if_neg]
        intro hc
        exact hc.2 (hl x (List.mem_cons_self _ _))
      rw [hx]
      exact ih (fun y hy => hl y (List.mem_cons_of_mem _ hy))
  rw [key _ h]

theorem getDeciding_isSome_iff (l : List MessageCheckResult) :
    (getDecidingResultWithMessage l).isSome = !l.isEmpty := by
  cases l <;> rfl

theorem collectedResults_some {sconf : SessionConfig} {arrivals flat : List MessageCheckResult}
    (h : collectedResults sconf arrivals = some flat) :
    ∃ st, collectLoop sconf Collected.init arrivals = .ok st ∧ st.flatResults = flat := by
  unfold collectedResults at h
  cases hc : collectLoop sconf Collected.init arrivals with
  | error e => rw [hc] at h; exact absurd h (by simp)
  | ok st => rw [hc] at h; exact ⟨st, rfl, by simpa using h⟩

theorem messageGetVerdict_view_of_collected (g : Globals) (msg : Message)
    (arrivals flat : List MessageCheckResult)
    (h : collectedResults msg.session.config arrivals = some flat) :
    (messageGetVerdict g msg arrivals).view =
      match reduceSpec g msg flat with
      | some p => some p
      | none =>
        if g.Exit_On_Panic then none else some (MessageTempFail, "An internal error occurred.") := by
  obtain ⟨st, hst, rfl⟩ := collectedResults_some h
  exact messageGetVerdict_view g msg arrivals st hst

/-- Rule 1 away from the empty list: with a reject total at the threshold and a reject
result collected, the call returns reject. -/
theorem messageGetVerdict_reject (g : Globals) (msg : Message)
    (arrivals flat : List MessageCheckResult)
    (h : collectedResults msg.session.config arrivals = some flat)
    (htot : sumWeighted (weighted g flat) MessageReject ≥
      msg.session.config.Message_Reject_Score)
    (hne : ∃ r ∈ weighted g flat, r.SuggestedAction = MessageReject) :
    ∃ s, (messageGetVerdict g msg arrivals).view = some (MessageReject, s) := by
  rw [messageGetVerdict_view_of_collected g msg arrivals flat h]
  unfold weighted at htot hne
  unfold reduceSpec
  simp only [if_pos htot]
  obtain ⟨r, hr, ha⟩ := hne
  have hmem : fixDeterminants r ∈ ((messageWeighResults g.MessageModuleGroups flat).1.map
      fixDeterminants).filter (fun r => decide (r.SuggestedAction = MessageReject)) := by
    rw [List.mem_filter]
    exact ⟨List.mem_map_of_mem _ hr, by simp [fixDeterminants_action, ha]⟩
  cases hl : ((messageWeighResults g.MessageModuleGroups flat).1.map
      fixDeterminants).filter (fun r => decide (r.SuggestedAction = MessageReject)) with
  | nil => rw [hl] at hmem; exact absurd hmem (List.not_mem_nil _)
  | cons r0 t => rw [getDeciding_cons]; exact ⟨_, rfl⟩

/-- Rule 2, with the status message as the source spells it. -/
theorem messageGetVerdict_internal_error (g : Globals) (msg : Message)
    (arrivals flat : List MessageCheckResult)
    (h : collectedResults msg.session.config arrivals = some flat)
    (htot : sumWeighted (weighted g flat) MessageReject <
      msg.session.config.Message_Reject_Score)
    (herr : 0 < remainingErrors g flat) :
    (messageGetVerdict g msg arrivals).view =
      some (MessageTempFail, "An internal server error ocurred") := by
  rw [messageGetVerdict_view_of_collected g msg arrivals flat h]
  unfold weighted at htot
  unfold remainingErrors at herr
  unfold reduceSpec
  simp only [if_neg (not_le.mpr htot)]
  simp only [gt_iff_lt, if_pos herr]
  rw [if_neg (by decide!)]
  rw [substituteStringVars_no_percent _ _ (by decide)]

/-- Rule 4: permit with an empty status message. -/
theorem messageGetVerdict_permit (g : Globals) (msg : Message)
    (arrivals flat : List MessageCheckResult)
    (h : collectedResults msg.session.config arrivals = some flat)
    (htot : sumWeighted (weighted g flat) MessageReject <
      msg.session.config.Message_Reject_Score)
    (herr : remainingErrors g flat ≤ 0)
    (htf : sumWeighted (weighted g flat) MessageTempFail +
      sumWeighted (weighted g flat) MessageReject <
        msg.session.config.Message_Tempfail_Score) :
    (messageGetVerdict g msg arrivals).view = some (MessagePermit, "") := by
  rw [messageGetVerdict_view_of_collected g msg arrivals flat h]
  unfold weighted at htot htf
  unfold remainingErrors at herr
  unfold reduceSpec
  simp only [if_neg (not_le.mpr htot), gt_iff_lt, if_neg (not_lt.mpr herr),
    if_neg (not_le.mpr htf)]
  rw [if_neg (by decide)]
  rw [substituteStringVars_no_percent _ _ (by decide)]

/-- Rule 3 with the recovery switched on: the verdict is tempfail, through the chosen result
or through the recovered panic. -/
theorem messageGetVerdict_tempfail (g : Globals) (msg : Message)
    (arrivals flat : List MessageCheckResult)
    (h : collectedResults msg.session.config arrivals = some flat)
    (hexit : g.Exit_On_Panic = false)
    (htot : sumWeighted (weighted g flat) MessageReject <
      msg.session.config.Message_Reject_Score)
    (herr : remainingErrors g flat ≤ 0)
    (htf : sumWeighted (weighted g flat) MessageTempFail +
      sumWeighted (weighted g flat) MessageReject ≥
        msg.session.config.Message_Tempfail_Score) :
    ∃ s, (messageGetVerdict g msg arrivals).view = some (MessageTempFail, s) := by
  rw [messageGetVerdict_view_of_collected g msg arrivals flat h]
  unfold weighted at htot htf
  unfold remainingErrors at herr
  unfold reduceSpec
  simp only [if_neg (not_le.mpr htot), gt_iff_lt, if_neg (not_lt.mpr herr), if_pos htf]
  cases getDecidingResultWithMessage _ with
  | none => simp [hexit]
  | some r => exact ⟨_, rfl⟩

/-- C1 (code defect): the weighted reject total reaches `message_reject_score`, yet the call
does not return reject. With the threshold at 0 and no reject result collected, rule 1 is
chosen, `getDecidingResultWithMessage` indexes the empty reject list, and the recovered panic
returns tempfail with "An internal error occurred." -/
theorem C1_reject_rule_on_empty_reject_list :
    sumWeighted (weighted (exampleGlobals false []) []) MessageReject ≥
        (exampleMessage (exampleConfig 0 2)).session.config.Message_Reject_Score ∧
      (messageGetVerdict (exampleGlobals false []) (exampleMessage (exampleConfig 0 2)) []).view =
        some (MessageTempFail, "An internal error occurred.") := by
  decide!

/-- C2 (code defect): one error result, a reject total of 0 below the threshold 5 and a
remaining error count of 1 give tempfail, and the status message is the misspelt
"An internal server error ocurred", not "An internal server error occurred". -/
theorem C2_internal_error_status_misspelt :
    collectedResults (exampleConfig 5 2) arrivalsOneError =
        some (arrivalsOneError.map normalizeResult) ∧
      sumWeighted (weighted (exampleGlobals false []) (arrivalsOneError.map normalizeResult))
        MessageReject < (exampleConfig 5 2).Message_Reject_Score ∧
      0 < remainingErrors (exampleGlobals false []) (arrivalsOneError.map normalizeResult) ∧
      (messageGetVerdict (exampleGlobals false []) (exampleMessage (exampleConfig 5 2))
        arrivalsOneError).view = some (MessageTempFail, "An internal server error ocurred") ∧
      "An internal server error ocurred" ≠ "An internal server error occurred" := by
  decide!

/-- C3 (code defect): with no error, a reject total of 3 below the reject threshold 10 and
at the tempfail threshold 2, rule 3 is chosen; no tempfail result was collected, so
`getDecidingResultWithMessage` panics on the empty list, and with `Exit_On_Panic` set the
call does not return tempfail: the process goes down. -/
theorem C3_tempfail_rule_panics_without_tempfail_result :
    collectedResults (exampleConfig 10 2) arrivalsLowReject =
        some (arrivalsLowReject.map normalizeResult) ∧
      remainingErrors (exampleGlobals true []) (arrivalsLowReject.map normalizeResult) = 0 ∧
      sumWeighted (weighted (exampleGlobals true []) (arrivalsLowReject.map normalizeResult))
        MessageReject < (exampleConfig 10 2).Message_Reject_Score ∧
      sumWeighted (weighted (exampleGlobals true []) (arrivalsLowReject.map normalizeResult))
          MessageTempFail +
        sumWeighted (weighted (exampleGlobals true []) (arrivalsLowReject.map normalizeResult))
          MessageReject ≥ (exampleConfig 10 2).Message_Tempfail_Score ∧
      messageGetVerdict (exampleGlobals true []) (exampleMessage (exampleConfig 10 2))
        arrivalsLowReject = Outcome.crashed := by
  decide!

theorem filter_map_fixDeterminants (l : List MessageCheckResult) (K : Int) :
    (l.map fixDeterminants).filter (fun r => decide (r.SuggestedAction = K)) =
      (l.filter (fun r => decide (r.SuggestedAction = K))).map fixDeterminants := by
  rw [List.filter_map]
  congr 1
  apply List.filter_congr
  intro x _
  simp [Function.comp, fixDeterminants_action]

/-- The status message passes unchanged through the fallback when it is not empty. -/
theorem reduceSpec_of_deciding (g : Globals) (msg : Message) (flat : List MessageCheckResult)
    (chosen : Int) (pre post : List MessageCheckResult) (r : MessageCheckResult)
    (hrule : (chosen = MessageReject ∧
        sumWeighted (weighted g flat) MessageReject ≥ msg.session.config.Message_Reject_Score) ∨
      (chosen = MessageTempFail ∧
        sumWeighted (weighted g flat) MessageReject < msg.session.config.Message_Reject_Score ∧
        remainingErrors g flat ≤ 0 ∧
        sumWeighted (weighted g flat) MessageTempFail +
          sumWeighted (weighted g flat) MessageReject ≥
            msg.session.config.Message_Tempfail_Score))
    (hsplit : (weighted g flat).filter (fun x => decide (x.SuggestedAction = chosen)) =
      pre ++ r :: post)
    (hm : r.Message ≠ "") (hpos : 0 < r.WeightedScore)
    (hpre : ∀ x ∈ pre, x.Message ≠ "" → x.WeightedScore < r.WeightedScore)
    (hpost : ∀ x ∈ post, x.Message ≠ "" → x.WeightedScore ≤ r.WeightedScore) :
    reduceSpec g msg flat = some (chosen, substituteStringVars msg r.Message) := by
  have hget : getDecidingResultWithMessage
      (((weighted g flat).map fixDeterminants).filter
        (fun x => decide (x.SuggestedAction = chosen))) = some (fixDeterminants r) := by
    rw [filter_map_fixDeterminants, hsplit, List.map_append, List.map_cons]
    apply getDeciding_first_max
    · rw [fixDeterminants_message]; exact hm
    · rw [fixDeterminants_ws]; exact hpos
    · intro x hx hxm
      obtain ⟨y, hy, rfl⟩ := List.mem_map.mp hx
      rw [fixDeterminants_ws, fixDeterminants_ws]
      rw [fixDeterminants_message] at hxm
      exact hpre y hy hxm
    · intro x hx hxm
      obtain ⟨y, hy, rfl⟩ := List.mem_map.mp hx
      rw [fixDeterminants_ws, fixDeterminants_ws]
      rw [fixDeterminants_message] at hxm
      exact hpost y hy hxm
  unfold weighted at hrule hget
  unfold remainingErrors at hrule
  unfold reduceSpec
  rcases hrule with ⟨hc, h1⟩ | ⟨hc, h1, h2, h3⟩
  · subst hc
    simp only [if_pos h1, hget, Option.some_bind, fixDeterminants_message]
    rw [if_neg (fun hh => hm hh.2)]
  · subst hc
    simp only [if_neg (not_le.mpr h1), gt_iff_lt, if_neg (not_lt.mpr h2), if_pos h3, hget,
      Option.some_bind, fixDeterminants_message]
    rw [if_neg (fun hh => hm hh.2)]

/-- C4 (amended): when rule 1 (reject) or rule 3 (tempfail) decides and some result with the
chosen action has a non-empty message and a positive weighted score, the returned status
message is the message, after `substituteStringVars`, of the first result in collection order
that reaches the greatest weighted score among the results with a non-empty message. -/
theorem C4_status_is_substituted_message_of_first_greatest (g : Globals) (msg : Message)
    (arrivals flat : List MessageCheckResult)
    (h : collectedResults msg.session.config arrivals = some flat)
    (chosen : Int) (pre post : List MessageCheckResult) (r : MessageCheckResult)
    (hrule : (chosen = MessageReject ∧
        sumWeighted (weighted g flat) MessageReject ≥ msg.session.config.Message_Reject_Score) ∨
      (chosen = MessageTempFail ∧
        sumWeighted (weighted g flat) MessageReject < msg.session.config.Message_Reject_Score ∧
        remainingErrors g flat ≤ 0 ∧
        sumWeighted (weighted g flat) MessageTempFail +
          sumWeighted (weighted g flat) MessageReject ≥
            msg.session.config.Message_Tempfail_Score))
    (hsplit : (weighted g flat).filter (fun x => decide (x.SuggestedAction = chosen)) =
      pre ++ r :: post)
    (hm : r.Message ≠ "") (hpos : 0 < r.WeightedScore)
    (hpre : ∀ x ∈ pre, x.Message ≠ "" → x.WeightedScore < r.WeightedScore)
    (hpost : ∀ x ∈ post, x.Message ≠ "" → x.WeightedScore ≤ r.WeightedScore) :
    (messageGetVerdict g msg arrivals).view =
      some (chosen, substituteStringVars msg r.Message) := by
  rw [messageGetVerdict_view_of_collected g msg arrivals flat h,
    reduceSpec_of_deciding g msg flat chosen pre post r hrule hsplit hm hpos hpre hpost]

/-- C4, at the first scenario: A (10, reject) and B (0, permit) with reject threshold 5 give
reject with the message of A. -/
theorem C4_witness :
    (messageGetVerdict (exampleGlobals false []) (exampleMessage (exampleConfig 5 2))
        [resultA, resultB]).view = some (MessageReject, "Policy rejection") :=
  C4_status_is_substituted_message_of_first_greatest (exampleGlobals false [])
    (exampleMessage (exampleConfig 5 2)) [resultA, resultB]
    [{ resultA with WeightedScore := 10 }, resultB] (by decide!) MessageReject [] []
    { resultA with WeightedScore := 10 } (Or.inl ⟨rfl, by decide!⟩) (by decide!) (by decide)
    (by decide!) (fun x hx => absurd hx (List.not_mem_nil x))
    (fun x hx => absurd hx (List.not_mem_nil x))

/-- C4 (as stated, refuted): a message holding a template token is returned with the token
replaced, not as it is; and when the only non-empty message belongs to a result whose weighted
score is not positive, the first result of the list decides instead, here one with an empty
message, which yields "Reason Unspecified". -/
theorem C4_counterexample :
    (messageGetVerdict (exampleGlobals false []) (exampleMessage (exampleConfig 5 2))
        [{ Module := "quotas", SuggestedAction := MessageReject,
           Message := "Blocked: %{clientIp} is over quota", Score := 10 }]).view =
      some (MessageReject, "Blocked: 192.0.2.1 is over quota") ∧
    (messageGetVerdict (exampleGlobals false []) (exampleMessage (exampleConfig 5 2))
        [{ Module := "spamassassin", SuggestedAction := MessageReject, Message := "", Score := 10 },
         { Module := "quotas", SuggestedAction := MessageReject, Message := "Over quota",
           Score := -1 }]).view =
      some (MessageReject, "Reason Unspecified") := by
  decide!

/-- The fallback away from the empty list: when the chosen action has results and none of them
has a message, the status message is "Reason Unspecified". -/
theorem messageGetVerdict_reason_unspecified (g : Globals) (msg : Message)
    (arrivals flat : List MessageCheckResult)
    (h : collectedResults msg.session.config arrivals = some flat) (chosen : Int)
    (hrule : (chosen = MessageReject ∧
        sumWeighted (weighted g flat) MessageReject ≥ msg.session.config.Message_Reject_Score) ∨
      (chosen = MessageTempFail ∧
        sumWeighted (weighted g flat) MessageReject < msg.session.config.Message_Reject_Score ∧
        remainingErrors g flat ≤ 0 ∧
        sumWeighted (weighted g flat) MessageTempFail +
          sumWeighted (weighted g flat) MessageReject ≥
            msg.session.config.Message_Tempfail_Score))
    (hne : ∃ x ∈ weighted g flat, x.SuggestedAction = chosen)
    (hempty : ∀ x ∈ weighted g flat, x.SuggestedAction = chosen → x.Message = "") :
    (messageGetVerdict g msg arrivals).view = some (chosen, "Reason Unspecified") := by
  rw [messageGetVerdict_view_of_collected g msg arrivals flat h]
  obtain ⟨x0, hx0, hx0a⟩ := hne
  have hall : ∀ x ∈ ((weighted g flat).map fixDeterminants).filter
      (fun x => decide (x.SuggestedAction = chosen)), x.Message = "" := by
    intro x hx
    rw [filter_map_fixDeterminants] at hx
    obtain ⟨y, hy, rfl⟩ := List.mem_map.mp hx
    rw [fixDeterminants_message]
    have := List.mem_filter.mp hy
    exact hempty y this.1 (by simpa using this.2)
  have hmem : fixDeterminants x0 ∈ ((weighted g flat).map fixDeterminants).filter
      (fun x => decide (x.SuggestedAction = chosen)) := by
    rw [List.mem_filter]
    exact ⟨List.mem_map_of_mem _ hx0, by simp [fixDeterminants_action, hx0a]⟩
  have hget : ∃ r0, getDecidingResultWithMessage (((weighted g flat).map fixDeterminants).filter
      (fun x => decide (x.SuggestedAction = chosen))) = some r0 ∧ r0.Message = "" := by
    cases hl : ((weighted g flat).map fixDeterminants).filter
        (fun x => decide (x.SuggestedAction = chosen)) with
    | nil => rw [hl] at hmem; exact absurd hmem (List.not_mem_nil _)
    | cons r0 t =>
      rw [hl] at hall
      exact ⟨r0, getDeciding_all_empty r0 t hall, hall r0 (List.mem_cons_self _ _)⟩
  obtain ⟨r0, hr0, hr0m⟩ := hget
  unfold weighted at hrule hr0
  unfold remainingErrors at hrule
  unfold reduceSpec
  rcases hrule with ⟨hc, h1⟩ | ⟨hc, h1, h2, h3⟩
  · subst hc
    simp only [if_pos h1, hr0, Option.some_bind, hr0m]
    rw [if_pos ⟨by decide, trivial⟩, substituteStringVars_no_percent _ _ (by decide)]
  · subst hc
    simp only [if_neg (not_le.mpr h1), gt_iff_lt, if_neg (not_lt.mpr h2), if_pos h3, hr0,
      Option.some_bind, hr0m]
    rw [if_pos ⟨by decide, trivial⟩, substituteStringVars_no_percent _ _ (by decide)]

/-- C5 (code defect): rule 3 decides tempfail (no error, reject total 3 below the reject
threshold 10 and at the tempfail threshold 2) and there is no tempfail result at all; the
status message is not "Reason Unspecified" but that of the recovered panic,
"An internal error occurred." -/
theorem C5_no_fallback_for_empty_action_list :
    collectedResults (exampleConfig 10 2) arrivalsLowReject =
        some (arrivalsLowReject.map normalizeResult) ∧
      (weighted (exampleGlobals false []) (arrivalsLowReject.map normalizeResult)).filter
        (fun x => decide (x.SuggestedAction = MessageTempFail)) = [] ∧
      remainingErrors (exampleGlobals false []) (arrivalsLowReject.map normalizeResult) = 0 ∧
      sumWeighted (weighted (exampleGlobals false []) (arrivalsLowReject.map normalizeResult))
        MessageReject < (exampleConfig 10 2).Message_Reject_Score ∧
      sumWeighted (weighted (exampleGlobals false []) (arrivalsLowReject.map normalizeResult))
          MessageTempFail +
        sumWeighted (weighted (exampleGlobals false []) (arrivalsLowReject.map normalizeResult))
          MessageReject ≥ (exampleConfig 10 2).Message_Tempfail_Score ∧
      (messageGetVerdict (exampleGlobals false []) (exampleMessage (exampleConfig 10 2))
        arrivalsLowReject).view = some (MessageTempFail, "An internal error occurred.") := by
  decide!

theorem tallyInner_eq (G : MessageModuleGroup) (acc : ℚ × Nat) (r : MessageCheckResult) :
    tallyInner G acc r = (acc.1 + tallyWeight G r, acc.2 + tallyErrors G r) := by
  unfold tallyInner tallyWeight tallyErrors
  generalize G.modules = ms
  induction ms generalizing acc with
  | nil => simp
  | cons m ms ih =>
    rw [List.foldl_cons, ih]
    by_cases hm : r.Module = m.module
    · by_cases he : r.SuggestedAction = MessageError
      · simp [hm, he, List.filter_cons]
        omega
      · simp [hm, he, List.filter_cons, add_assoc]
    · simp [hm, List.filter_cons]

theorem groupTally_sum (G : MessageModuleGroup) (l : List MessageCheckResult) :
    groupTally G l = ((l.map (tallyWeight G)).sum, (l.map (tallyErrors G)).sum) := by
  rw [groupTally_eq]
  suffices h : ∀ acc : ℚ × Nat, l.foldl (tallyInner G) acc =
      (acc.1 + (l.map (tallyWeight G)).sum, acc.2 + (l.map (tallyErrors G)).sum) by
    rw [h]; simp
  induction l with
  | nil => intro acc; simp
  | cons r l ih =>
    intro acc
    rw [List.foldl_cons, ih, tallyInner_eq]
    simp [add_assoc]

theorem sum_filter_or {α : Type} (w : α → ℚ) (p q : α → Prop) [DecidablePred p]
    [DecidablePred q] (M : List α) (hdis : ∀ m ∈ M, ¬ (p m ∧ q m)) :
    ((M.filter (fun m => decide (p m ∨ q m))).map w).sum =
      ((M.filter (fun m => decide (p m))).map w).sum +
        ((M.filter (fun m => decide (q m))).map w).sum := by
  induction M with
  | nil => simp
  | cons m M ih =>
    have hm := hdis m (List.mem_cons_self _ _)
    have ih1 := ih (fun x hx => hdis x (List.mem_cons_of_mem _ hx))
    by_cases hp : p m
    · have hq : ¬ q m := fun hq => hm ⟨hp, hq⟩
      simp only [List.filter_cons, hp, hq, or_false, decide_True, decide_False, if_true,
        List.map_cons, List.sum_cons, ih1]
      simp only [Bool.false_eq_true, if_false]
      ring
    · by_cases hq : q m
      · simp only [List.filter_cons, hp, hq, or_true, decide_True, decide_False, if_true,
          List.map_cons, List.sum_cons, ih1]
        simp only [Bool.false_eq_true, if_false]
        ring
      · simp only [List.filter_cons, hp, hq, or_false, decide_False, List.map_cons,
          List.sum_cons, ih1]
        simp only [Bool.false_eq_true, if_false]
        exact ih1

theorem length_filter_or {α : Type} (p q : α → Prop) [DecidablePred p]
    [DecidablePred q] (M : List α) (hdis : ∀ m ∈ M, ¬ (p m ∧ q m)) :
    (M.filter (fun m => decide (p m ∨ q m))).length =
      (M.filter (fun m => decide (p m))).length +
        (M.filter (fun m => decide (q m))).length := by
  induction M with
  | nil => simp
  | cons m M ih =>
    have hm := hdis m (List.mem_cons_self _ _)
    have ih1 := ih (fun x hx => hdis x (List.mem_cons_of_mem _ hx))
    by_cases hp : p m
    · have hq : ¬ q m := fun hq => hm ⟨hp, hq⟩
      simp only [List.filter_cons, hp, hq, or_false, decide_True, decide_False, if_true,
        List.length_cons, ih1]
      simp only [Bool.false_eq_true, if_false]
      omega
    · by_cases hq : q m
      · simp only [List.filter_cons, hp, hq, or_true, decide_True, decide_False, if_true,
          List.length_cons, ih1]
        simp only [Bool.false_eq_true, if_false]
        omega
      · simp only [List.filter_cons, hp, hq, or_false, decide_False, ih1]
        simp only [Bool.false_eq_true, if_false]
        exact ih1

theorem liveWeight_cons (G : MessageModuleGroup) (r : MessageCheckResult)
    (l : List MessageCheckResult) (hr : ∀ x ∈ l, x.Module ≠ r.Module) :
    liveWeight G (r :: l) = tallyWeight G r + liveWeight G l := by
  unfold liveWeight tallyWeight
  rw [← sum_filter_or (·.weight)
    (fun m : MessageModuleGroupMember =>
      r.Module = m.module ∧ r.SuggestedAction ≠ MessageError)
    (fun m : MessageModuleGroupMember =>
      ∃ x ∈ l, x.Module = m.module ∧ x.SuggestedAction ≠ MessageError)]
  · congr 2
    apply List.filter_congr
    intro m _
    simp [List.exists_mem_cons_iff]
  · intro m _ hc
    obtain ⟨⟨h1, _⟩, x, hx, h2, _⟩ := hc
    exact hr x hx (h2.trans h1.symm)

theorem erroredMembers_cons (G : MessageModuleGroup) (r : MessageCheckResult)
    (l : List MessageCheckResult) (hr : ∀ x ∈ l, x.Module ≠ r.Module) :
    erroredMembers G (r :: l) = tallyErrors G r + erroredMembers G l := by
  unfold erroredMembers tallyErrors
  rw [← length_filter_or
    (fun m : MessageModuleGroupMember =>
      r.Module = m.module ∧ r.SuggestedAction = MessageError)
    (fun m : MessageModuleGroupMember =>
      ∃ x ∈ l, x.Module = m.module ∧ x.SuggestedAction = MessageError)]
  · congr 1
    apply List.filter_congr
    intro m _
    simp [List.exists_mem_cons_iff]
  · intro m _ hc
    obtain ⟨⟨h1, _⟩, x, hx, h2, _⟩ := hc
    exact hr x hx (h2.trans h1.symm)

/-- With at most one result per module, the tally of a group is the live weight and the
number of errored members. -/
theorem groupTally_of_nodup (G : MessageModuleGroup) (l : List MessageCheckResult)
    (hres : (l.map (·.Module)).Nodup) :
    groupTally G l = (liveWeight G l, erroredMembers G l) := by
  rw [groupTally_sum]
  induction l with
  | nil => simp [liveWeight, erroredMembers]
  | cons r l ih =>
    rw [List.map_cons, List.nodup_cons] at hres
    have hr : ∀ x ∈ l, x.Module ≠ r.Module := by
      intro x hx he
      exact hres.1 (he ▸ List.mem_map_of_mem (·.Module) hx)
    have ih1 := ih hres.2
    rw [Prod.mk.injEq] at ih1
    rw [liveWeight_cons G r l hr, erroredMembers_cons G r l hr, List.map_cons, List.sum_cons,
      List.map_cons, List.sum_cons, ih1.1, ih1.2]

theorem erroredMembers_eq_length_iff (G : MessageModuleGroup) (l : List MessageCheckResult) :
    erroredMembers G l = G.modules.length ↔ allErrored G l := by
  unfold erroredMembers allErrored
  rw [List.filter_length_eq_length]
  simp

theorem weighOne_eq (G : MessageModuleGroup) (mult : ℚ) (r : MessageCheckResult) :
    weighOne G mult r = G.modules.foldl (weighMember mult) r := rfl

theorem foldl_weighMember_skip (mult : ℚ) (ms : List MessageModuleGroupMember)
    (r : MessageCheckResult)
    (h : ∀ m ∈ ms, m.module ≠ r.Module ∨ r.SuggestedAction = MessageError) :
    ms.foldl (weighMember mult) r = r := by
  induction ms with
  | nil => rfl
  | cons m ms ih =>
    rw [List.foldl_cons]
    have hm : weighMember mult r m = r := by
      unfold weighMember
      rw [if_pos]
      rcases h m (List.mem_cons_self _ _) with h1 | h1
      · exact Or.inl (Ne.symm h1)
      · exact Or.inr h1
    rw [hm]
    exact ih (fun x hx => h x (List.mem_cons_of_mem _ hx))

theorem weighOne_skip (G : MessageModuleGroup) (mult : ℚ) (r : MessageCheckResult)
    (h : (∀ m ∈ G.modules, m.module ≠ r.Module) ∨ r.SuggestedAction = MessageError) :
    weighOne G mult r = r := by
  rw [weighOne_eq]
  apply foldl_weighMember_skip
  intro m hm
  rcases h with h | h
  · exact Or.inl (h m hm)
  · exact Or.inr h

theorem weighOne_match (G : MessageModuleGroup) (mult : ℚ) (r : MessageCheckResult)
    (m : MessageModuleGroupMember) (hnd : (G.modules.map (·.module)).Nodup)
    (hm : m ∈ G.modules) (hmod : r.Module = m.module)
    (hne : r.SuggestedAction ≠ MessageError) :
    weighOne G mult r = { r with WeightedScore := r.WeightedScore * m.weight * mult } := by
  rw [weighOne_eq]
  obtain ⟨s, t, hst⟩ := List.append_of_mem hm
  rw [hst] at hnd ⊢
  rw [List.map_append, List.map_cons, List.nodup_append] at hnd
  obtain ⟨_, hnt, hdis⟩ := hnd
  rw [List.nodup_cons] at hnt
  have hs : ∀ x ∈ s, x.module ≠ r.Module := by
    intro x hx he
    exact hdis (List.mem_map_of_mem (·.module) hx)
      (by rw [he, hmod]; exact List.mem_cons_self _ _)
  have ht : ∀ x ∈ t, x.module ≠ r.Module := by
    intro x hx he
    exact hnt.1 (by rw [← hmod, ← he]; exact List.mem_map_of_mem (·.module) hx)
  rw [List.foldl_append, List.foldl_cons,
    foldl_weighMember_skip mult s r (fun x hx => Or.inl (hs x hx))]
  have hstep : weighMember mult r m =
      { r with WeightedScore := r.WeightedScore * m.weight * mult } := by
    unfold weighMember
    rw [if_neg]
    intro hc
    rcases hc with hc | hc
    · exact hc hmod
    · exact hne hc
  rw [hstep]
  exact foldl_weighMember_skip mult t _ (fun x hx => Or.inl (ht x hx))

/-- A result is left as it is by the groups that are all-errored by the code's test, by the
groups that do not hold its module, and altogether when it is an error. -/
theorem weighAll_untouched (gs : List MessageModuleGroup) (l : List MessageCheckResult)
    (r : MessageCheckResult)
    (h : ∀ G ∈ gs, ((groupTally G l).2 : Int) ≠ G.modules.length →
      (∀ m ∈ G.modules, m.module ≠ r.Module) ∨ r.SuggestedAction = MessageError) :
    weighAll gs l r = r := by
  unfold weighAll
  induction gs with
  | nil => rfl
  | cons G gs ih =>
    rw [List.foldl_cons]
    have hG : groupStep l r G = r := by
      unfold groupStep
      split_ifs with hc
      · exact weighOne_skip G _ r (h G (List.mem_cons_self _ _) hc)
      · rfl
    rw [hG]
    exact ih (fun H hH => h H (List.mem_cons_of_mem _ hH))

theorem weighAll_match (gs : List MessageModuleGroup) (l : List MessageCheckResult)
    (r : MessageCheckResult) (G : MessageModuleGroup) (m : MessageModuleGroupMember)
    (hgroups : gs.Pairwise
      (fun G H => ∀ m ∈ G.modules, ∀ n ∈ H.modules, m.module ≠ n.module))
    (hnd : (G.modules.map (·.module)).Nodup) (hG : G ∈ gs) (hm : m ∈ G.modules)
    (hmod : r.Module = m.module) (hne : r.SuggestedAction ≠ MessageError)
    (hlive : ((groupTally G l).2 : Int) ≠ G.modules.length) :
    weighAll gs l r =
      { r with WeightedScore :=
          r.WeightedScore * m.weight * (1 * (G.totalWeight / (groupTally G l).1)) } := by
  obtain ⟨s, t, hst⟩ := List.append_of_mem hG
  subst hst
  rw [List.pairwise_append, List.pairwise_cons] at hgroups
  obtain ⟨_, ⟨hGt, _⟩, hsG⟩ := hgroups
  unfold weighAll
  rw [List.foldl_append, List.foldl_cons]
  have hs := weighAll_untouched s l r (fun H hH _ => Or.inl (fun n hn he =>
    hsG H hH G (List.mem_cons_self _ _) n hn m hm (he.trans hmod)))
  unfold weighAll at hs
  rw [hs]
  have hstep : groupStep l r G = { r with WeightedScore :=
      r.WeightedScore * m.weight * (1 * (G.totalWeight / (groupTally G l).1)) } := by
    unfold groupStep
    rw [if_pos hlive]
    exact weighOne_match G _ r m hnd hm hmod hne
  rw [hstep]
  have ht := weighAll_untouched t l ({ r with WeightedScore :=
      r.WeightedScore * m.weight * (1 * (G.totalWeight / (groupTally G l).1)) })
    (fun H hH _ => Or.inl (fun n hn he => hGt H hH m hm n hn (hmod.symm.trans he.symm)))
  unfold weighAll at ht
  exact ht

theorem weighed_getElem? (gs : List MessageModuleGroup) (l : List MessageCheckResult) (i : Nat) :
    (messageWeighResults gs l).1[i]? = (l[i]?).map (weighAll gs l) := by
  rw [messageWeighResults_eq]
  simp

/-- C6: with at most one result per module, `WeightedScore` initialised to `Score`, and each
module in at most one group and at most once in it, every non-error member of a group in
which not every member errored gets the weighted score score * weight * (W / live weight),
the live weight being the sum of the weights of the members whose result is not an error;
the results of modules in no group keep their weighted score. -/
theorem C6_group_weighting (groups : List MessageModuleGroup)
    (results : List MessageCheckResult)
    (hres : (results.map (·.Module)).Nodup)
    (hinit : ∀ r ∈ results, r.WeightedScore = r.Score)
    (hgroups : groups.Pairwise
      (fun G H => ∀ m ∈ G.modules, ∀ n ∈ H.modules, m.module ≠ n.module))
    (hmem : ∀ G ∈ groups, (G.modules.map (·.module)).Nodup) :
    (∀ G ∈ groups, ¬ allErrored G results → ∀ m ∈ G.modules,
      ∀ (i : Nat) (r : MessageCheckResult), results[i]? = some r → r.Module = m.module →
        r.SuggestedAction ≠ MessageError →
        (messageWeighResults groups results).1[i]? = some { r with
          WeightedScore := r.Score * m.weight * (G.totalWeight / liveWeight G results) }) ∧
    (∀ (i : Nat) (r : MessageCheckResult), results[i]? = some r →
      (∀ G ∈ groups, ∀ m ∈ G.modules, m.module ≠ r.Module) →
      (messageWeighResults groups results).1[i]? = some { r with WeightedScore := r.Score }) := by
  constructor
  · intro G hG hlive m hm i r hi hmod hne
    have hr : r ∈ results := List.getElem?_mem hi
    have htally := groupTally_of_nodup G results hres
    have hcode : ((groupTally G results).2 : Int) ≠ G.modules.length := by
      rw [htally]
      intro hc
      exact hlive ((erroredMembers_eq_length_iff G results).mp (by exact_mod_cast hc))
    rw [weighed_getElem?, hi, Option.map_some',
      weighAll_match groups results r G m hgroups (hmem G hG) hG hm hmod hne hcode, htally,
      hinit r hr, one_mul]
  · intro i r hi hnone
    have hr : r ∈ results := List.getElem?_mem hi
    rw [weighed_getElem?, hi, Option.map_some',
      weighAll_untouched groups results r (fun G hG _ => Or.inl (hnone G hG))]
    congr 1
    have := hinit r hr
    cases r
    simp_all

/-- C6, at the fifth scenario: the weighted score of spamassassin is 2 * 3 * (4 / 3) = 8. -/
theorem C6_witness :
    (messageWeighResults [groupQS] resultsQS).1[1]? =
        some { Module := "spamassassin", SuggestedAction := MessageReject, Message := "spam",
               Score := 2, WeightedScore := 2 * 3 * (4 / liveWeight groupQS resultsQS) } ∧
      (2 : ℚ) * 3 * (4 / liveWeight groupQS resultsQS) = 8 :=
  ⟨(C6_group_weighting [groupQS] resultsQS (by decide) (by decide!) (by decide) (by decide)).1
      groupQS (List.mem_cons_self _ _) (by decide) ⟨"spamassassin", 3⟩ (by decide) 1
      { Module := "spamassassin", SuggestedAction := MessageReject, Message := "spam",
        Score := 2, WeightedScore := 2 } rfl rfl (by decide),
    by decide!⟩

theorem tallyErrors_eq_zero (H : MessageModuleGroup) (r : MessageCheckResult)
    (h : (∀ m ∈ H.modules, m.module ≠ r.Module) ∨ r.SuggestedAction ≠ MessageError) :
    tallyErrors H r = 0 := by
  unfold tallyErrors
  rw [List.length_eq_zero, List.filter_eq_nil_iff]
  intro m hm hc
  have hc1 := of_decide_eq_true hc
  rcases h with h | h
  · exact h m hm hc1.1.symm
  · exact h hc1.2

theorem tallyErrors_le_one (H : MessageModuleGroup) (r : MessageCheckResult)
    (hnd : (H.modules.map (·.module)).Nodup) : tallyErrors H r ≤ 1 := by
  unfold tallyErrors
  generalize H.modules = ms at hnd
  induction ms with
  | nil => simp
  | cons m ms ih =>
    rw [List.map_cons, List.nodup_cons] at hnd
    by_cases hc : r.Module = m.module ∧ r.SuggestedAction = MessageError
    · have hrest : ms.filter (fun x => decide (r.Module = x.module ∧
          r.SuggestedAction = MessageError)) = [] := by
        rw [List.filter_eq_nil_iff]
        intro x hx hxc
        have hx1 := of_decide_eq_true hxc
        exact hnd.1 (by rw [← hc.1, hx1.1]; exact List.mem_map_of_mem (·.module) hx)
      rw [List.filter_cons, if_pos (decide_eq_true hc), List.length_cons, hrest]
      simp
    · rw [List.filter_cons, if_neg (by simpa using hc)]
      exact ih hnd.2

theorem sum_map_sum_comm {α β : Type} (f : α → β → Nat) (as : List α) (bs : List β) :
    (as.map (fun a => (bs.map (f a)).sum)).sum =
      (bs.map (fun b => (as.map (fun a => f a b)).sum)).sum := by
  induction as with
  | nil => simp
  | cons a as ih =>
    simp only [List.map_cons, List.sum_cons, ih]
    rw [← List.sum_map_add]

theorem length_filter_eq_sum {α : Type} (p : α → Bool) (l : List α) :
    (l.filter p).length = (l.map (fun a => if p a then 1 else 0)).sum := by
  induction l with
  | nil => rfl
  | cons a l ih =>
    by_cases h : p a
    · simp [List.filter_cons, h, ih]; omega
    · simp [List.filter_cons, h, ih]

theorem sum_map_le_sum_map {α : Type} (f g : α → Nat) (l : List α)
    (h : ∀ a ∈ l, f a ≤ g a) : (l.map f).sum ≤ (l.map g).sum := by
  induction l with
  | nil => simp
  | cons a l ih =>
    simp only [List.map_cons, List.sum_cons]
    have h1 := h a (List.mem_cons_self _ _)
    have h2 := ih (fun x hx => h x (List.mem_cons_of_mem _ hx))
    omega

theorem ignored_sum_eq (gs : List MessageModuleGroup) (l : List MessageCheckResult) :
    ((gs.map (groupIgnored l)).sum : Int) = ((l.map (ignoredOf gs l)).sum : Nat) := by
  have h1 : ∀ H, groupIgnored l H = (((l.map (fun r =>
      if ((groupTally H l).2 : Int) ≠ H.modules.length then tallyErrors H r else 0)).sum :
        Nat) : Int) := by
    intro H
    unfold groupIgnored
    split_ifs with hc
    · rw [groupTally_sum]
    · simp
  have h2 : (gs.map (groupIgnored l)).sum = (((gs.map (fun H => (l.map (fun r =>
      if ((groupTally H l).2 : Int) ≠ H.modules.length then tallyErrors H r else 0)).sum)).sum :
        Nat) : Int) := by
    induction gs with
    | nil => simp
    | cons H gs ih => simp only [List.map_cons, List.sum_cons, ih, h1 H]; push_cast; rfl
  rw [h2, sum_map_sum_comm]
  rfl

theorem ignoredOf_le (gs : List MessageModuleGroup) (l : List MessageCheckResult)
    (r : MessageCheckResult)
    (hgroups : gs.Pairwise
      (fun G H => ∀ m ∈ G.modules, ∀ n ∈ H.modules, m.module ≠ n.module))
    (hmem : ∀ G ∈ gs, (G.modules.map (·.module)).Nodup) :
    ignoredOf gs l r ≤ if r.SuggestedAction = MessageError then 1 else 0 := by
  unfold ignoredOf
  by_cases herr : r.SuggestedAction = MessageError
  · rw [if_pos herr]
    induction gs with
    | nil => simp
    | cons H gs ih =>
      rw [List.pairwise_cons] at hgroups
      have ih1 := ih hgroups.2 (fun G hG => hmem G (List.mem_cons_of_mem _ hG))
      simp only [List.map_cons, List.sum_cons]
      by_cases hmatch : ∃ m ∈ H.modules, m.module = r.Module
      · obtain ⟨m, hm, hmr⟩ := hmatch
        have hzero : (gs.map (fun H =>
            if ((groupTally H l).2 : Int) ≠ H.modules.length then tallyErrors H r
            else 0)).sum = 0 := by
          apply List.sum_eq_zero
          intro x hx
          obtain ⟨K, hK, rfl⟩ := List.mem_map.mp hx
          have : tallyErrors K r = 0 := tallyErrors_eq_zero K r
            (Or.inl (fun n hn he => hgroups.1 K hK m hm n hn (hmr.trans he.symm)))
          simp [this]
        rw [hzero, add_zero]
        split_ifs
        · exact tallyErrors_le_one H r (hmem H (List.mem_cons_self _ _))
        · exact Nat.zero_le _
      · have : tallyErrors H r = 0 := tallyErrors_eq_zero H r
          (Or.inl (fun m hm he => hmatch ⟨m, hm, he⟩))
        simp only [this, ite_self, zero_add]
        exact ih1
  · rw [if_neg herr]
    apply Nat.le_of_eq
    apply List.sum_eq_zero
    intro x hx
    obtain ⟨K, _, rfl⟩ := List.mem_map.mp hx
    simp [tallyErrors_eq_zero K r (Or.inr herr)]

theorem ignoredOf_member_of_allErrored (gs : List MessageModuleGroup)
    (l : List MessageCheckResult) (r : MessageCheckResult) (G : MessageModuleGroup)
    (hgroups : gs.Pairwise
      (fun G H => ∀ m ∈ G.modules, ∀ n ∈ H.modules, m.module ≠ n.module))
    (hG : G ∈ gs) (hdead : ¬ ((groupTally G l).2 : Int) ≠ G.modules.length)
    (hin : ∃ m ∈ G.modules, m.module = r.Module) : ignoredOf gs l r = 0 := by
  unfold ignoredOf
  apply List.sum_eq_zero
  intro x hx
  obtain ⟨K, hK, rfl⟩ := List.mem_map.mp hx
  by_cases hKG : K = G
  · subst hKG; rw [if_neg hdead]
  · obtain ⟨m, hm, hmr⟩ := hin
    have hsymm : Symmetric (fun G H : MessageModuleGroup =>
        ∀ m ∈ G.modules, ∀ n ∈ H.modules, m.module ≠ n.module) :=
      fun A B hAB m hm n hn he => hAB n hn m hm he.symm
    have hdis := hgroups.forall hsymm hK hG hKG
    have : tallyErrors K r = 0 := tallyErrors_eq_zero K r
      (Or.inl (fun n hn he => hdis n hn m hm (he.trans hmr.symm)))
    simp [this]

/-- C7: with at most one result per module and each module in at most one group (and at most
once in it), a group all of whose members have an error result leaves the weighted score of
each of its members' results unchanged, adds nothing to the ignored errors, and each of these
errors still counts in the remaining error count. -/
theorem C7_all_errored_group (groups : List MessageModuleGroup)
    (results : List MessageCheckResult)
    (hres : (results.map (·.Module)).Nodup)
    (hgroups : groups.Pairwise
      (fun G H => ∀ m ∈ G.modules, ∀ n ∈ H.modules, m.module ≠ n.module))
    (hmem : ∀ G ∈ groups, (G.modules.map (·.module)).Nodup)
    (G : MessageModuleGroup) (hG : G ∈ groups) (hall : allErrored G results) :
    (∀ (i : Nat) (r : MessageCheckResult), results[i]? = some r →
      (∃ m ∈ G.modules, m.module = r.Module) →
      (messageWeighResults groups results).1[i]? = some r) ∧
    groupIgnored results G = 0 ∧
    (((results.filter (fun r => decide (r.SuggestedAction = MessageError ∧
        ∃ m ∈ G.modules, m.module = r.Module))).length : Nat) : Int) ≤
      ((results.filter (fun r => decide (r.SuggestedAction = MessageError))).length : Int) -
        (messageWeighResults groups results).2 := by
  have htally := groupTally_of_nodup G results hres
  have hdead : ¬ ((groupTally G results).2 : Int) ≠ G.modules.length := by
    rw [htally, not_not]
    exact_mod_cast (erroredMembers_eq_length_iff G results).mpr hall
  refine ⟨?_, ?_, ?_⟩
  · intro i r hi hin
    have hr : r ∈ results := List.getElem?_mem hi
    obtain ⟨m, hm, hmr⟩ := hin
    obtain ⟨r1, hr1, hr1m, hr1e⟩ := hall m hm
    have heq : r1 = r :=
      List.inj_on_of_nodup_map hres hr1 hr (hr1m.trans hmr)
    rw [weighed_getElem?, hi, Option.map_some',
      weighAll_untouched groups results r (fun _ _ _ => Or.inr (heq ▸ hr1e))]
  · unfold groupIgnored
    rw [if_neg hdead]
  · rw [messageWeighResults_eq, ignored_sum_eq, length_filter_eq_sum, length_filter_eq_sum]
    have key : (results.map (ignoredOf groups results)).sum +
        (results.map (fun r => if decide (r.SuggestedAction = MessageError ∧
          ∃ m ∈ G.modules, m.module = r.Module) = true then 1 else 0)).sum ≤
        (results.map (fun r => if decide (r.SuggestedAction = MessageError) = true
          then 1 else 0)).sum := by
      rw [← List.sum_map_add]
      apply sum_map_le_sum_map
      intro r _
      have hle := ignoredOf_le groups results r hgroups hmem
      by_cases hin : ∃ m ∈ G.modules, m.module = r.Module
      · have hz := ignoredOf_member_of_allErrored groups results r G hgroups hG hdead hin
        by_cases he : r.SuggestedAction = MessageError <;> simp [hz, he, hin]
      · by_cases he : r.SuggestedAction = MessageError
        · simp only [he, if_true] at hle
          simp [he, hin]
          exact hle
        · simp only [he, if_false] at hle
          simp [he]
          omega
    simp only
    omega

/-- C7, at a group whose two members both error: the result of quotas keeps its weighted
score, the group ignores no error, and both errors remain counted. -/
theorem C7_witness :
    (messageWeighResults [groupQS] resultsBothError).1[0]? =
        some { Module := "quotas", SuggestedAction := MessageError, Message := "", Score := 25,
               WeightedScore := 25 } ∧
    groupIgnored resultsBothError groupQS = 0 ∧
    (2 : Int) ≤ 2 - (messageWeighResults [groupQS] resultsBothError).2 :=
  ⟨(C7_all_errored_group [groupQS] resultsBothError (by decide) (by decide) (by decide)
      groupQS (List.mem_cons_self _ _) (by decide)).1 0 _ rfl
      ⟨⟨"quotas", 1⟩, List.mem_cons_self _ _, rfl⟩,
    (C7_all_errored_group [groupQS] resultsBothError (by decide) (by decide) (by decide)
      groupQS (List.mem_cons_self _ _) (by decide)).2.1,
    (C7_all_errored_group [groupQS] resultsBothError (by decide) (by decide) (by decide)
      groupQS (List.mem_cons_self _ _) (by decide)).2.2⟩

theorem weighMember_scale (mult c : ℚ) (r : MessageCheckResult) (m : MessageModuleGroupMember) :
    weighMember mult (scaleResult r c) m = scaleResult (weighMember mult r m) c := by
  unfold weighMember scaleResult
  by_cases h : r.Module ≠ m.module ∨ r.SuggestedAction = MessageError
  · simp only [h, if_true]
  · simp only [h, if_false]
    congr 1
    ring

theorem weighOne_scale (G : MessageModuleGroup) (mult c : ℚ) (r : MessageCheckResult) :
    weighOne G mult (scaleResult r c) = scaleResult (weighOne G mult r) c := by
  rw [weighOne_eq, weighOne_eq]
  generalize G.modules = ms
  induction ms generalizing r with
  | nil => rfl
  | cons m ms ih => rw [List.foldl_cons, List.foldl_cons, weighMember_scale, ih]

theorem groupStep_scale (l : List MessageCheckResult) (G : MessageModuleGroup) (c : ℚ)
    (r : MessageCheckResult) :
    groupStep l (scaleResult r c) G = scaleResult (groupStep l r G) c := by
  unfold groupStep
  split_ifs
  · exact weighOne_scale _ _ _ _
  · rfl

theorem weighAll_scale (gs : List MessageModuleGroup) (l : List MessageCheckResult) (c : ℚ)
    (r : MessageCheckResult) :
    weighAll gs l (scaleResult r c) = scaleResult (weighAll gs l r) c := by
  unfold weighAll
  induction gs generalizing r with
  | nil => rfl
  | cons G gs ih => rw [List.foldl_cons, List.foldl_cons, groupStep_scale, ih]

/-- The weighting multiplies the weighted score by a factor that does not depend on it. -/
theorem weighAll_eq_factor (gs : List MessageModuleGroup) (l : List MessageCheckResult)
    (r : MessageCheckResult) :
    weighAll gs l r = { r with WeightedScore := r.WeightedScore * weighFactor gs l r } := by
  have h1 : r = scaleResult { r with WeightedScore := 1 } r.WeightedScore := by
    unfold scaleResult; simp
  have hshape := weighAll_shape gs l { r with WeightedScore := 1 }
  unfold sameShape at hshape
  conv_lhs => rw [h1]
  rw [weighAll_scale, hshape]
  unfold scaleResult weighFactor
  simp [mul_comm]

theorem groupStep_congr (l l1 : List MessageCheckResult)
    (h : ∀ G, groupTally G l1 = groupTally G l) :
    groupStep l1 = groupStep l := by
  funext r G
  unfold groupStep
  rw [h G]

theorem weighAll_map_shape (gs : List MessageModuleGroup) (l : List MessageCheckResult)
    (f : MessageCheckResult → MessageCheckResult) (hf : ∀ r, sameShape r (f r)) :
    weighAll gs (l.map f) = weighAll gs l := by
  funext r
  unfold weighAll
  rw [groupStep_congr l (l.map f) (fun G => groupTally_shape G f hf l)]

theorem weighFactor_shape (gs : List MessageModuleGroup) (l : List MessageCheckResult)
    {r r1 : MessageCheckResult} (h : sameShape r r1) :
    weighFactor gs l r1 = weighFactor gs l r := by
  unfold weighFactor
  unfold sameShape at h
  rw [h]

/-- C8 (amended): a second application of `messageWeighResults` multiplies every weighted
score once more by the factor of the first application; the factor is 1, and the weighted
score unchanged, for an error result and for a result whose module is in no group. -/
theorem C8_reapplication_rescales (gs : List MessageModuleGroup)
    (l : List MessageCheckResult) :
    (messageWeighResults gs l).1 =
        l.map (fun r => { r with WeightedScore := r.WeightedScore * weighFactor gs l r }) ∧
      (messageWeighResults gs (messageWeighResults gs l).1).1 =
        (messageWeighResults gs l).1.map
          (fun r => { r with WeightedScore := r.WeightedScore * weighFactor gs l r }) ∧
      ∀ r : MessageCheckResult,
        (r.SuggestedAction = MessageError ∨ ∀ G ∈ gs, ∀ m ∈ G.modules, m.module ≠ r.Module) →
          weighFactor gs l r = 1 := by
  refine ⟨?_, ?_, ?_⟩
  · rw [messageWeighResults_eq]
    apply List.map_congr_left
    intro r _
    exact weighAll_eq_factor gs l r
  · rw [messageWeighResults_eq gs (messageWeighResults gs l).1]
    simp only
    rw [messageWeighResults_eq gs l]
    simp only
    rw [weighAll_map_shape gs l (weighAll gs l) (weighAll_shape gs l)]
    apply List.map_congr_left
    intro r _
    exact weighAll_eq_factor gs l r
  · intro r hr
    unfold weighFactor
    rw [weighAll_untouched gs l _ (fun G hG _ => by
      rcases hr with hr | hr
      · exact Or.inr hr
      · exact Or.inl (hr G hG))]

/-- C8, at the fifth scenario: the factor of spamassassin is 3 * (4 / 3) = 4, and the second
application turns its weighted score 8 into 32. -/
theorem C8_witness :
    ((messageWeighResults [groupQS] (messageWeighResults [groupQS] resultsQS).1).1 =
        (messageWeighResults [groupQS] resultsQS).1.map
          (fun r => { r with WeightedScore := r.WeightedScore * weighFactor [groupQS] resultsQS r })) ∧
      (messageWeighResults [groupQS] resultsQS).1.map
          (fun r => r.WeightedScore * weighFactor [groupQS] resultsQS r) = [25, 32] :=
  ⟨(C8_reapplication_rescales [groupQS] resultsQS).2.1, by decide!⟩

/-- C8 (as stated, refuted): at the fifth scenario the first application gives spamassassin
the weighted score 8 and the second application gives it 32. -/
theorem C8_counterexample :
    (messageWeighResults [groupQS] resultsQS).1.map (·.WeightedScore) = [25, 8] ∧
      (messageWeighResults [groupQS] (messageWeighResults [groupQS] resultsQS).1).1.map
        (·.WeightedScore) = [25, 32] := by
  decide!

/-- C9 (amended): when no result has an action outside the four known ones, the collection
loop returns, and the list it collects is the normalised copy of the shortest prefix of the
arrival sequence that ends at a non-error result bringing the running raw-score total of its
own action to `breaker_score`, or of the whole sequence when there is no such result. Error
results never trip the breaker. -/
theorem C9_collected_up_to_breaker (sconf : SessionConfig)
    (arrivals : List MessageCheckResult)
    (hvalid : ∀ r ∈ arrivals, validAction (normalizeResult r).SuggestedAction) :
    ∃ (flat : List MessageCheckResult) (k : Nat),
      collectedResults sconf arrivals = some flat ∧ k ≤ arrivals.length ∧
      flat = (arrivals.take k).map normalizeResult ∧
      (∀ j, 0 < j → j < k →
        crossesAt false sconf ((arrivals.take j).map normalizeResult) = false) ∧
      (k = arrivals.length ∨
        (0 < k ∧ crossesAt false sconf ((arrivals.take k).map normalizeResult) = true)) := by
  obtain ⟨st, hst⟩ := collectLoop_ok sconf arrivals Collected.init hvalid
  obtain ⟨_, k, hk, hflat, hmin, hend⟩ :=
    collectLoop_spec sconf arrivals Collected.init st collectInit_inv.1 collectInit_inv.2 hst
  refine ⟨st.flatResults, k, ?_, hk, ?_, ?_, ?_⟩
  · unfold collectedResults; rw [hst]
  · simpa [Collected.init] using hflat
  · intro j h1 h2
    simpa [Collected.init] using hmin j h1 h2
  · simpa [Collected.init] using hend

/-- C9, at three arrivals with breaker score 20: the second permit result brings the permit
total to 25, and the two first results are collected. -/
theorem C9_witness :
    (∃ (flat : List MessageCheckResult) (k : Nat),
      collectedResults breakerConfig arrivalsPermit = some flat ∧ k ≤ arrivalsPermit.length ∧
      flat = (arrivalsPermit.take k).map normalizeResult ∧
      (∀ j, 0 < j → j < k →
        crossesAt false breakerConfig ((arrivalsPermit.take j).map normalizeResult) = false) ∧
      (k = arrivalsPermit.length ∨ (0 < k ∧
        crossesAt false breakerConfig ((arrivalsPermit.take k).map normalizeResult) = true))) ∧
    collectedResults breakerConfig arrivalsPermit =
      some ((arrivalsPermit.take 2).map normalizeResult) :=
  ⟨C9_collected_up_to_breaker breakerConfig arrivalsPermit (by decide),
    by decide!⟩

/-- C9 (as stated, refuted): with breaker score 20 the error result with score 25 brings the
running total of the error action to the breaker score, yet the collection goes on and the
next result is collected too. -/
theorem C9_counterexample :
    crossesAt true breakerConfig ((arrivalsError.take 1).map normalizeResult) = true ∧
      collectedResults breakerConfig arrivalsError =
        some ((arrivalsError.take 2).map normalizeResult) := by
  decide!

theorem groupTally_perm (G : MessageModuleGroup) {l l1 : List MessageCheckResult}
    (h : l.Perm l1) : groupTally G l = groupTally G l1 := by
  rw [groupTally_sum, groupTally_sum, (h.map (tallyWeight G)).sum_eq,
    (h.map (tallyErrors G)).sum_eq]

theorem weighAll_perm (gs : List MessageModuleGroup) {l l1 : List MessageCheckResult}
    (h : l.Perm l1) : weighAll gs l = weighAll gs l1 := by
  funext r
  unfold weighAll
  rw [groupStep_congr l1 l (fun G => groupTally_perm G h)]

theorem weighed_perm (g : Globals) {l l1 : List MessageCheckResult} (h : l.Perm l1) :
    (weighted g l).Perm (weighted g l1) := by
  unfold weighted
  rw [messageWeighResults_eq, messageWeighResults_eq, weighAll_perm _ h]
  exact h.map _

theorem ignored_perm (g : Globals) {l l1 : List MessageCheckResult} (h : l.Perm l1) :
    (messageWeighResults g.MessageModuleGroups l).2 =
      (messageWeighResults g.MessageModuleGroups l1).2 := by
  rw [messageWeighResults_eq, messageWeighResults_eq]
  simp only
  congr 1
  apply List.map_congr_left
  intro G _
  unfold groupIgnored
  rw [groupTally_perm G h]

theorem sumWeighted_perm {l l1 : List MessageCheckResult} (h : l.Perm l1) (K : Int) :
    sumWeighted l K = sumWeighted l1 K := by
  unfold sumWeighted
  exact ((h.filter _).map _).sum_eq

theorem remainingErrors_perm (g : Globals) {l l1 : List MessageCheckResult} (h : l.Perm l1) :
    remainingErrors g l = remainingErrors g l1 := by
  unfold remainingErrors
  rw [ignored_perm g h, (h.filter _).length_eq]

theorem getDeciding_bind_fst (L : List MessageCheckResult) (v : Int)
    (f : MessageCheckResult → String) :
    ((getDecidingResultWithMessage L).bind (fun r => some (v, f r))).map Prod.fst =
      if L.length = 0 then none else some v := by
  cases L with
  | nil => rfl
  | cons r0 t => rw [getDeciding_cons]; simp

theorem reduceSpec_fst (g : Globals) (msg : Message) (flat : List MessageCheckResult) :
    (reduceSpec g msg flat).map Prod.fst = verdictOnly g msg flat := by
  unfold reduceSpec verdictOnly weighted remainingErrors
  simp only
  split_ifs <;>
    first
    | rfl
    | (rw [getDeciding_bind_fst, filter_map_fixDeterminants, List.length_map]; simp_all)

theorem verdictOnly_perm (g : Globals) (msg : Message) {l l1 : List MessageCheckResult}
    (h : l.Perm l1) : verdictOnly g msg l = verdictOnly g msg l1 := by
  unfold verdictOnly
  rw [sumWeighted_perm (weighed_perm g h) MessageReject,
    sumWeighted_perm (weighed_perm g h) MessageTempFail, remainingErrors_perm g h,
    ((weighed_perm g h).filter _).length_eq,
    ((weighed_perm g h).filter (fun r => decide (r.SuggestedAction = MessageTempFail))).length_eq]

/-- Every run that collects its results ends the collection in the state of its list. -/
theorem collectLoop_ofList (sconf : SessionConfig) (arrivals : List MessageCheckResult)
    (st : Collected) (h : collectLoop sconf Collected.init arrivals = .ok st) :
    st = Collected.ofList st.flatResults := by
  have hgen : ∀ (rest : List MessageCheckResult) (s s1 : Collected), CollectInv s →
      BreakerInv s → collectLoop sconf s rest = .ok s1 → CollectInv s1 ∧ BreakerInv s1 := by
    intro rest
    induction rest with
    | nil =>
      intro s s1 i b hs
      simp only [collectLoop, Except.ok.injEq] at hs
      subst hs; exact ⟨i, b⟩
    | cons r rest ih =>
      intro s s1 i b hs
      rw [collectLoop] at hs
      cases hstep : collectStep sconf s r with
      | none => rw [hstep] at hs; exact absurd hs (by simp)
      | some p =>
        obtain ⟨s2, fl⟩ := p
        rw [hstep] at hs
        obtain ⟨i2, b2, _, _⟩ := collectStep_inv hstep i b
        cases fl with
        | true =>
          simp only [Except.ok.injEq] at hs
          subst hs; exact ⟨i2, b2⟩
        | false => exact ih s2 s1 i2 b2 hs
  obtain ⟨inv, binv⟩ := hgen arrivals _ st collectInit_inv.1 collectInit_inv.2 h
  obtain ⟨fl, ⟨r0, r1, r2, r3⟩, ⟨b0, b1, b2, b3⟩, ec⟩ := st
  obtain ⟨_, p0, p1, p2, p3, he⟩ := inv
  obtain ⟨c0, c1, c2, c3⟩ := binv
  simp only at p0 p1 p2 p3 he c0 c1 c2 c3
  unfold Collected.ofList
  simp only [p0, p1, p2, p3, he, c0, c1, c2, c3]

theorem collectInv_ofList (flat : List MessageCheckResult)
    (hvalid : ∀ r ∈ flat, validAction r.SuggestedAction) : CollectInv (Collected.ofList flat) :=
  ⟨hvalid, rfl, rfl, rfl, rfl, rfl⟩

theorem reducedVerdict_eq (g : Globals) (msg : Message) (st : Collected) (inv : CollectInv st) :
    reducedVerdict g msg st = verdictOnly g msg st.flatResults := by
  rw [← reduceSpec_fst, ← verdictReduce_view g msg st inv]
  unfold reducedVerdict
  cases verdictReduce g msg st with
  | ok r => rfl
  | error e => rfl

/-- Two runs whose collected lists are permutations of one another return the same verdict. -/
theorem messageGetVerdict_order_insensitive (g : Globals) (msg : Message)
    (arrivals arrivals1 flat flat1 : List MessageCheckResult)
    (h : collectedResults msg.session.config arrivals = some flat)
    (h1 : collectedResults msg.session.config arrivals1 = some flat1)
    (hperm : flat.Perm flat1) :
    (messageGetVerdict g msg arrivals).verdict? = (messageGetVerdict g msg arrivals1).verdict? := by
  have key : ∀ (a f : List MessageCheckResult),
      collectedResults msg.session.config a = some f →
      (messageGetVerdict g msg a).verdict? =
        match verdictOnly g msg f with
        | some v => some v
        | none => if g.Exit_On_Panic then none else some MessageTempFail := by
    intro a f hf
    unfold Outcome.verdict?
    rw [messageGetVerdict_view_of_collected g msg a f hf, ← reduceSpec_fst]
    cases reduceSpec g msg f with
    | some p => rfl
    | none => simp only [Option.map_none']; split_ifs <;> rfl
  rw [key arrivals flat h, key arrivals1 flat1 h1, verdictOnly_perm g msg hperm]

/-- C10: for every list of collected results and every permutation of it, the weighting and
reduction steps of `messageGetVerdict`, run from the states in which the collection of the one
and of the other list ends, compute the same verdict (or panic both). -/
theorem C10_verdict_order_insensitive (g : Globals) (msg : Message)
    (flat flat1 : List MessageCheckResult)
    (hvalid : ∀ r ∈ flat, validAction r.SuggestedAction) (hperm : flat.Perm flat1) :
    reducedVerdict g msg (Collected.ofList flat) =
      reducedVerdict g msg (Collected.ofList flat1) := by
  have hvalid1 : ∀ r ∈ flat1, validAction r.SuggestedAction :=
    fun r hr => hvalid r (hperm.mem_iff.mpr hr)
  rw [reducedVerdict_eq g msg _ (collectInv_ofList flat hvalid),
    reducedVerdict_eq g msg _ (collectInv_ofList flat1 hvalid1)]
  exact verdictOnly_perm g msg hperm

/-- C10, at the first scenario taken in both orders: the verdict is reject either way. -/
theorem C10_witness :
    reducedVerdict (exampleGlobals false [groupQS]) (exampleMessage (exampleConfig 5 2))
        (Collected.ofList [normalizeResult resultA, normalizeResult resultB]) =
      reducedVerdict (exampleGlobals false [groupQS]) (exampleMessage (exampleConfig 5 2))
        (Collected.ofList [normalizeResult resultB, normalizeResult resultA]) ∧
    reducedVerdict (exampleGlobals false [groupQS]) (exampleMessage (exampleConfig 5 2))
        (Collected.ofList [normalizeResult resultB, normalizeResult resultA]) =
      some MessageReject :=
  ⟨C10_verdict_order_insensitive (exampleGlobals false [groupQS])
      (exampleMessage (exampleConfig 5 2)) [normalizeResult resultA, normalizeResult resultB]
      [normalizeResult resultB, normalizeResult resultA] (by decide) (List.Perm.swap _ _ _),
    by decide!⟩

theorem messageGetVerdict_eq_body (g : Globals) (msg : Message)
    (arrivals : List MessageCheckResult) :
    messageGetVerdict g msg arrivals =
      match verdictBody g msg arrivals with
      | .ok r => .returned r
      | .error (results, msg) =>
        if g.Exit_On_Panic then .crashed
        else .returned ⟨MessageTempFail, "An internal error occurred.", results, msg⟩ := rfl

theorem verdictFinish_fields (msg : Message) (st : Collected) (flat : List MessageCheckResult)
    (tot : Arr4 ℚ) (v : Int) (s : String) :
    (verdictFinish msg st flat tot v s).verdict = v ∧
      (verdictFinish msg st flat tot v s).msg.Verdict = v ∧
      (verdictFinish msg st flat tot v s).msg.VerdictMsg =
        (verdictFinish msg st flat tot v s).msgStr ∧
      (verdictFinish msg st flat tot v s).msg.session = msg.session :=
  ⟨rfl, rfl, rfl, rfl⟩

/-- What the reduction hands back when it does not panic: one of the three verdicts, stored
on the message as it is returned. -/
theorem verdictReduce_ok (g : Globals) (msg : Message) (st : Collected) (r : VerdictReturn)
    (h : verdictReduce g msg st = .ok r) :
    (r.verdict = MessagePermit ∨ r.verdict = MessageTempFail ∨ r.verdict = MessageReject) ∧
      r.msg.Verdict = r.verdict ∧ r.msg.VerdictMsg = r.msgStr ∧
      r.msg.session = msg.session := by
  unfold verdictReduce at h
  simp only at h
  split at h
  · exact absurd h (by simp)
  · split_ifs at h
    · split at h
      · exact absurd h (by simp)
      · simp only [Except.ok.injEq] at h
        subst h
        exact ⟨Or.inr (Or.inr rfl), rfl, rfl, ensure_session g msg⟩
    · simp only [Except.ok.injEq] at h
      subst h
      exact ⟨Or.inr (Or.inl rfl), rfl, rfl, ensure_session g msg⟩
    · split at h
      · exact absurd h (by simp)
      · simp only [Except.ok.injEq] at h
        subst h
        exact ⟨Or.inr (Or.inl rfl), rfl, rfl, ensure_session g msg⟩
    · simp only [Except.ok.injEq] at h
      subst h
      exact ⟨Or.inl rfl, rfl, rfl, ensure_session g msg⟩

theorem verdictReduce_error_session (g : Globals) (msg : Message) (st : Collected)
    (e : Arr4 (List MessageCheckResult) × Message) (h : verdictReduce g msg st = .error e) :
    e.2.session = msg.session := by
  unfold verdictReduce at h
  simp only at h
  split at h
  · simp only [Except.error.injEq] at h
    subst h
    exact ensure_session g msg
  · split_ifs at h <;> (try split at h) <;>
      first
      | (simp only [Except.error.injEq] at h; subst h; exact ensure_session g msg)
      | exact absurd h (by simp)

theorem verdictBody_ok (g : Globals) (msg : Message) (arrivals : List MessageCheckResult)
    (r : VerdictReturn) (h : verdictBody g msg arrivals = .ok r) :
    (r.verdict = MessagePermit ∨ r.verdict = MessageTempFail ∨ r.verdict = MessageReject) ∧
      r.msg.Verdict = r.verdict ∧ r.msg.VerdictMsg = r.msgStr ∧
      r.msg.session = msg.session := by
  unfold verdictBody at h
  split at h
  · exact absurd h (by simp)
  · exact verdictReduce_ok g msg _ r h

theorem verdictBody_error_session (g : Globals) (msg : Message)
    (arrivals : List MessageCheckResult) (e : Arr4 (List MessageCheckResult) × Message)
    (h : verdictBody g msg arrivals = .error e) : e.2.session = msg.session := by
  unfold verdictBody at h
  split at h
  · simp only [Except.error.injEq] at h
    subst h
    rfl
  · exact verdictReduce_error_session g msg _ e h

/-- Away from a panic the stored fields are the returned ones. -/
theorem stored_eq_view_of_no_panic (g : Globals) (msg : Message)
    (arrivals : List MessageCheckResult) (h : bodyPanics g msg arrivals = false) :
    (messageGetVerdict g msg arrivals).stored = (messageGetVerdict g msg arrivals).view := by
  rw [messageGetVerdict_eq_body]
  unfold bodyPanics at h
  cases hb : verdictBody g msg arrivals with
  | error e => rw [hb] at h; exact absurd h (by simp)
  | ok r =>
    obtain ⟨_, h1, h2, _⟩ := verdictBody_ok g msg arrivals r hb
    simp only [Outcome.stored, Outcome.view, h1, h2]

/-- C11 (code defect): with `Exit_On_Panic` off, the call on one reject result of score 3
(thresholds 10 and 2) panics in `getDecidingResultWithMessage`; the recovered call returns
tempfail with "An internal error occurred.", but the message still holds the verdict permit
and an empty `VerdictMsg`: the `recover` branch sets the returned values only. -/
theorem C11_recovered_verdict_not_stored :
    (messageGetVerdict (exampleGlobals false []) (exampleMessage (exampleConfig 10 2))
        arrivalsLowReject).view = some (MessageTempFail, "An internal error occurred.") ∧
      (messageGetVerdict (exampleGlobals false []) (exampleMessage (exampleConfig 10 2))
        arrivalsLowReject).stored = some (MessagePermit, "") := by
  decide!

/-- C12: with `Exit_On_Panic` off, a call in whose body a panic occurs returns tempfail with
the status "An internal error occurred."; and every call returns, with a verdict among permit,
tempfail and reject, never error. -/
theorem C12_top_level_guard (g : Globals) (msg : Message) (arrivals : List MessageCheckResult)
    (hexit : g.Exit_On_Panic = false) :
    (bodyPanics g msg arrivals = true →
      (messageGetVerdict g msg arrivals).view =
        some (MessageTempFail, "An internal error occurred.")) ∧
    ∃ r, messageGetVerdict g msg arrivals = .returned r ∧ r.verdict ≠ MessageError ∧
      (r.verdict = MessagePermit ∨ r.verdict = MessageTempFail ∨
        r.verdict = MessageReject) := by
  rw [messageGetVerdict_eq_body]
  unfold bodyPanics
  cases hb : verdictBody g msg arrivals with
  | error e =>
    obtain ⟨results, m⟩ := e
    simp only [hexit, Bool.false_eq_true, if_false]
    refine ⟨fun _ => rfl,
      ⟨MessageTempFail, "An internal error occurred.", results, m⟩, rfl, ?_,
      Or.inr (Or.inl rfl)⟩
    show MessageTempFail ≠ MessageError
    decide
  | ok r =>
    obtain ⟨hv, _⟩ := verdictBody_ok g msg arrivals r hb
    refine ⟨fun h => absurd h (by simp), r, rfl, ?_, hv⟩
    rcases hv with h | h | h <;> rw [h] <;> decide

/-- C12, at the two failures that the claim names: the index into the empty tempfail list, and
a result whose action 7 is outside the four known ones. -/
theorem C12_witness :
    (messageGetVerdict (exampleGlobals false []) (exampleMessage (exampleConfig 10 2))
        arrivalsLowReject).view = some (MessageTempFail, "An internal error occurred.") ∧
      (messageGetVerdict (exampleGlobals false []) (exampleMessage (exampleConfig 10 2))
        arrivalsBadAction).view = some (MessageTempFail, "An internal error occurred.") :=
  ⟨(C12_top_level_guard (exampleGlobals false []) (exampleMessage (exampleConfig 10 2))
      arrivalsLowReject rfl).1 (by decide!),
    (C12_top_level_guard (exampleGlobals false []) (exampleMessage (exampleConfig 10 2))
      arrivalsBadAction rfl).1 (by decide!)⟩

theorem verdictOnly_congr (g : Globals) (msg msg1 : Message) (flat : List MessageCheckResult)
    (h : msg1.session = msg.session) : verdictOnly g msg1 flat = verdictOnly g msg flat := by
  unfold verdictOnly
  rw [h]

/-- The verdict of a call in terms of the collection and of the verdict computed from the
collected list. -/
theorem messageGetVerdict_verdict (g : Globals) (msg : Message)
    (arrivals : List MessageCheckResult) :
    (messageGetVerdict g msg arrivals).verdict? =
      match collectedResults msg.session.config arrivals with
      | none => if g.Exit_On_Panic then none else some MessageTempFail
      | some flat =>
        match verdictOnly g msg flat with
        | some v => some v
        | none => if g.Exit_On_Panic then none else some MessageTempFail := by
  cases hc : collectedResults msg.session.config arrivals with
  | some flat =>
    simp only
    unfold Outcome.verdict?
    rw [messageGetVerdict_view_of_collected g msg arrivals flat hc, ← reduceSpec_fst]
    cases reduceSpec g msg flat with
    | some p => rfl
    | none => simp only [Option.map_none']; split_ifs <;> rfl
  | none =>
    simp only
    unfold collectedResults at hc
    unfold Outcome.verdict? messageGetVerdict
    cases hl : collectLoop msg.session.config Collected.init arrivals with
    | ok st => rw [hl] at hc; exact absurd hc (by simp)
    | error st =>
      simp only
      split_ifs <;> rfl

theorem messageGetVerdict_session (g : Globals) (msg : Message)
    (arrivals : List MessageCheckResult) (r : VerdictReturn)
    (h : messageGetVerdict g msg arrivals = .returned r) : r.msg.session = msg.session := by
  rw [messageGetVerdict_eq_body] at h
  cases hb : verdictBody g msg arrivals with
  | ok r1 =>
    rw [hb] at h
    simp only [Outcome.returned.injEq] at h
    subst h
    exact (verdictBody_ok g msg arrivals r1 hb).2.2.2
  | error e =>
    rw [hb] at h
    obtain ⟨results, m⟩ := e
    simp only at h
    split_ifs at h
    simp only [Outcome.returned.injEq] at h
    subst h
    exact verdictBody_error_session g msg arrivals _ hb

/-- C13 (amended): there is no write-once guard. A second call of `messageGetVerdict`, on the
message as a first call left it, ends as the same call on the original message does: no fatal
error is raised for the verdict already assigned, the verdict is the one computed from the
results of the second call, and, unless the body panics, the `Verdict` and `VerdictMsg`
fields are overwritten with what the second call returns. -/
theorem C13_second_call_overwrites (g : Globals) (msg : Message)
    (arrivals arrivals2 : List MessageCheckResult) (r1 : VerdictReturn)
    (h : messageGetVerdict g msg arrivals = .returned r1) :
    (messageGetVerdict g r1.msg arrivals2).verdict? =
        (messageGetVerdict g msg arrivals2).verdict? ∧
      (bodyPanics g r1.msg arrivals2 = false →
        (messageGetVerdict g r1.msg arrivals2).stored =
          (messageGetVerdict g r1.msg arrivals2).view) := by
  have hs := messageGetVerdict_session g msg arrivals r1 h
  refine ⟨?_, stored_eq_view_of_no_panic g r1.msg arrivals2⟩
  rw [messageGetVerdict_verdict, messageGetVerdict_verdict, hs]
  cases collectedResults msg.session.config arrivals2 with
  | none => rfl
  | some flat => simp only [verdictOnly_congr g msg r1.msg flat hs]

/-- C13 (as stated, refuted): the first call, on A (10, reject) and B, returns reject and
stores it; the second call on the same message, with no result collected, raises no fatal
error: it returns permit and overwrites the stored verdict and status message. -/
theorem C13_counterexample :
    (messageGetVerdict (exampleGlobals false []) (exampleMessage (exampleConfig 5 2))
        [resultA, resultB]).stored = some (MessageReject, "Policy rejection") ∧
      (secondCall (exampleGlobals false [])
        (messageGetVerdict (exampleGlobals false []) (exampleMessage (exampleConfig 5 2))
          [resultA, resultB]) []).map Outcome.view = some (some (MessagePermit, "")) ∧
      (secondCall (exampleGlobals false [])
        (messageGetVerdict (exampleGlobals false []) (exampleMessage (exampleConfig 5 2))
          [resultA, resultB]) []).map Outcome.stored = some (some (MessagePermit, "")) := by
  decide!

/-- C13, at the same two calls: the second call returns the verdict that a first call on the
fresh message with the same results returns, permit. -/
theorem C13_witness :
    ((messageGetVerdict (exampleGlobals false [])
        (verdictFinish (messageEnsureHasMessageId (exampleGlobals false [])
            (exampleMessage (exampleConfig 5 2)))
          (Collected.ofList [normalizeResult resultA, normalizeResult resultB])
          [fixDeterminants (normalizeResult resultA), fixDeterminants (normalizeResult resultB)]
          ⟨0, 0, 10, 0⟩ MessageReject "Policy rejection").msg []).verdict? =
        (messageGetVerdict (exampleGlobals false []) (exampleMessage (exampleConfig 5 2))
          []).verdict?) ∧
      (messageGetVerdict (exampleGlobals false []) (exampleMessage (exampleConfig 5 2))
        []).verdict? = some MessagePermit :=
  ⟨(C13_second_call_overwrites (exampleGlobals false []) (exampleMessage (exampleConfig 5 2))
      [resultA, resultB] []
      (verdictFinish (messageEnsureHasMessageId (exampleGlobals false [])
          (exampleMessage (exampleConfig 5 2)))
        (Collected.ofList [normalizeResult resultA, normalizeResult resultB])
        [fixDeterminants (normalizeResult resultA), fixDeterminants (normalizeResult resultB)]
        ⟨0, 0, 10, 0⟩ MessageReject "Policy rejection") (by decide!)).1,
    by decide!⟩

theorem verdictCounts_eq (verdicts : List greylistVerdict) :
    verdictCounts verdicts =
      ((verdicts.filter (fun v => decide (v.verdict = "permit"))).length,
        (verdicts.filter (fun v => decide (v.verdict ≠ "permit"))).length) := by
  unfold verdictCounts
  suffices h : ∀ acc : Nat × Nat, verdicts.foldl
      (fun acc verdict =>
        if verdict.verdict = "permit" then (acc.1 + 1, acc.2) else (acc.1, acc.2 + 1)) acc =
      (acc.1 + (verdicts.filter (fun v => decide (v.verdict = "permit"))).length,
        acc.2 + (verdicts.filter (fun v => decide (v.verdict ≠ "permit"))).length) by
    rw [h]; simp
  induction verdicts with
  | nil => intro acc; simp
  | cons v vs ih =>
    intro acc
    rw [List.foldl_cons, ih]
    by_cases hv : v.verdict = "permit"
    · simp [hv, List.filter_cons]; omega
    · simp [hv, List.filter_cons]; omega

theorem allowCount_pos_iff (verdicts : List greylistVerdict) :
    (verdictCounts verdicts).1 > 0 ↔ ∃ v ∈ verdicts, v.verdict = "permit" := by
  rw [verdictCounts_eq]
  simp only [gt_iff_lt, List.length_pos, ne_eq, List.filter_eq_nil_iff, decide_eq_true_eq,
    not_forall, not_not, exists_prop]

theorem counts_pos_iff (verdicts : List greylistVerdict) :
    ((verdictCounts verdicts).1 > 0 ∨ (verdictCounts verdicts).2 > 0) ↔ verdicts ≠ [] := by
  rw [verdictCounts_eq]
  cases verdicts with
  | nil => simp
  | cons v vs =>
    by_cases hv : v.verdict = "permit"
    · simp [hv, List.filter_cons]
    · simp [hv, List.filter_cons]

/-- C15: `greylistGetVerdictRdbms` returns for every list of past verdicts (the first element
is read only when there is one). It returns permit with score 1 when some past verdict is
permit or the first verdict of the list is older than `Initial_Period` minutes, and otherwise,
as for the empty history, tempfail with the score `Initial_Score`. -/
theorem C15_rdbms_history_decision (env : GreylistEnv) (msg : Message)
    (verdicts : List greylistVerdict) (spfWhitelistErr : Option String) (spfDomain : String) :
    ∃ r, greylistGetVerdictRdbms env msg verdicts spfWhitelistErr spfDomain = some r ∧
      r.Module = "greylisting" ∧
      (((∃ v ∈ verdicts, v.verdict = "permit") ∨
          (∃ first, verdicts.head? = some first ∧
            minutesSince env first > (msg.session.config.Greylisting.Initial_Period : ℚ))) →
        r.SuggestedAction = MessagePermit ∧ r.Score = 1) ∧
      (¬ ((∃ v ∈ verdicts, v.verdict = "permit") ∨
          (∃ first, verdicts.head? = some first ∧
            minutesSince env first > (msg.session.config.Greylisting.Initial_Period : ℚ))) →
        r.SuggestedAction = MessageTempFail ∧
          r.Score = msg.session.config.Greylisting.Initial_Score) ∧
      (verdicts = [] → r.SuggestedAction = MessageTempFail ∧
          r.Score = msg.session.config.Greylisting.Initial_Score) := by
  have hallow := allowCount_pos_iff verdicts
  have hcounts := counts_pos_iff verdicts
  unfold verdictCounts at hallow hcounts
  unfold greylistGetVerdictRdbms
  simp only
  cases verdicts with
  | nil =>
    have hno : ¬ ((List.foldl (fun (acc : Nat × Nat) (verdict : greylistVerdict) =>
        if verdict.verdict = "permit" then (acc.1 + 1, acc.2) else (acc.1, acc.2 + 1)) (0, 0)
          ([] : List greylistVerdict)).1 > 0 ∨
        (List.foldl (fun (acc : Nat × Nat) (verdict : greylistVerdict) =>
        if verdict.verdict = "permit" then (acc.1 + 1, acc.2) else (acc.1, acc.2 + 1)) (0, 0)
          ([] : List greylistVerdict)).2 > 0) := by simp
    rw [if_neg hno]
    simp only
    have hp : ¬ ((List.foldl (fun (acc : Nat × Nat) (verdict : greylistVerdict) =>
        if verdict.verdict = "permit" then (acc.1 + 1, acc.2) else (acc.1, acc.2 + 1)) (0, 0)
          ([] : List greylistVerdict)).1 > 0 ∨
        (-1 : ℚ) > (msg.session.config.Greylisting.Initial_Period : ℚ)) := by
      simp only [List.foldl_nil, gt_iff_lt, lt_self_iff_false, false_or, not_lt]
      have : (0 : ℚ) ≤ (msg.session.config.Greylisting.Initial_Period : ℚ) := Nat.cast_nonneg _
      linarith
    rw [if_neg hp]
    refine ⟨_, rfl, rfl, ?_, fun _ => ⟨rfl, rfl⟩, fun _ => ⟨rfl, rfl⟩⟩
    intro hc
    rcases hc with ⟨v, hv, _⟩ | ⟨first, hf, _⟩
    · exact absurd hv (List.not_mem_nil v)
    · simp at hf
  | cons v0 vs =>
    have hne : (v0 :: vs) ≠ [] := List.cons_ne_nil _ _
    rw [if_pos (hcounts.mpr hne)]
    simp only [List.getElem?_cons_zero]
    by_cases hc : (∃ v ∈ v0 :: vs, v.verdict = "permit") ∨
        (∃ first, (v0 :: vs).head? = some first ∧
          minutesSince env first > (msg.session.config.Greylisting.Initial_Period : ℚ))
    · have hcode : (List.foldl (fun (acc : Nat × Nat) (verdict : greylistVerdict) =>
          if verdict.verdict = "permit" then (acc.1 + 1, acc.2) else (acc.1, acc.2 + 1)) (0, 0)
            (v0 :: vs)).1 > 0 ∨
          ((env.nanoNow - v0.date : Int) : ℚ) / 60000000000 >
            (msg.session.config.Greylisting.Initial_Period : ℚ) := by
        rcases hc with h | ⟨first, hf, hold⟩
        · exact Or.inl (hallow.mpr h)
        · simp only [List.head?_cons, Option.some.injEq] at hf
          subst hf
          exact Or.inr hold
      rw [if_pos hcode]
      exact ⟨_, rfl, rfl, fun _ => ⟨rfl, rfl⟩, fun h => absurd hc h,
        fun h => absurd h hne⟩
    · have hcode : ¬ ((List.foldl (fun (acc : Nat × Nat) (verdict : greylistVerdict) =>
          if verdict.verdict = "permit" then (acc.1 + 1, acc.2) else (acc.1, acc.2 + 1)) (0, 0)
            (v0 :: vs)).1 > 0 ∨
          ((env.nanoNow - v0.date : Int) : ℚ) / 60000000000 >
            (msg.session.config.Greylisting.Initial_Period : ℚ)) := by
        intro h
        rcases h with h | h
        · exact hc (Or.inl (hallow.mp h))
        · exact hc (Or.inr ⟨v0, rfl, h⟩)
      rw [if_neg hcode]
      exact ⟨_, rfl, rfl, fun h => absurd h hc, fun _ => ⟨rfl, rfl⟩,
        fun h => absurd h hne⟩

/-- C15, at the empty history: tempfail with the initial score. -/
theorem C15_witness :
    ∃ r, greylistGetVerdictRdbms (exampleGreylistEnv false 1456000000 []) (greylistMessage 5) []
        none "" = some r ∧ r.SuggestedAction = MessageTempFail ∧ r.Score = 7 :=
  (C15_rdbms_history_decision (exampleGreylistEnv false 1456000000 []) (greylistMessage 5) []
    none "").elim fun r hr => ⟨r, hr.1, hr.2.2.2.2 rfl⟩

theorem redisGetInt64_set (store : List RedisEntry) (now now2 : Int) (key : String) (n ttl : Int)
    (h : now2 < now + ttl) :
    redisGetInt64 (redisSet store now key (.int n) ttl) now2 key = some n := by
  unfold redisGetInt64 redisLookup redisSet
  simp [List.find?_cons, h]

theorem redisLookup_set (store : List RedisEntry) (now now2 : Int) (key : String)
    (v : RedisValue) (ttl : Int) (h : now2 < now + ttl) :
    redisLookup (redisSet store now key v ttl) now2 key = some ⟨key, v, now + ttl⟩ := by
  unfold redisLookup redisSet
  simp [List.find?_cons, h]

theorem redisGetInt64_of_lookup_none (store : List RedisEntry) (now : Int) (key : String)
    (h : redisLookup store now key = none) : redisGetInt64 store now key = none := by
  unfold redisGetInt64
  rw [h]

theorem redisGetInt64_set_expired (store : List RedisEntry) (now now2 : Int) (key : String)
    (v : RedisValue) (ttl : Int) (h : now + ttl ≤ now2) :
    redisGetInt64 (redisSet store now key v ttl) now2 key = none := by
  have hl : redisLookup (redisSet store now key v ttl) now2 key = none := by
    unfold redisLookup redisSet
    rw [List.find?_eq_none]
    intro e he
    rcases List.mem_cons.mp he with h1 | h1
    · subst h1
      simp only [decide_eq_true_eq, not_and, not_lt]
      intro _
      exact h
    · have := (List.mem_filter.mp h1).2
      simp only [decide_eq_true_eq] at this
      simp only [decide_eq_true_eq, not_and]
      intro hk
      exact absurd hk this
  exact redisGetInt64_of_lookup_none _ _ _ hl

theorem greylistGetVerdictRedis_first (env : GreylistEnv) (msg : Message)
    (err1 : Option String) (dom1 : String)
    (hfresh : redisLookup env.redis env.unixNow (greylistMsgKey env msg) = none) :
    greylistGetVerdictRedis env msg err1 dom1 =
      ({ Module := "greylisting", SuggestedAction := MessageTempFail,
         Message := "Greylisting in effect, please come back later",
         Score := msg.session.config.Greylisting.Initial_Score,
         Determinants := some [("Found in whitelist", "false"),
           ("Found in SPF whitelist", "false"), ("SpfError", errorText err1),
           ("SpfDomain", dom1), ("Store", "redis")] },
        redisSet env.redis env.unixNow (greylistMsgKey env msg) (.int env.unixNow) (90 * 60)) := by
  have hget := redisGetInt64_of_lookup_none _ _ _ hfresh
  unfold greylistGetVerdictRedis
  simp only [hget]

theorem greylistGetVerdictRedis_tempfail_of_not_late (env : GreylistEnv) (msg : Message)
    (err : Option String) (dom : String)
    (h : ∀ res, redisGetInt64 env.redis env.unixNow (greylistMsgKey env msg) = some res →
      ¬ (res + (msg.session.config.Greylisting.Initial_Period : Int) * 60 < env.unixNow)) :
    (greylistGetVerdictRedis env msg err dom).1.SuggestedAction = MessageTempFail ∧
      (greylistGetVerdictRedis env msg err dom).1.Score =
        msg.session.config.Greylisting.Initial_Score := by
  cases hg : redisGetInt64 env.redis env.unixNow (greylistMsgKey env msg) with
  | none =>
    unfold greylistGetVerdictRedis
    simp only [hg]
    exact ⟨trivial, trivial⟩
  | some res =>
    unfold greylistGetVerdictRedis
    simp only [hg, if_neg (h res hg)]
    exact ⟨trivial, trivial⟩

/-- C14 (amended): for a tuple without a live cache key at time t, the first delivery at t
returns tempfail with the score `Initial_Score` and creates the key with the value t and a
lifetime of 90 minutes. A second delivery at the time t2 returns permit with score 1 when
t + `Initial_Period` * 60 < t2 < t + 5400. It returns tempfail with `Initial_Score` again
when t2 is at most t + `Initial_Period` * 60, and when t2 is later than t + 5400, the key
having expired; so it does at every t2 when `Initial_Period` is 90 minutes or more. -/
theorem C14_redis_retry (env : GreylistEnv) (msg : Message) (err1 err2 : Option String)
    (dom1 dom2 : String) (t2 : Int)
    (hfresh : redisLookup env.redis env.unixNow (greylistMsgKey env msg) = none) :
    ((greylistGetVerdictRedis env msg err1 dom1).1.SuggestedAction = MessageTempFail ∧
      (greylistGetVerdictRedis env msg err1 dom1).1.Score =
        msg.session.config.Greylisting.Initial_Score ∧
      redisLookup (greylistGetVerdictRedis env msg err1 dom1).2 env.unixNow
          (greylistMsgKey env msg) =
        some ⟨greylistMsgKey env msg, .int env.unixNow, env.unixNow + 90 * 60⟩) ∧
    (env.unixNow + (msg.session.config.Greylisting.Initial_Period : Int) * 60 < t2 →
      t2 < env.unixNow + 90 * 60 →
      (secondDelivery env msg err1 err2 dom1 dom2 t2).1.SuggestedAction = MessagePermit ∧
        (secondDelivery env msg err1 err2 dom1 dom2 t2).1.Score = 1) ∧
    (t2 ≤ env.unixNow + (msg.session.config.Greylisting.Initial_Period : Int) * 60 →
      (secondDelivery env msg err1 err2 dom1 dom2 t2).1.SuggestedAction = MessageTempFail ∧
        (secondDelivery env msg err1 err2 dom1 dom2 t2).1.Score =
          msg.session.config.Greylisting.Initial_Score) ∧
    (env.unixNow + 90 * 60 < t2 →
      (secondDelivery env msg err1 err2 dom1 dom2 t2).1.SuggestedAction = MessageTempFail ∧
        (secondDelivery env msg err1 err2 dom1 dom2 t2).1.Score =
          msg.session.config.Greylisting.Initial_Score) ∧
    (90 ≤ msg.session.config.Greylisting.Initial_Period →
      (secondDelivery env msg err1 err2 dom1 dom2 t2).1.SuggestedAction = MessageTempFail ∧
        (secondDelivery env msg err1 err2 dom1 dom2 t2).1.Score =
          msg.session.config.Greylisting.Initial_Score) := by
  have h1 := greylistGetVerdictRedis_first env msg err1 dom1 hfresh
  have hkey : greylistMsgKey
      { env with unixNow := t2,
                 redis := redisSet env.redis env.unixNow (greylistMsgKey env msg)
                   (.int env.unixNow) (90 * 60) } msg = greylistMsgKey env msg := rfl
  have hsecond : secondDelivery env msg err1 err2 dom1 dom2 t2 =
      greylistGetVerdictRedis
        { env with unixNow := t2,
                   redis := redisSet env.redis env.unixNow (greylistMsgKey env msg)
                     (.int env.unixNow) (90 * 60) } msg err2 dom2 := by
    unfold secondDelivery
    rw [h1]
  -- the value found by the second delivery, if any, is t
  have hval : ∀ res, redisGetInt64 (redisSet env.redis env.unixNow (greylistMsgKey env msg)
      (.int env.unixNow) (90 * 60)) t2 (greylistMsgKey env msg) = some res →
      res = env.unixNow ∧ t2 < env.unixNow + 90 * 60 := by
    intro res hres
    by_cases hl : t2 < env.unixNow + 90 * 60
    · rw [redisGetInt64_set _ _ _ _ _ _ hl] at hres
      exact ⟨(Option.some.inj hres).symm, hl⟩
    · rw [redisGetInt64_set_expired _ _ _ _ _ _ (by omega)] at hres
      exact absurd hres (by simp)
  have hearly : t2 ≤ env.unixNow + (msg.session.config.Greylisting.Initial_Period : Int) * 60 →
      (secondDelivery env msg err1 err2 dom1 dom2 t2).1.SuggestedAction = MessageTempFail ∧
        (secondDelivery env msg err1 err2 dom1 dom2 t2).1.Score =
          msg.session.config.Greylisting.Initial_Score := by
    intro hle
    rw [hsecond]
    refine greylistGetVerdictRedis_tempfail_of_not_late _ msg err2 dom2 ?_
    intro res hres
    rw [hkey] at hres
    obtain ⟨hr, _⟩ := hval res hres
    subst hr
    show ¬ (env.unixNow + (msg.session.config.Greylisting.Initial_Period : Int) * 60 < t2)
    omega
  have hexpired : env.unixNow + 90 * 60 ≤ t2 →
      (secondDelivery env msg err1 err2 dom1 dom2 t2).1.SuggestedAction = MessageTempFail ∧
        (secondDelivery env msg err1 err2 dom1 dom2 t2).1.Score =
          msg.session.config.Greylisting.Initial_Score := by
    intro hle
    rw [hsecond]
    refine greylistGetVerdictRedis_tempfail_of_not_late _ msg err2 dom2 ?_
    intro res hres
    rw [hkey] at hres
    obtain ⟨_, hl⟩ := hval res hres
    omega
  refine ⟨?_, ?_, hearly, fun h => hexpired (le_of_lt h), ?_⟩
  · rw [h1]
    exact ⟨rfl, rfl, redisLookup_set _ _ _ _ _ _ (by omega)⟩
  · intro hlate hlive
    have h2 : redisGetInt64 (redisSet env.redis env.unixNow (greylistMsgKey env msg)
        (.int env.unixNow) (90 * 60)) t2 (greylistMsgKey env msg) = some env.unixNow :=
      redisGetInt64_set _ _ _ _ _ _ hlive
    rw [hsecond]
    constructor
    · unfold greylistGetVerdictRedis
      simp only [hkey, h2, if_pos hlate]
    · unfold greylistGetVerdictRedis
      simp only [hkey, h2, if_pos hlate]
  · intro hp
    by_cases hle : t2 ≤ env.unixNow +
        (msg.session.config.Greylisting.Initial_Period : Int) * 60
    · exact hearly hle
    · have : (90 : Int) ≤ (msg.session.config.Greylisting.Initial_Period : Int) := by
        exact_mod_cast hp
      exact hexpired (by omega)

/-- C14, at the fourth scenario with a period of 4 minutes, and at a period of 120 minutes:
first delivery at time 1456000000, tempfail; the same tuple again 300 seconds later, period
4, permit; with the period 120 the second delivery is answered tempfail (here after 7300
seconds). -/
theorem C14_witness :
    (greylistGetVerdictRedis (exampleGreylistEnv true 1456000000 []) (greylistMessage 4)
        none "").1.SuggestedAction = MessageTempFail ∧
      (secondDelivery (exampleGreylistEnv true 1456000000 []) (greylistMessage 4)
        none none "" "" 1456000300).1.SuggestedAction = MessagePermit ∧
      (secondDelivery (exampleGreylistEnv true 1456000000 []) (greylistMessage 120)
        none none "" "" 1456007300).1.SuggestedAction = MessageTempFail :=
  ⟨(C14_redis_retry (exampleGreylistEnv true 1456000000 []) (greylistMessage 4) none none "" ""
      1456000300 rfl).1.1,
    ((C14_redis_retry (exampleGreylistEnv true 1456000000 []) (greylistMessage 4) none none ""
      "" 1456000300 rfl).2.1 (by decide) (by decide)).1,
    ((C14_redis_retry (exampleGreylistEnv true 1456000000 []) (greylistMessage 120) none none
      "" "" 1456007300 rfl).2.2.2.2 (by decide)).1⟩

/-- C14 (as stated, refuted): with an initial period of 5 minutes, the second delivery exactly
300 seconds after the first finds the key with the value of the first, and the test
`res + 300 < now` fails: tempfail again. With an initial period of 120 minutes, the second
delivery 7201 seconds after the first, later than the period, finds no key any more, the
lifetime of 90 minutes being over: tempfail again, and the key is set anew. -/
theorem C14_counterexample :
    ((greylistGetVerdictRedis (exampleGreylistEnv true 1456000000 []) (greylistMessage 5)
        none "").1.SuggestedAction = MessageTempFail ∧
      redisGetInt64 (greylistGetVerdictRedis (exampleGreylistEnv true 1456000000 [])
        (greylistMessage 5) none "").2 (1456000000 + 5 * 60)
        (greylistMsgKey (exampleGreylistEnv true 1456000000 []) (greylistMessage 5)) =
          some 1456000000 ∧
      (secondDelivery (exampleGreylistEnv true 1456000000 []) (greylistMessage 5)
        none none "" "" (1456000000 + 5 * 60)).1.SuggestedAction = MessageTempFail) ∧
    ((greylistGetVerdictRedis (exampleGreylistEnv true 1456000000 []) (greylistMessage 120)
        none "").1.SuggestedAction = MessageTempFail ∧
      redisGetInt64 (greylistGetVerdictRedis (exampleGreylistEnv true 1456000000 [])
        (greylistMessage 120) none "").2 (1456000000 + 120 * 60 + 1)
        (greylistMsgKey (exampleGreylistEnv true 1456000000 []) (greylistMessage 120)) =
          none ∧
      (secondDelivery (exampleGreylistEnv true 1456000000 []) (greylistMessage 120)
        none none "" "" (1456000000 + 120 * 60 + 1)).1.SuggestedAction = MessageTempFail ∧
      (secondDelivery (exampleGreylistEnv true 1456000000 []) (greylistMessage 120)
        none none "" "" (1456000000 + 120 * 60)).1.SuggestedAction = MessageTempFail) := by
  decide!

theorem spfLoop_of_find (env : GreylistEnv) (ip : String) (whitelist : List String) :
    ∀ error : Option String,
      (∀ d, whitelist.find? (spfPasses env ip) = some d →
        ∃ err, greylistIsSpfWhitelistedLoop env ip error whitelist = (true, d, err)) ∧
      (whitelist.find? (spfPasses env ip) = none →
        (greylistIsSpfWhitelistedLoop env ip error whitelist).1 = false) := by
  induction whitelist with
  | nil =>
    intro error
    exact ⟨fun d h => absurd h (by simp), fun _ => rfl⟩
  | cons w ws ih =>
    intro error
    rw [List.find?_cons, greylistIsSpfWhitelistedLoop]
    unfold spfPasses
    cases hq : env.spfQuery w ip with
    | error e =>
      simp only
      exact ih (some e)
    | ok res =>
      by_cases hp : res = SpfResult.PASS
      · subst hp
        simp only [if_true]
        exact ⟨fun d h => ⟨error, by simp only [Option.some.injEq] at h; rw [h]⟩,
          fun h => absurd h (by simp)⟩
      · have hmatch : (match (Except.ok res : Except String SpfResult) with
            | .ok .PASS => true
            | _ => false) = false := by
          cases res <;> first | rfl | exact absurd rfl hp
        simp only [hmatch, hp, if_false]
        exact ih error

theorem spfLoop_congr (env env1 : GreylistEnv) (ip : String)
    (h : env1.spfQuery = env.spfQuery) (whitelist : List String) :
    ∀ error : Option String, greylistIsSpfWhitelistedLoop env1 ip error whitelist =
      greylistIsSpfWhitelistedLoop env ip error whitelist := by
  induction whitelist with
  | nil => intro error; rfl
  | cons w ws ih =>
    intro error
    rw [greylistIsSpfWhitelistedLoop, greylistIsSpfWhitelistedLoop, h]
    cases env.spfQuery w ip with
    | error e => exact ih (some e)
    | ok res =>
      simp only
      split_ifs
      · rfl
      · exact ih error

theorem find_isSome_of_pass (env : GreylistEnv) (ip : String) (whitelist : List String)
    (h : ∃ d ∈ whitelist, env.spfQuery d ip = .ok .PASS) :
    ∃ d, whitelist.find? (spfPasses env ip) = some d := by
  obtain ⟨d, hd, hq⟩ := h
  cases hf : whitelist.find? (spfPasses env ip) with
  | some d1 => exact ⟨d1, rfl⟩
  | none =>
    have := List.find?_eq_none.mp hf d hd
    unfold spfPasses at this
    rw [hq] at this
    exact absurd rfl this

theorem redisExists_of_mem (store : List RedisEntry) (now : Int) (key : String)
    (h : ∃ e ∈ store, e.key = key ∧ now < e.expiresAt) : redisExists store now key = true := by
  obtain ⟨e, he, hk, hl⟩ := h
  unfold redisExists redisLookup
  rw [Option.isSome_iff_ne_none]
  intro hnone
  have := List.find?_eq_none.mp hnone e he
  simp only [decide_eq_true_eq, not_and] at this
  exact this hk hl

theorem greylistIsWhitelisted_of_holds (env : GreylistEnv) (ip : String)
    (h : whitelistHolds env ip) : greylistIsWhitelisted env ip = true := by
  unfold greylistIsWhitelisted
  rcases h with ⟨hr, hmem⟩ | ⟨hr, hrow⟩
  · rw [if_pos hr]
    exact redisExists_of_mem env.redis env.unixNow _ hmem
  · rw [hr]
    simp only [Bool.false_eq_true, if_false]
    unfold greylistIsWhitelistedRdbms
    rw [hrow]

/-- C16: with greylisting enabled, whenever some configured SPF whitelist domain yields PASS
for the peer address, or the peer address is present in the whitelist store (a live cache
entry under its key when the cache is enabled, a row of the whitelist table otherwise),
`greylistGetResult` returns permit with score 1; it leaves the cache as it is and returns the
same whatever the history query would answer; on an SPF hit the domain reported is the first
one in list order that passes, errors of the resolver for earlier domains notwithstanding. -/
theorem C16_whitelist_short_circuit (env : GreylistEnv) (msg : Message)
    (hen : env.Enabled = true) (hsen : msg.session.config.Greylisting.Enabled = true)
    (hhit : (∃ d ∈ msg.session.config.Greylisting.Whitelist_Spf,
        env.spfQuery d msg.session.Ip = .ok .PASS) ∨
      whitelistHolds env msg.session.Ip) :
    ∃ r, greylistGetResult env msg = some (some r, env.redis) ∧
      r.Module = "greylisting" ∧ r.SuggestedAction = MessagePermit ∧ r.Score = 1 ∧
      (∀ history, greylistGetResult { env with recentVerdicts := history } msg =
        some (some r, env.redis)) ∧
      (∀ d, msg.session.config.Greylisting.Whitelist_Spf.find?
          (spfPasses env msg.session.Ip) = some d →
        ∃ err, r.Determinants = some [("Found in SPF whitelist", "true"),
          ("SpfError", errorText err), ("SpfDomain", d)]) ∧
      (msg.session.config.Greylisting.Whitelist_Spf.find?
          (spfPasses env msg.session.Ip) = none →
        ∃ err dom, r.Determinants = some [("Found in whitelist", "true"),
          ("Found in SPF whitelist", "false"), ("SpfError", errorText err),
          ("SpfDomain", dom)]) := by
  have hdis : ¬ (env.Enabled = false ∨ msg.session.config.Greylisting.Enabled = false) := by
    simp [hen, hsen]
  have hloop := spfLoop_of_find env msg.session.Ip msg.session.config.Greylisting.Whitelist_Spf
    none
  cases hf : msg.session.config.Greylisting.Whitelist_Spf.find?
      (spfPasses env msg.session.Ip) with
  | some d =>
    obtain ⟨err, hres⟩ := hloop.1 d hf
    have hspf : greylistIsSpfWhitelisted env msg.session.Ip
        msg.session.config.Greylisting.Whitelist_Spf = (true, d, err) := hres
    refine ⟨{ Module := "greylisting", SuggestedAction := MessagePermit, Message := "",
              Score := 1,
              Determinants := some [("Found in SPF whitelist", "true"),
                ("SpfError", errorText err), ("SpfDomain", d)] }, ?_, rfl, rfl, rfl, ?_, ?_,
      fun h => absurd h (by simp)⟩
    · unfold greylistGetResult
      rw [if_neg hdis]
      simp only [hspf, if_true]
    · intro history
      have hspf1 : greylistIsSpfWhitelisted { env with recentVerdicts := history }
          msg.session.Ip msg.session.config.Greylisting.Whitelist_Spf = (true, d, err) := by
        unfold greylistIsSpfWhitelisted
        rw [spfLoop_congr env { env with recentVerdicts := history } _ rfl]
        exact hres
      unfold greylistGetResult
      rw [if_neg hdis]
      simp only [hspf1, if_true]
    · intro d1 hd1
      simp only [Option.some.injEq] at hd1
      subst hd1
      exact ⟨err, rfl⟩
  | none =>
    have hwl : greylistIsWhitelisted env msg.session.Ip = true := by
      rcases hhit with h | h
      · obtain ⟨d, hd⟩ := find_isSome_of_pass env _ _ h
        rw [hf] at hd
        exact absurd hd (by simp)
      · exact greylistIsWhitelisted_of_holds env _ h
    have hfalse := hloop.2 hf
    have hspf : (greylistIsSpfWhitelisted env msg.session.Ip
        msg.session.config.Greylisting.Whitelist_Spf).1 = false := hfalse
    refine ⟨{ Module := "greylisting", SuggestedAction := MessagePermit, Message := "",
              Score := 1,
              Determinants := some [("Found in whitelist", "true"),
                ("Found in SPF whitelist", "false"),
                ("SpfError", errorText (greylistIsSpfWhitelisted env msg.session.Ip
                  msg.session.config.Greylisting.Whitelist_Spf).2.2),
                ("SpfDomain", (greylistIsSpfWhitelisted env msg.session.Ip
                  msg.session.config.Greylisting.Whitelist_Spf).2.1)] },
      ?_, rfl, rfl, rfl, ?_, ?_, fun _ => ⟨_, _, rfl⟩⟩
    · unfold greylistGetResult
      rw [if_neg hdis]
      simp only [hspf, hwl, if_true, Bool.false_eq_true, if_false]
    · intro history
      have hspf1 : greylistIsSpfWhitelisted { env with recentVerdicts := history }
          msg.session.Ip msg.session.config.Greylisting.Whitelist_Spf =
          greylistIsSpfWhitelisted env msg.session.Ip
            msg.session.config.Greylisting.Whitelist_Spf := by
        unfold greylistIsSpfWhitelisted
        exact spfLoop_congr env { env with recentVerdicts := history } _ rfl _ _
      have hwl1 : greylistIsWhitelisted { env with recentVerdicts := history }
          msg.session.Ip = true := hwl
      unfold greylistGetResult
      rw [if_neg hdis]
      simp only [hspf1, hspf, hwl1, if_true, Bool.false_eq_true, if_false]
    · intro d1 hd1
      exact absurd hd1 (by simp)

/-- C16, at the three ways in: a resolver that fails for the first domain and passes for the
second (permit with score 1, reporting the second domain); a live cache entry for the peer
address; a row of the whitelist table for the peer address. No history is available in any
of them. -/
theorem C16_witness :
    (∃ r, greylistGetResult envSpfSecondPasses (greylistMessage 5) =
        some (some r, envSpfSecondPasses.redis) ∧
      r.SuggestedAction = MessagePermit ∧ r.Score = 1 ∧
      ∃ err, r.Determinants = some [("Found in SPF whitelist", "true"),
        ("SpfError", errorText err), ("SpfDomain", "spf.example.net")]) ∧
    (∃ r, greylistGetResult envCacheHoldsIp (greylistMessage 5) =
        some (some r, envCacheHoldsIp.redis) ∧
      r.SuggestedAction = MessagePermit ∧ r.Score = 1 ∧
      ∃ err dom, r.Determinants = some [("Found in whitelist", "true"),
        ("Found in SPF whitelist", "false"), ("SpfError", errorText err),
        ("SpfDomain", dom)]) ∧
    (∃ r, greylistGetResult envTableHoldsIp (greylistMessage 5) =
        some (some r, envTableHoldsIp.redis) ∧
      r.SuggestedAction = MessagePermit ∧ r.Score = 1 ∧
      ∃ err dom, r.Determinants = some [("Found in whitelist", "true"),
        ("Found in SPF whitelist", "false"), ("SpfError", errorText err),
        ("SpfDomain", dom)]) :=
  ⟨(C16_whitelist_short_circuit envSpfSecondPasses (greylistMessage 5) rfl rfl
      (Or.inl ⟨"spf.example.net", by decide, rfl⟩)).elim
      fun r hr => ⟨r, hr.1, hr.2.2.1, hr.2.2.2.1, hr.2.2.2.2.2.1 "spf.example.net" (by decide!)⟩,
    (C16_whitelist_short_circuit envCacheHoldsIp (greylistMessage 5) rfl rfl
      (Or.inr (Or.inl ⟨rfl, ⟨"cluegetter-1-greylisting-ip-192.0.2.1", .str "", 1456003600⟩,
        by decide, by decide, by decide⟩))).elim
      fun r hr => ⟨r, hr.1, hr.2.2.1, hr.2.2.2.1, hr.2.2.2.2.2.2 (by decide!)⟩,
    (C16_whitelist_short_circuit envTableHoldsIp (greylistMessage 5) rfl rfl
      (Or.inr (Or.inr ⟨rfl, by decide⟩))).elim
      fun r hr => ⟨r, hr.1, hr.2.2.1, hr.2.2.2.1, hr.2.2.2.2.2.2 (by decide!)⟩⟩

/-- The whitelist store decides where no SPF domain passes: the same deliveries as in the
witness, with the peer address absent from the cache and from the table, are not let through
by the whitelist but answered from the history, here with tempfail. -/
theorem greylistGetResult_without_whitelist :
    (greylistGetResult (exampleGreylistEnv true 1456000000 []) (greylistMessage 5)).map
        (fun p => p.1.map (fun r => r.SuggestedAction)) = some (some MessageTempFail) ∧
      (greylistGetResult (exampleGreylistEnv false 1456000000 []) (greylistMessage 5)).map
        (fun p => p.1.map (fun r => r.SuggestedAction)) = some (some MessageTempFail) := by
  decide!

theorem getElem?_append_cons_length {α : Type} (done : List α) (v : α) (rest : List α) :
    (done ++ v :: rest)[done.length]? = some v := by
  rw [List.getElem?_append_right (le_refl _)]
  simp

theorem set_append_cons_length {α : Type} (done : List α) (v w : α) (rest : List α) :
    (done ++ v :: rest).set done.length w = done ++ w :: rest := by
  induction done with
  | nil => rfl
  | cons d ds ih => simp [List.set, ih]

theorem expandRecipientsLoop_eq (rcpt0 : String) (others : List String)
    (todo : List MessageHeader) :
    ∀ done extra : List MessageHeader,
      expandRecipientsLoop (rcpt0 :: others) done.length todo (done ++ todo ++ extra) =
        some (done ++ todo.map (expandOriginal rcpt0) ++ extra ++
          todo.flatMap (recipientClones others)) := by
  induction todo with
  | nil => intro done extra; simp [expandRecipientsLoop]
  | cons v todo ih =>
    intro done extra
    rw [expandRecipientsLoop]
    by_cases hc : stringsContains v.Value "%{recipient}" = false
    · rw [if_pos hc]
      have h1 : done ++ v :: todo ++ extra = (done ++ [v]) ++ todo ++ extra := by simp
      have h2 : done.length + 1 = (done ++ [v]).length := by simp
      rw [h1, h2, ih (done ++ [v]) extra]
      have hc1 : stringsContains v.Value "%{recipient}" = false := hc
      simp [expandOriginal, recipientClones, hc1]
    · rw [if_neg hc]
      have hc1 : stringsContains v.Value "%{recipient}" = true := by
        cases h : stringsContains v.Value "%{recipient}" with
        | true => rfl
        | false => exact absurd h hc
      have hget : (done ++ v :: todo ++ extra)[done.length]? = some v := by
        rw [List.append_assoc, List.cons_append]
        exact getElem?_append_cons_length done v (todo ++ extra)
      simp only [hget]
      have hset : ((done ++ v :: todo ++ extra) ++ others.map
          (fun r => ({ Key := v.Key, Value := stringsReplace v.Value "%{recipient}" r } :
            MessageHeader))).set done.length
            { v with Value := stringsReplace v.Value "%{recipient}" rcpt0 } =
          (done ++ [{ v with Value := stringsReplace v.Value "%{recipient}" rcpt0 }]) ++ todo ++
            (extra ++ others.map
              (fun r => ({ Key := v.Key, Value := stringsReplace v.Value "%{recipient}" r } :
                MessageHeader))) := by
        have h3 : (done ++ v :: todo ++ extra) ++ others.map
            (fun r => ({ Key := v.Key, Value := stringsReplace v.Value "%{recipient}" r } :
              MessageHeader)) = done ++ v :: (todo ++ extra ++ others.map
            (fun r => ({ Key := v.Key, Value := stringsReplace v.Value "%{recipient}" r } :
              MessageHeader))) := by simp
        rw [h3, set_append_cons_length]
        simp
      rw [hset]
      have h2 : done.length + 1 =
          (done ++ [{ v with Value := stringsReplace v.Value "%{recipient}" rcpt0 }]).length := by
        simp
      rw [h2, ih]
      simp [expandOriginal, recipientClones, hc1]

theorem expandRecipients_eq (msg : Message) (rcpt0 : String) (others : List String)
    (hr : msg.Rcpt = rcpt0 :: others) :
    expandRecipients msg = some (msg.addHeaders.map (expandOriginal rcpt0) ++
      msg.addHeaders.flatMap (recipientClones others)) := by
  unfold expandRecipients
  rw [hr]
  have := expandRecipientsLoop_eq rcpt0 others msg.addHeaders [] []
  simpa using this

theorem take_append_drop_succ {α : Type} (kept : List α) (h : α) (t : List α) :
    (kept ++ h :: t).take kept.length ++ (kept ++ h :: t).drop (kept.length + 1) = kept ++ t := by
  induction kept with
  | nil => simp
  | cons k ks ih => simp

theorem removeEmptyLoop_eq (rest : List MessageHeader) :
    ∀ (kept : List MessageHeader) (i : Int), (∀ h ∈ kept, h.Value ≠ "") →
      removeEmptyLoop rest.length i (i - kept.length) (kept ++ rest) =
        some (kept ++ rest.filter (fun h => decide (h.Value ≠ ""))) := by
  induction rest with
  | nil => intro kept i _; simp [removeEmptyLoop]
  | cons h t ih =>
    intro kept i hk
    rw [List.length_cons, removeEmptyLoop]
    have hk0 : i - (i - (kept.length : Int)) = (kept.length : Int) := by omega
    simp only [hk0]
    rw [if_neg (by omega), Int.toNat_ofNat, getElem?_append_cons_length]
    simp only
    by_cases hv : h.Value ≠ ""
    · rw [if_pos hv]
      have h1 : kept ++ h :: t = (kept ++ [h]) ++ t := by simp
      have h2 : i - (kept.length : Int) = (i + 1) - ((kept ++ [h]).length : Int) := by
        simp only [List.length_append, List.length_singleton]
        push_cast
        omega
      rw [h1, h2, ih (kept ++ [h]) (i + 1)]
      · simp [List.filter_cons, hv]
      · intro x hx
        rcases List.mem_append.mp hx with hx | hx
        · exact hk x hx
        · rw [List.mem_singleton] at hx; rw [hx]; exact hv
    · rw [if_neg hv]
      have hlen : ((kept ++ h :: t).length : Int) > (kept.length : Int) := by
        simp only [List.length_append, List.length_cons]
        push_cast
        omega
      rw [if_pos hlen]
      have htake := take_append_drop_succ kept h t
      have h2 : i - (kept.length : Int) + 1 = (i + 1) - (kept.length : Int) := by omega
      rw [htake, h2, ih kept (i + 1) hk]
      have hv1 : h.Value = "" := by
        by_contra hc; exact hv hc
      simp [List.filter_cons, hv1]

/-- The removal loop never leaves the list and keeps the entries with a non-empty value. -/
theorem removeEmptyLoop_filter (l : List MessageHeader) :
    removeEmptyLoop l.length 0 0 l = some (l.filter (fun h => decide (h.Value ≠ ""))) := by
  have := removeEmptyLoop_eq l [] 0 (fun h hh => absurd hh (List.not_mem_nil h))
  simpa using this

/-- C19: whenever the loops before it end, giving the list `substituted` of the substituted
add-headers, the removal loop never indexes outside the shrinking list, and the add list that
`messageGetMutableHeaders` returns is `substituted` without exactly the entries whose value
is the empty string, the others in their order. -/
theorem C19_empty_add_headers_dropped (msg : Message)
    (results : Arr4 (List MessageCheckResult)) (substituted : List MessageHeader)
    (h : substitutedHeaders msg = some substituted) :
    removeEmptyLoop substituted.length 0 0 substituted =
        some (substituted.filter (fun h => decide (h.Value ≠ ""))) ∧
      ∃ delete, messageGetMutableHeaders msg results =
        some (substituted.filter (fun h => decide (h.Value ≠ "")), delete) := by
  refine ⟨removeEmptyLoop_filter substituted, ?_⟩
  unfold substitutedHeaders at h
  unfold messageGetMutableHeaders
  cases he : expandRecipients msg with
  | none => rw [he] at h; exact absurd h (by simp)
  | some expanded =>
    rw [he] at h
    simp only [Option.map_some', Option.some.injEq] at h
    simp only [h, removeEmptyLoop_filter]
    exact ⟨_, rfl⟩

/-- C19, at three add-headers of which the second has an empty value: the two others are
returned, in their order. -/
theorem C19_witness :
    removeEmptyLoop 3 0 0
        [{ Key := "X-First", Value := "one" }, { Key := "X-Empty", Value := "" },
          { Key := "X-Last", Value := "mx.example.org" }] =
      some [{ Key := "X-First", Value := "one" }, { Key := "X-Last", Value := "mx.example.org" }] ∧
    ∃ delete, messageGetMutableHeaders msgEmptyHeader ⟨[], [], [], []⟩ =
      some ([{ Key := "X-First", Value := "one" },
        { Key := "X-Last", Value := "mx.example.org" }], delete) :=
  C19_empty_add_headers_dropped msgEmptyHeader ⟨[], [], [], []⟩
    [{ Key := "X-First", Value := "one" }, { Key := "X-Empty", Value := "" },
      { Key := "X-Last", Value := "mx.example.org" }] (by decide!)

theorem uniqueDeletes_eq (msg : Message) (l : List MessageHeader) :
    uniqueDeletes msg l =
      (l.filter (fun v => v.flagUnique)).flatMap (fun v => msg.GetHeader v.Key false) := by
  unfold uniqueDeletes
  suffices h : ∀ acc : List MessageHeader, l.foldl
      (fun delete v => if v.flagUnique then delete ++ msg.GetHeader v.Key false else delete) acc =
      acc ++ (l.filter (fun v => v.flagUnique)).flatMap (fun v => msg.GetHeader v.Key false) by
    rw [h]; simp
  induction l with
  | nil => intro acc; simp
  | cons v l ih =>
    intro acc
    rw [List.foldl_cons, ih]
    by_cases hv : v.flagUnique = true
    · simp [hv, List.filter_cons]
    · simp [hv, List.filter_cons]

theorem expandOriginal_key (rcpt0 : String) (h : MessageHeader) :
    (expandOriginal rcpt0 h).Key = h.Key ∧ (expandOriginal rcpt0 h).flagUnique = h.flagUnique := by
  unfold expandOriginal
  split_ifs <;> exact ⟨rfl, rfl⟩

theorem recipientClones_not_unique (others : List String) (h : MessageHeader) :
    ∀ c ∈ recipientClones others h, c.flagUnique = false := by
  intro c hc
  unfold recipientClones at hc
  split_ifs at hc
  · obtain ⟨r, _, rfl⟩ := List.mem_map.mp hc
    rfl
  · exact absurd hc (List.not_mem_nil c)

theorem filter_unique_expanded (msg : Message) (rcpt0 : String) (l : List MessageHeader) :
    ((l.map (expandOriginal rcpt0)).filter (fun v => v.flagUnique)).flatMap
        (fun v => msg.GetHeader v.Key false) =
      (l.filter (fun v => v.flagUnique)).flatMap (fun v => msg.GetHeader v.Key false) := by
  induction l with
  | nil => rfl
  | cons h l ih =>
    obtain ⟨hk, hu⟩ := expandOriginal_key rcpt0 h
    by_cases hv : h.flagUnique = true
    · simp only [List.map_cons, List.filter_cons, hu, hv, if_true, List.flatMap_cons, hk, ih]
    · simp only [List.map_cons, List.filter_cons, hu, hv, if_false]
      simp only [Bool.false_eq_true, if_false]
      exact ih

theorem filter_unique_clones (others : List String) (l : List MessageHeader) :
    (l.flatMap (recipientClones others)).filter (fun v => v.flagUnique) = [] := by
  rw [List.filter_eq_nil_iff]
  intro c hc
  obtain ⟨h, _, hch⟩ := List.mem_flatMap.mp hc
  simp [recipientClones_not_unique others h c hch]

theorem filter_unique_appendId (msg : Message) (l : List MessageHeader) :
    (appendInjectedMessageId msg l).filter (fun v => v.flagUnique) =
      l.filter (fun v => v.flagUnique) := by
  unfold appendInjectedMessageId
  split_ifs
  · simp [List.filter_append, List.filter_cons]
  · rfl

/-- C18: on a message with a recipient, `messageGetMutableHeaders` returns, and its delete
list is the concatenation, over the pending add-headers whose unique flag is set and in their
order, of the existing headers that `GetHeader` finds for the key of the add-header: those
whose key equals it ignoring case and that are not deleted. It is empty when no pending
add-header is flagged. -/
theorem C18_unique_flag_deletes (msg : Message) (results : Arr4 (List MessageCheckResult))
    (hr : msg.Rcpt ≠ []) :
    (∃ add, messageGetMutableHeaders msg results =
      some (add, (msg.addHeaders.filter (fun v => v.flagUnique)).flatMap
        (fun v => msg.Headers.filter
          (fun hdr => stringsEqualFold hdr.Key v.Key && !hdr.deleted)))) ∧
    ((∀ v ∈ msg.addHeaders, v.flagUnique = false) →
      ∃ add, messageGetMutableHeaders msg results = some (add, [])) := by
  obtain ⟨rcpt0, others, hrc⟩ : ∃ r0 rs, msg.Rcpt = r0 :: rs := by
    cases hm : msg.Rcpt with
    | nil => exact absurd hm hr
    | cons a b => exact ⟨a, b, rfl⟩
  have hdel : uniqueDeletes msg (appendInjectedMessageId msg
      (msg.addHeaders.map (expandOriginal rcpt0) ++
        msg.addHeaders.flatMap (recipientClones others))) =
      (msg.addHeaders.filter (fun v => v.flagUnique)).flatMap
        (fun v => msg.Headers.filter
          (fun hdr => stringsEqualFold hdr.Key v.Key && !hdr.deleted)) := by
    rw [uniqueDeletes_eq, filter_unique_appendId, List.filter_append, filter_unique_clones,
      List.append_nil, filter_unique_expanded]
    simp [Message.GetHeader]
  have hmain : ∃ add, messageGetMutableHeaders msg results =
      some (add, (msg.addHeaders.filter (fun v => v.flagUnique)).flatMap
        (fun v => msg.Headers.filter
          (fun hdr => stringsEqualFold hdr.Key v.Key && !hdr.deleted))) := by
    unfold messageGetMutableHeaders
    rw [expandRecipients_eq msg rcpt0 others hrc]
    simp only [removeEmptyLoop_filter, hdel]
    exact ⟨_, rfl⟩
  refine ⟨hmain, ?_⟩
  intro hnone
  have hf : msg.addHeaders.filter (fun v => v.flagUnique) = [] := by
    rw [List.filter_eq_nil_iff]
    intro v hv
    simp [hnone v hv]
  rw [hf] at hmain
  simpa using hmain

/-- C18, at the sixth scenario: the add list is the one header `X-Scan: YES`, the delete list
the two existing headers. -/
theorem C18_witness :
    (∃ add, messageGetMutableHeaders msgScan ⟨[], [], [], []⟩ =
      some (add, [{ Key := "X-Scan", Value := "old" }, { Key := "x-scan", Value := "older" }])) ∧
    messageGetMutableHeaders msgScan ⟨[], [], [], []⟩ =
      some ([{ Key := "X-Scan", Value := "YES", flagUnique := true }],
        [{ Key := "X-Scan", Value := "old" }, { Key := "x-scan", Value := "older" }]) :=
  ⟨(C18_unique_flag_deletes msgScan ⟨[], [], [], []⟩ (by decide)).1, by decide!⟩

/-- C20: for a message with the recipients r1, r2, .., rn, the first loop ends with the
pending add-headers in their order, each one that holds `%{recipient}` with every occurrence
replaced by r1, followed by the clones: for each such add-header in turn one clone with its
key per recipient r2, .., rn, in recipient order, with the token replaced by that recipient.
An add-header without the token is left as it is and not cloned. The add list returned is
this list (with the Message-Id header, if one is injected) after the substitution of the
variables and without the entries left empty; an expanded value that holds no `%` and is not
empty is found in it unchanged. -/
theorem C20_recipient_expansion (msg : Message) (results : Arr4 (List MessageCheckResult))
    (rcpt0 : String) (others : List String) (hr : msg.Rcpt = rcpt0 :: others) :
    expandRecipients msg = some (msg.addHeaders.map (expandOriginal rcpt0) ++
        msg.addHeaders.flatMap (recipientClones others)) ∧
    (∀ h ∈ msg.addHeaders, stringsContains h.Value "%{recipient}" = true →
      expandOriginal rcpt0 h = { h with Value := stringsReplace h.Value "%{recipient}" rcpt0 } ∧
      recipientClones others h = others.map
        (fun r => { Key := h.Key, Value := stringsReplace h.Value "%{recipient}" r }) ∧
      (expandOriginal rcpt0 h :: recipientClones others h).length = msg.Rcpt.length) ∧
    (∀ h ∈ msg.addHeaders, stringsContains h.Value "%{recipient}" = false →
      expandOriginal rcpt0 h = h ∧ recipientClones others h = []) ∧
    ∃ add delete, messageGetMutableHeaders msg results = some (add, delete) ∧
      add = (substituteHeaders msg (appendInjectedMessageId msg
        (msg.addHeaders.map (expandOriginal rcpt0) ++
          msg.addHeaders.flatMap (recipientClones others)))).filter
            (fun h => decide (h.Value ≠ "")) ∧
      ∀ h ∈ msg.addHeaders, stringsContains h.Value "%{recipient}" = true →
        ∀ x ∈ expandOriginal rcpt0 h :: recipientClones others h,
          '%' ∉ x.Value.data → x.Value ≠ "" → x ∈ add := by
  refine ⟨expandRecipients_eq msg rcpt0 others hr, ?_, ?_, ?_⟩
  · intro h _ hc
    refine ⟨by simp [expandOriginal, hc], by simp [recipientClones, hc], ?_⟩
    simp [recipientClones, hc, hr]
  · intro h _ hc
    exact ⟨by simp [expandOriginal, hc], by simp [recipientClones, hc]⟩
  · refine ⟨_, uniqueDeletes msg (appendInjectedMessageId msg
      (msg.addHeaders.map (expandOriginal rcpt0) ++
        msg.addHeaders.flatMap (recipientClones others))), ?_, rfl, ?_⟩
    · unfold messageGetMutableHeaders
      rw [expandRecipients_eq msg rcpt0 others hr]
      simp only [removeEmptyLoop_filter]
    · intro h hh _ x hx hpct hne
      have hxin : x ∈ msg.addHeaders.map (expandOriginal rcpt0) ++
          msg.addHeaders.flatMap (recipientClones others) := by
        rcases List.mem_cons.mp hx with hx | hx
        · rw [hx]
          exact List.mem_append_left _ (List.mem_map_of_mem _ hh)
        · exact List.mem_append_right _ (List.mem_flatMap.mpr ⟨h, hh, hx⟩)
      have hxin2 : x ∈ appendInjectedMessageId msg
          (msg.addHeaders.map (expandOriginal rcpt0) ++
            msg.addHeaders.flatMap (recipientClones others)) := by
        unfold appendInjectedMessageId
        split_ifs
        · exact List.mem_append_left _ hxin
        · exact hxin
      rw [List.mem_filter]
      refine ⟨?_, by simpa using hne⟩
      unfold substituteHeaders
      rw [List.mem_map]
      refine ⟨x, hxin2, ?_⟩
      rw [substituteStringVars_no_percent msg x.Value hpct]

/-- C20, at two recipients: the header with the token is returned for the first recipient and
cloned for the second; the other header is returned once. -/
theorem C20_witness :
    expandRecipients msgTwoRcpt = some (msgTwoRcpt.addHeaders.map (expandOriginal "bob@example.net") ++
        msgTwoRcpt.addHeaders.flatMap (recipientClones ["carol@example.net"])) ∧
    messageGetMutableHeaders msgTwoRcpt ⟨[], [], [], []⟩ =
      some ([{ Key := "X-Rcpt", Value := "for bob@example.net" },
        { Key := "X-Plain", Value := "text" },
        { Key := "X-Rcpt", Value := "for carol@example.net" }], []) :=
  ⟨(C20_recipient_expansion msgTwoRcpt ⟨[], [], [], []⟩ "bob@example.net"
      ["carol@example.net"] rfl).1, by decide!⟩

theorem isPrefixOf_append_of_mismatch (A t : List Char) (h : mismatch A t = true)
    (s : List Char) : A.isPrefixOf (t ++ s) = false := by
  induction A generalizing t with
  | nil => simp [mismatch] at h
  | cons a as ih =>
    cases t with
    | nil => simp [mismatch] at h
    | cons b bs =>
      simp only [mismatch, Bool.or_eq_true, bne_iff_ne, ne_eq] at h
      simp only [List.cons_append, List.isPrefixOf, Bool.and_eq_false_iff, beq_eq_false_iff_ne,
        ne_eq]
      by_cases hab : a = b
      · right
        rcases h with h | h
        · exact absurd hab h
        · exact ih bs h
      · left; exact hab

theorem isPrefixOf_self_append (A s : List Char) : A.isPrefixOf (A ++ s) = true := by
  induction A with
  | nil => simp [List.isPrefixOf]
  | cons a as ih => simp [List.isPrefixOf, ih]

theorem replaceGo_skip (old new : List Char) (u : List Char) (s : List Char) :
    replaceGo old new u.length (u ++ s) = replaceGo old new 0 s := by
  induction u with
  | nil => rfl
  | cons c cs ih => simpa [replaceGo] using ih

theorem replaceGo_copy (a new : List Char) (u : List Char) (hu : '%' ∉ u) (s : List Char) :
    replaceGo ('%' :: a) new 0 (u ++ s) = u ++ replaceGo ('%' :: a) new 0 s := by
  induction u with
  | nil => rfl
  | cons c cs ih =>
    have hc : c ≠ '%' := fun e => hu (e ▸ List.mem_cons_self _ _)
    have hcs : '%' ∉ cs := fun e => hu (List.mem_cons_of_mem _ e)
    have hp : List.isPrefixOf ('%' :: a) (c :: (cs ++ s)) = false := by
      simp [List.isPrefixOf, Ne.symm hc]
    rw [List.cons_append, replaceGo, hp]
    simp [ih hcs]

theorem replaceGo_match (a new s : List Char) :
    replaceGo ('%' :: a) new 0 ('%' :: a ++ s) = new ++ replaceGo ('%' :: a) new 0 s := by
  have hp : List.isPrefixOf ('%' :: a) ('%' :: (a ++ s)) = true :=
    isPrefixOf_self_append ('%' :: a) s
  rw [List.cons_append, replaceGo, hp]
  simp only [if_true, List.length_cons, Nat.add_sub_cancel]
  rw [replaceGo_skip]

theorem template_mono {T T1 : List (List Char)} (h : ∀ t ∈ T, t ∈ T1) {s : List Char}
    (hs : Template T s) : Template T1 s := by
  induction hs with
  | nil => exact Template.nil
  | text c s hc _ ih => exact Template.text c s hc ih
  | token t s ht _ ih => exact Template.token t s (h t ht) ih

theorem template_text_append (T : List (List Char)) (u : List Char) (hu : '%' ∉ u)
    {s : List Char} (hs : Template T s) : Template T (u ++ s) := by
  induction u with
  | nil => exact hs
  | cons c cs ih =>
    exact Template.text c _ (fun e => hu (e ▸ List.mem_cons_self _ _))
      (ih (fun e => hu (List.mem_cons_of_mem _ e)))

theorem template_of_no_percent (T : List (List Char)) (u : List Char) (hu : '%' ∉ u) :
    Template T u := by
  have := template_text_append T u hu Template.nil
  simpa using this

theorem no_percent_of_template_nil {s : List Char} (hs : Template [] s) : '%' ∉ s := by
  induction hs with
  | nil => exact List.not_mem_nil _
  | text c s hc _ ih =>
    intro hm
    rcases List.mem_cons.mp hm with h | h
    · exact hc h.symm
    · exact ih h
  | token t s ht _ _ => exact absurd ht (List.not_mem_nil t)

/-- Replacing one token of a template by a text without `%` gives a template over the other
tokens. -/
theorem template_replace (a new : List Char) (T T1 : List (List Char))
    (hnew : '%' ∉ new)
    (hform : ∀ t ∈ T, t.head? = some '%' ∧ '%' ∉ t.tail)
    (hdiff : ∀ t ∈ T, t ≠ '%' :: a → mismatch ('%' :: a) t = true)
    (hsub : ∀ t ∈ T, t ≠ '%' :: a → t ∈ T1)
    {s : List Char} (hs : Template T s) :
    Template T1 (replaceGo ('%' :: a) new 0 s) := by
  induction hs with
  | nil => exact Template.nil
  | text c s hc _ ih =>
    have hp : List.isPrefixOf ('%' :: a) (c :: s) = false := by
      simp [List.isPrefixOf, Ne.symm hc]
    rw [replaceGo, hp]
    simp only [Bool.false_eq_true, if_false]
    exact Template.text c _ hc ih
  | token t s ht _ ih =>
    by_cases hta : t = '%' :: a
    · subst hta
      rw [replaceGo_match]
      exact template_text_append T1 new hnew ih
    · obtain ⟨hhead, htail⟩ := hform t ht
      cases t with
      | nil => simp at hhead
      | cons c t1 =>
        simp only [List.head?_cons, Option.some.injEq] at hhead
        subst hhead
        simp only [List.tail_cons] at htail
        have hp : List.isPrefixOf ('%' :: a) ('%' :: (t1 ++ s)) = false :=
          isPrefixOf_append_of_mismatch ('%' :: a) ('%' :: t1) (hdiff _ ht hta) s
        rw [List.cons_append, replaceGo, hp]
        simp only [Bool.false_eq_true, if_false]
        rw [replaceGo_copy a new t1 htail s]
        exact Template.token ('%' :: t1) _ (hsub _ ht hta) ih

theorem template_of_templateGo (T : List (List Char)) (hT : ∀ t ∈ T, t ≠ [])
    (s : List Char) : ∀ k, templateGo T k s = true → Template T (s.drop k) := by
  induction s with
  | nil => intro k _; simp only [List.drop_nil]; exact Template.nil
  | cons c cs ih =>
    intro k h
    cases k with
    | succ k =>
      rw [templateGo] at h
      simpa using ih k h
    | zero =>
      rw [templateGo] at h
      simp only [List.drop_zero]
      by_cases hc : c ≠ '%'
      · rw [if_pos hc] at h
        have := ih 0 h
        simp only [List.drop_zero] at this
        exact Template.text c cs hc this
      · rw [if_neg hc] at h
        cases hf : T.find? (fun t => t.isPrefixOf (c :: cs)) with
        | none => rw [hf] at h; exact absurd h (by simp)
        | some t =>
          rw [hf] at h
          simp only at h
          have htT : t ∈ T := List.mem_of_find?_eq_some hf
          have htp0 := List.find?_some hf
          have htp : t.isPrefixOf (c :: cs) = true := htp0
          have hpre : t <+: c :: cs := List.isPrefixOf_iff_prefix.mp htp
          obtain ⟨rest, hrest⟩ := hpre
          have hne := hT t htT
          cases t with
          | nil => exact absurd rfl hne
          | cons t0 t1 =>
            simp only [List.cons_append, List.cons.injEq] at hrest
            obtain ⟨h0, h1⟩ := hrest
            have hdrop : cs.drop ((t0 :: t1).length - 1) = rest := by
              simp only [List.length_cons, Nat.add_sub_cancel]
              rw [← h1]
              simp
            have := ih _ h
            rw [hdrop] at this
            have hcs : c :: cs = (t0 :: t1) ++ rest := by
              rw [List.cons_append, h0, h1]
            rw [hcs]
            exact Template.token _ _ htT this

theorem ite_ne_of {c : Prop} [Decidable c] {a b x : Char} (ha : a ≠ x) (hb : b ≠ x) :
    (if c then a else b) ≠ x := by
  split <;> assumption

theorem digitChar_ne_percent (n : Nat) : Nat.digitChar n ≠ '%' := by
  unfold Nat.digitChar
  iterate 16 refine ite_ne_of (by decide) ?_
  decide

theorem toDigitsCore_no_percent : ∀ (fuel n : Nat) (ds : List Char), '%' ∉ ds →
    '%' ∉ Nat.toDigitsCore 10 fuel n ds := by
  intro fuel
  induction fuel with
  | zero => intro n ds h; simpa [Nat.toDigitsCore] using h
  | succ fuel ih =>
    intro n ds h
    have hd : '%' ∉ Nat.digitChar (n % 10) :: ds := by
      intro hm
      rcases List.mem_cons.mp hm with e | e
      · exact digitChar_ne_percent _ e.symm
      · exact h e
    rw [Nat.toDigitsCore]
    split_ifs
    · exact hd
    · exact ih _ _ hd

theorem toString_nat_no_percent (n : Nat) : '%' ∉ (toString n).data := by
  show '%' ∉ (Nat.repr n).data
  unfold Nat.repr Nat.toDigits
  exact toDigitsCore_no_percent _ _ _ (List.not_mem_nil _)

theorem sprintf2f_no_percent (x : ℚ) : '%' ∉ (sprintf2f x).data := by
  unfold sprintf2f
  simp only [String.data_append, List.mem_append, not_or]
  refine ⟨⟨⟨⟨?_, toString_nat_no_percent _⟩, by decide⟩, ?_⟩, toString_nat_no_percent _⟩
  · split_ifs <;> decide
  · split_ifs <;> decide

theorem replaceGo_of_not_hasInfix (old new : List Char) (s : List Char)
    (h : hasInfix old s = false) : replaceGo old new 0 s = s := by
  induction s with
  | nil => rfl
  | cons c cs ih =>
    simp only [hasInfix, Bool.or_eq_false_iff] at h
    rw [replaceGo, h.1]
    simp [ih h.2]

theorem hasInfix_of_not_mem (c : Char) (p s : List Char) (h : c ∉ s) :
    hasInfix (c :: p) s = false := by
  induction s with
  | nil => simp [hasInfix, List.isPrefixOf]
  | cons d ds ih =>
    have hd : c ≠ d := fun e => h (e ▸ List.mem_cons_self _ _)
    simp [hasInfix, List.isPrefixOf, hd, ih (fun e => h (List.mem_cons_of_mem _ e))]

theorem template_recipient (v r : String) (hv : Template knownTokens v.data)
    (hr : '%' ∉ r.data) :
    Template (knownTokens.drop 1) (stringsReplace v "%{recipient}" r).data :=
  template_replace "{recipient}".data r.data knownTokens (knownTokens.drop 1) hr
    (by decide) (by decide) (by decide) hv

theorem template_without_recipient (v : String) (hv : Template knownTokens v.data)
    (hc : stringsContains v "%{recipient}" = false) :
    Template (knownTokens.drop 1) v.data := by
  have h := template_replace "{recipient}".data [] knownTokens (knownTokens.drop 1)
    (List.not_mem_nil _) (by decide) (by decide) (by decide) hv
  have e : replaceGo ('%' :: "{recipient}".data) [] 0 v.data = v.data :=
    replaceGo_of_not_hasInfix _ _ _ hc
  rw [e] at h
  exact h

/-- The substitution of the variables leaves no `%` in a template over the four tokens it
knows, when the session values hold none. -/
theorem substituteStringVars_template (msg : Message) (s : String)
    (hs : Template (knownTokens.drop 1) s.data)
    (hip : '%' ∉ msg.session.Ip.data) (hhost : '%' ∉ msg.session.MtaHostName.data) :
    '%' ∉ (substituteStringVars msg s).data := by
  have h1 := template_replace "{clientIp}".data msg.session.Ip.data (knownTokens.drop 1)
    (knownTokens.drop 2) hip (by decide) (by decide) (by decide) hs
  have h2 := template_replace "{hostname}".data msg.session.MtaHostName.data
    (knownTokens.drop 2) (knownTokens.drop 3) hhost (by decide) (by decide) (by decide) h1
  have h3 := fun q : ℚ => template_replace "{rejectScore}".data (sprintf2f q).data
    (knownTokens.drop 3) (knownTokens.drop 4) (sprintf2f_no_percent q)
    (by decide) (by decide) (by decide) h2
  have h4 := fun (q : ℚ) (w : List Char) (hw : '%' ∉ w) =>
    template_replace "{spamFlag}".data w (knownTokens.drop 4) [] hw
      (by decide) (by decide) (by decide) (h3 q)
  unfold substituteStringVars
  simp only
  split_ifs
  · exact no_percent_of_template_nil (h4 _ "YES".data (by decide))
  · exact no_percent_of_template_nil (h4 _ "NO".data (by decide))

theorem template_expanded (msg : Message) (rcpt0 : String) (others : List String)
    (ht : ∀ h ∈ msg.addHeaders, Template knownTokens h.Value.data)
    (h0 : '%' ∉ rcpt0.data) (ho : ∀ r ∈ others, '%' ∉ r.data)
    (hid : '%' ∉ msg.injectMessageId.data) :
    ∀ h ∈ appendInjectedMessageId msg (msg.addHeaders.map (expandOriginal rcpt0) ++
        msg.addHeaders.flatMap (recipientClones others)),
      Template (knownTokens.drop 1) h.Value.data := by
  have hexp : ∀ h ∈ msg.addHeaders.map (expandOriginal rcpt0) ++
      msg.addHeaders.flatMap (recipientClones others),
      Template (knownTokens.drop 1) h.Value.data := by
    intro h hm
    rcases List.mem_append.mp hm with hm | hm
    · obtain ⟨v, hv, rfl⟩ := List.mem_map.mp hm
      unfold expandOriginal
      by_cases hc : stringsContains v.Value "%{recipient}" = true
      · rw [if_pos hc]
        exact template_recipient v.Value rcpt0 (ht v hv) h0
      · rw [if_neg hc]
        exact template_without_recipient v.Value (ht v hv) (by simpa using hc)
    · obtain ⟨v, hv, hin⟩ := List.mem_flatMap.mp hm
      unfold recipientClones at hin
      by_cases hc : stringsContains v.Value "%{recipient}" = true
      · rw [if_pos hc] at hin
        obtain ⟨r, hr, rfl⟩ := List.mem_map.mp hin
        exact template_recipient v.Value r (ht v hv) (ho r hr)
      · rw [if_neg hc] at hin
        exact absurd hin (List.not_mem_nil h)
  intro h hm
  unfold appendInjectedMessageId at hm
  split_ifs at hm
  · rcases List.mem_append.mp hm with hm | hm
    · exact hexp h hm
    · rw [List.mem_singleton] at hm
      subst hm
      exact template_of_no_percent _ _ hid
  · exact hexp h hm

/-- C17 (amended): for a message with a recipient whose pending add-header values are built
only from text without `%` and from the five tokens `%{recipient}`, `%{clientIp}`,
`%{hostname}`, `%{rejectScore}` and `%{spamFlag}`, and whose recipients, session address, MTA
host name and injected Message-Id hold no `%`, `messageGetMutableHeaders` returns, and no
value of the add list it returns holds a `%`, hence none holds the substring `%{`. -/
theorem C17_no_token_left_in_known_templates (msg : Message)
    (results : Arr4 (List MessageCheckResult)) (hr : msg.Rcpt ≠ [])
    (htemplates : ∀ h ∈ msg.addHeaders, templateGo knownTokens 0 h.Value.data = true)
    (hrcpt : ∀ r ∈ msg.Rcpt, '%' ∉ r.data)
    (hip : '%' ∉ msg.session.Ip.data) (hhost : '%' ∉ msg.session.MtaHostName.data)
    (hid : '%' ∉ msg.injectMessageId.data) :
    ∃ add delete, messageGetMutableHeaders msg results = some (add, delete) ∧
      ∀ h ∈ add, '%' ∉ h.Value.data ∧ stringsContains h.Value "%\x7b" = false := by
  obtain ⟨rcpt0, others, hro⟩ : ∃ rcpt0 others, msg.Rcpt = rcpt0 :: others := by
    cases hm : msg.Rcpt with
    | nil => exact absurd hm hr
    | cons a b => exact ⟨a, b, rfl⟩
  have ht : ∀ h ∈ msg.addHeaders, Template knownTokens h.Value.data := by
    intro h hm
    have := template_of_templateGo knownTokens (by decide) h.Value.data 0 (htemplates h hm)
    simpa using this
  have h0 : '%' ∉ rcpt0.data := hrcpt rcpt0 (by rw [hro]; exact List.mem_cons_self _ _)
  have ho : ∀ r ∈ others, '%' ∉ r.data :=
    fun r hm => hrcpt r (by rw [hro]; exact List.mem_cons_of_mem _ hm)
  have hall := template_expanded msg rcpt0 others ht h0 ho hid
  refine ⟨(substituteHeaders msg (appendInjectedMessageId msg
      (msg.addHeaders.map (expandOriginal rcpt0) ++
        msg.addHeaders.flatMap (recipientClones others)))).filter
        (fun h => decide (h.Value ≠ "")),
    uniqueDeletes msg (appendInjectedMessageId msg
      (msg.addHeaders.map (expandOriginal rcpt0) ++
        msg.addHeaders.flatMap (recipientClones others))), ?_, ?_⟩
  · unfold messageGetMutableHeaders
    rw [expandRecipients_eq msg rcpt0 others hro]
    simp only [removeEmptyLoop_filter]
  · intro h hm
    have hm1 := List.mem_of_mem_filter hm
    unfold substituteHeaders at hm1
    obtain ⟨v, hv, rfl⟩ := List.mem_map.mp hm1
    have hno : '%' ∉ (substituteStringVars msg v.Value).data :=
      substituteStringVars_template msg v.Value (hall v hv) hip hhost
    exact ⟨hno, hasInfix_of_not_mem '%' "\x7b".data _ hno⟩

/-- C17, at a header with the five tokens: every token is replaced. -/
theorem C17_witness :
    messageGetMutableHeaders msgAllTokens ⟨[], [], [], []⟩ =
      some ([headerAllReplaced], []) ∧
    ∃ add delete, messageGetMutableHeaders msgAllTokens ⟨[], [], [], []⟩ = some (add, delete) ∧
      ∀ h ∈ add, '%' ∉ h.Value.data ∧ stringsContains h.Value "%\x7b" = false :=
  ⟨by decide!, C17_no_token_left_in_known_templates msgAllTokens ⟨[], [], [], []⟩ (by decide)
    (by decide) (by decide) (by decide) (by decide) (by decide)⟩

/-- C17 as stated fails: a token that is none of the five is returned as it was, and a
recipient address with `%{` in it brings the substring into the returned value. -/
theorem C17_counterexample :
    messageGetMutableHeaders msgUnknownToken ⟨[], [], [], []⟩ =
      some ([{ Key := "X-Sender", Value := "%{sender}" }], []) ∧
    stringsContains "%{sender}" "%\x7b" = true ∧
    messageGetMutableHeaders msgTokenInRcpt ⟨[], [], [], []⟩ =
      some ([{ Key := "X-Rcpt", Value := "for a%{b}@example.net" }], []) ∧
    stringsContains "for a%{b}@example.net" "%\x7b" = true := by
  decide!

theorem MessageGenerateMessageId_of_host (g : Globals) (queueId host : String)
    (h : host ≠ "") :
    MessageGenerateMessageId g queueId host =
      "<" ++ toString g.unixNow ++ "." ++ queueId ++ ".cluegetter@" ++ g.hostname ++ ">" := by
  unfold MessageGenerateMessageId
  simp only [h, ne_eq, not_false_eq_true, if_true]

theorem MessageGenerateMessageId_of_empty (g : Globals) (queueId : String) :
    MessageGenerateMessageId g queueId "" =
      "<" ++ toString g.unixNow ++ "." ++ queueId ++ ".cluegetter@" ++ "" ++ ">" := by
  unfold MessageGenerateMessageId
  simp only [ne_eq, not_true_eq_false, if_false]

/-- C21 (code defect): for the queue id 4F2A and the MTA host name mx.example.org, on the host
filter.example.net at the unix time 1456000000, the generated Message-Id ends in the name of
the local host, not in the MTA host name that was passed in: the test `host != ""` replaces
every host name that is given. So does the Message-Id that `messageGetMessageId` generates for
a message lacking one. -/
theorem C21_message_id_takes_local_hostname :
    MessageGenerateMessageId (exampleGlobals false []) "4F2A" "mx.example.org" =
        "<1456000000.4F2A.cluegetter@filter.example.net>" ∧
      MessageGenerateMessageId (exampleGlobals false []) "4F2A" "mx.example.org" ≠
        "<1456000000.4F2A.cluegetter@mx.example.org>" ∧
      (messageGetMessageId (exampleGlobals false [])
          (exampleMessage (exampleConfig 5 2))).1 =
        "<1456000000.4F2A.cluegetter@filter.example.net>" := by
  decide

/-- C24: with the group {quotas: 1, spamassassin: 1}, the thresholds 5 and 2, and the one
result collected being an error result of quotas (spamassassin posted nothing),
`messageWeighResults` counts the error as ignored, the remaining error count is 0, and
`messageGetVerdict` returns permit with an empty status. -/
theorem C24_module_error_swallowed :
    collectedResults (exampleConfig 5 2) arrivalsOneError =
        some (arrivalsOneError.map normalizeResult) ∧
      (messageWeighResults [groupQuotasSpam] (arrivalsOneError.map normalizeResult)).2 = 1 ∧
      remainingErrors (exampleGlobals false [groupQuotasSpam])
        (arrivalsOneError.map normalizeResult) = 0 ∧
      (messageGetVerdict (exampleGlobals false [groupQuotasSpam])
        (exampleMessage (exampleConfig 5 2)) arrivalsOneError).view =
          some (MessagePermit, "") ∧
      (messageGetVerdict (exampleGlobals true [groupQuotasSpam])
        (exampleMessage (exampleConfig 5 2)) arrivalsOneError).view =
          some (MessagePermit, "") := by
  decide!

theorem moduleLoop_spec (ParseFloat : String → Option ℚ) (groupName : String)
    (done : List MessageModuleGroup) (entries : List String) :
    ∀ (cur : List MessageModuleGroupMember) (total : ℚ)
      (res : List MessageModuleGroupMember × ℚ),
      moduleLoop ParseFloat groupName done cur total entries = .ok res →
      ((done.flatMap (fun g => g.modules) ++ cur).map (fun m => m.module)).Nodup →
      ∃ added, res.1 = cur ++ added ∧
        List.Forall₂ (memberOfEntry ParseFloat) added entries ∧
        res.2 = total + (added.map (fun m => m.weight)).sum ∧
        ((done.flatMap (fun g => g.modules) ++ res.1).map (fun m => m.module)).Nodup := by
  induction entries with
  | nil =>
    intro cur total res h hnd
    rw [moduleLoop] at h
    simp only [Except.ok.injEq] at h
    subst h
    exact ⟨[], by simp, List.Forall₂.nil, by simp, hnd⟩
  | cons v rest ih =>
    intro cur total res h hnd
    rw [moduleLoop] at h
    split at h
    · rename_i split0 split1 more hsplit
      by_cases hknown : split1 ∈ knownModules
      · rw [if_neg (not_not.mpr hknown)] at h
        split at h
        · exact absurd h (by simp)
        · rename_i weight hparse
          split at h
          · exact absurd h (by simp)
          · rename_i hfind
            have hfresh : split1 ∉
                (done.flatMap (fun g => g.modules) ++ cur).map (fun m => m.module) := by
              intro hm
              obtain ⟨m, hm1, hm2⟩ := List.mem_map.mp hm
              rw [List.find?_eq_none] at hfind
              rcases List.mem_append.mp hm1 with hd | hc
              · obtain ⟨g, hg, hmg⟩ := List.mem_flatMap.mp hd
                have := hfind g (List.mem_append_left _ hg)
                simp only [List.any_eq_true, decide_eq_true_eq, not_exists, not_and] at this
                exact this m hmg hm2.symm
              · have := hfind ⟨cur, groupName, total⟩
                  (List.mem_append_right _ (List.mem_singleton_self _))
                simp only [List.any_eq_true, decide_eq_true_eq, not_exists, not_and] at this
                exact this m hc hm2.symm
            have hnd1 : ((done.flatMap (fun g => g.modules) ++
                (cur ++ [({ module := split1, weight := weight } : MessageModuleGroupMember)])).map
                  (fun m => m.module)).Nodup := by
              rw [← List.append_assoc, List.map_append, List.nodup_append]
              refine ⟨hnd, by simp, ?_⟩
              intro x hx hx1
              simp only [List.map_cons, List.map_nil, List.mem_singleton] at hx1
              subst hx1
              exact hfresh hx
            obtain ⟨added, h1, h2, h3, h4⟩ := ih _ _ res h hnd1
            refine ⟨({ module := split1, weight := weight } : MessageModuleGroupMember) :: added,
              ?_, ?_, ?_, h4⟩
            · rw [h1]; simp
            · exact List.Forall₂.cons ⟨split0, more, hsplit, hknown, hparse⟩ h2
            · rw [h3]; simp only [List.map_cons, List.sum_cons]; ring
      · rw [if_pos hknown] at h
        exact absurd h (by simp)
    · exact absurd h (by simp)

theorem groupLoop_spec (ParseFloat : String → Option ℚ) (config : List (String × List String)) :
    ∀ (groups res : List MessageModuleGroup),
      groupLoop ParseFloat groups config = .ok res →
      ((groups.flatMap (fun g => g.modules)).map (fun m => m.module)).Nodup →
      ∃ added, res = groups ++ added ∧
        List.Forall₂ (groupOfEntry ParseFloat) added config ∧
        ((res.flatMap (fun g => g.modules)).map (fun m => m.module)).Nodup := by
  induction config with
  | nil =>
    intro groups res h hnd
    rw [groupLoop] at h
    simp only [Except.ok.injEq] at h
    subst h
    exact ⟨[], by simp, List.Forall₂.nil, hnd⟩
  | cons c rest ih =>
    intro groups res h hnd
    obtain ⟨groupName, modules⟩ := c
    rw [groupLoop] at h
    by_cases hlen : modules.length = 0
    · rw [if_pos hlen] at h
      exact absurd h (by simp)
    · rw [if_neg hlen] at h
      split at h
      · exact absurd h (by simp)
      · rename_i members total hloop
        obtain ⟨added, h1, h2, h3, h4⟩ :=
          moduleLoop_spec ParseFloat groupName groups modules [] 0 (members, total) hloop
            (by simpa using hnd)
        simp only [List.nil_append] at h1
        simp only [zero_add] at h3
        have hnd1 : (((groups ++ [(⟨members, groupName, total⟩ : MessageModuleGroup)]).flatMap
            (fun g => g.modules)).map (fun m => m.module)).Nodup := by
          simpa using h4
        obtain ⟨more, e1, e2, e3⟩ := ih _ res h hnd1
        refine ⟨(⟨members, groupName, total⟩ : MessageModuleGroup) :: more, ?_, ?_, e3⟩
        · rw [e1]; simp
        · refine List.Forall₂.cons ⟨rfl, ?_, ?_, ?_⟩ e2
          · intro hnil
            simp only at hnil
            subst h1
            rw [hnil] at h2
            cases h2
            exact hlen rfl
          · simp only; rw [h1]; exact h2
          · simp only; rw [h3, h1]

theorem forall₂_left {α β : Type} {R : α → β → Prop} {l1 : List α} {l2 : List β}
    (h : List.Forall₂ R l1 l2) : ∀ a ∈ l1, ∃ b ∈ l2, R a b := by
  induction h with
  | nil => intro a ha; exact absurd ha (List.not_mem_nil a)
  | cons hab _ ih =>
    intro a ha
    rcases List.mem_cons.mp ha with e | e
    · subst e; exact ⟨_, List.mem_cons_self _ _, hab⟩
    · obtain ⟨b, hb, hr⟩ := ih a e
      exact ⟨b, List.mem_cons_of_mem _ hb, hr⟩

/-- C22 (amended): for every module-group configuration that `messageStartModuleGroups`
accepts, the groups are those of the configuration in the order of iteration, each with the
name of its entry and one member per line `weight module` of it, of a known module and with
the weight that `strconv.ParseFloat` read; every group has at least one member, its
`totalWeight` is the sum of its member weights, and no module occurs twice, neither in two
groups nor in one. Nothing constrains the sign of a weight. -/
theorem C22_accepted_configuration (ParseFloat : String → Option ℚ)
    (config : List (String × List String)) (groups : List MessageModuleGroup)
    (h : messageStartModuleGroups ParseFloat config = .ok groups) :
    List.Forall₂ (groupOfEntry ParseFloat) groups config ∧
      (∀ g ∈ groups, 1 ≤ g.modules.length ∧
        g.totalWeight = (g.modules.map (fun m => m.weight)).sum) ∧
      ((groups.flatMap (fun g => g.modules)).map (fun m => m.module)).Nodup := by
  unfold messageStartModuleGroups at h
  obtain ⟨added, h1, h2, h3⟩ := groupLoop_spec ParseFloat config [] groups h (by simp)
  simp only [List.nil_append] at h1
  subst h1
  refine ⟨h2, ?_, h3⟩
  intro g hg
  obtain ⟨c, _, _, hne, _, hsum⟩ := forall₂_left h2 g hg
  refine ⟨?_, hsum⟩
  cases hm : g.modules with
  | nil => exact absurd hm hne
  | cons a l => simp

/-- C22, at a configuration of two groups: it is accepted, and the groups made of it have the
properties of the theorem. -/
theorem C22_witness :
    messageStartModuleGroups parseDecimal configTwoGroups = .ok groupsTwoGroups ∧
      (List.Forall₂ (groupOfEntry parseDecimal) groupsTwoGroups configTwoGroups ∧
        (∀ g ∈ groupsTwoGroups, 1 ≤ g.modules.length ∧
          g.totalWeight = (g.modules.map (fun m => m.weight)).sum) ∧
        ((groupsTwoGroups.flatMap (fun g => g.modules)).map (fun m => m.module)).Nodup) :=
  ⟨by decide!, C22_accepted_configuration parseDecimal configTwoGroups groupsTwoGroups
    (by decide!)⟩

/-- C22 (as stated, refuted): the configuration with the one group
`reputation: ["-1 quotas", "0 spamassassin"]` is accepted without a fatal error, and its
member weights -1 and 0 are not positive. -/
theorem C22_counterexample :
    messageStartModuleGroups parseDecimal [("reputation", ["-1 quotas", "0 spamassassin"])] =
        .ok [⟨[⟨"quotas", -1⟩, ⟨"spamassassin", 0⟩], "reputation", -1⟩] ∧
      ¬ (∀ g ∈ [(⟨[⟨"quotas", -1⟩, ⟨"spamassassin", 0⟩], "reputation", -1⟩ :
          MessageModuleGroup)], ∀ m ∈ g.modules, 0 < m.weight) := by
  decide!

theorem toInt32_of_inInt32 (n : Int) (h : inInt32 n) : toInt32 n = n := by
  unfold inInt32 at h
  unfold toInt32
  norm_num at h ⊢
  omega

theorem restore_saved (queueId : String) (results : List MessageCheckResult)
    (hdet : ∀ r ∈ results, r.Determinants ≠ none)
    (hact : ∀ r ∈ results, inInt32 r.SuggestedAction) :
    (results.map (fun result : MessageCheckResult =>
        ({ MessageId := queueId
           Module := result.Module
           Verdict := toInt32 result.SuggestedAction
           Score := result.Score
           WeightedScore := result.WeightedScore
           Determinants := jsonMarshal result.Determinants } : Proto_Message_CheckResult))).mapM
        restoreCheckResult =
      some (results.map MessageCheckResult.archived) := by
  induction results with
  | nil => rfl
  | cons r rest ih =>
    have hr : r.Determinants ≠ none := hdet r (List.mem_cons_self _ _)
    have ha : toInt32 r.SuggestedAction = r.SuggestedAction :=
      toInt32_of_inInt32 _ (hact r (List.mem_cons_self _ _))
    have ih1 := ih (fun x hx => hdet x (List.mem_cons_of_mem _ hx))
      (fun x hx => hact x (List.mem_cons_of_mem _ hx))
    obtain ⟨entries, he⟩ : ∃ entries, r.Determinants = some entries := by
      cases hd : r.Determinants with
      | none => exact absurd hd hr
      | some e => exact ⟨e, rfl⟩
    have h1 : restoreCheckResult
        { MessageId := queueId
          Module := r.Module
          Verdict := toInt32 r.SuggestedAction
          Score := r.Score
          WeightedScore := r.WeightedScore
          Determinants := jsonMarshal r.Determinants } = some r.archived := by
      unfold restoreCheckResult MessageCheckResult.archived
      rw [he, ha]
      simp only [jsonMarshal, Option.map_some']
    simp only [List.map_cons, List.mapM_cons, h1, ih1]
    rfl

theorem span_append_cons {α : Type} (p : α → Bool) (l1 : List α) (x : α) (l2 : List α)
    (h1 : ∀ a ∈ l1, p a = true) (hx : p x = false) :
    (l1 ++ x :: l2).span p = (l1, x :: l2) := by
  rw [List.span_eq_take_drop]
  induction l1 with
  | nil => simp [List.takeWhile, List.dropWhile, hx]
  | cons a l ih =>
    have ha := h1 a (List.mem_cons_self _ _)
    have ih1 := ih (fun b hb => h1 b (List.mem_cons_of_mem _ hb))
    simp only [Prod.mk.injEq] at ih1
    simp [List.takeWhile, List.dropWhile, ha, ih1.1, ih1.2]

/-- Modelled from the spec: an address rendered as `local@domain` is read back as it was, when
its domain holds no `@`. -/
theorem addressFromString_addressString (a : Address) (h : '@' ∉ a.Domain.data) :
    addressFromString (addressString a) = a := by
  have hdata : (addressString a).data.reverse =
      a.Domain.data.reverse ++ '@' :: a.Local.data.reverse := by
    unfold addressString
    simp [String.data_append]
  have hspan : (addressString a).data.reverse.span (fun c => decide (c ≠ '@')) =
      (a.Domain.data.reverse, '@' :: a.Local.data.reverse) := by
    rw [hdata]
    refine span_append_cons _ _ _ _ ?_ (by simp)
    intro c hc
    have hc1 : c ∈ a.Domain.data := List.mem_reverse.mp hc
    simp only [ne_eq, decide_not, Bool.not_eq_true', decide_eq_false_iff_not]
    intro e
    exact h (e ▸ hc1)
  unfold addressFromString
  rw [hspan]
  simp only [List.reverse_reverse]

theorem fromStringForm_of_isAddressForm (s : String) (h : isAddressForm s) :
    fromStringForm s = s := by
  obtain ⟨a, rfl, hd⟩ := h
  unfold fromStringForm
  rw [addressFromString_addressString a hd]

/-- The archive round trip, for any message: with non-nil determinants on every check result,
verdict and actions within `int32`, and sender and recipients that are string forms of
addresses, `GetAsMessage` returns on the record of `messageSave`, and gives back queue id,
sender, recipients, verdict, status message, scores and thresholds as they were, the headers
with key and value only, and the check results without their message. -/
theorem archive_round_trip (MessageInsertHeaders : List MessageHeader) (msg : Message)
    (hdet : ∀ r ∈ msg.CheckResults, r.Determinants ≠ none)
    (hverdict : inInt32 msg.Verdict)
    (hact : ∀ r ∈ msg.CheckResults, inInt32 r.SuggestedAction)
    (hfrom : isAddressForm msg.From)
    (hrcpt : ∀ a ∈ msg.Rcpt, isAddressForm a) :
    GetAsMessage MessageInsertHeaders (messageSave msg) =
      some { NewMessage MessageInsertHeaders with
        QueueId := msg.QueueId
        From := msg.From
        Rcpt := msg.Rcpt
        Headers := msg.Headers.map MessageHeader.archived
        Verdict := msg.Verdict
        VerdictMsg := msg.VerdictMsg
        RejectScore := msg.RejectScore
        RejectScoreThreshold := msg.RejectScoreThreshold
        TempfailScore := msg.TempfailScore
        TempfailScoreThreshold := msg.TempfailScoreThreshold
        CheckResults := msg.CheckResults.map MessageCheckResult.archived } := by
  have hf : fromStringForm msg.From = msg.From := fromStringForm_of_isAddressForm _ hfrom
  have hr : msg.Rcpt.map fromStringForm = msg.Rcpt := by
    have : ∀ l : List String, (∀ a ∈ l, isAddressForm a) → l.map fromStringForm = l := by
      intro l
      induction l with
      | nil => intro _; rfl
      | cons a l ih =>
        intro h
        rw [List.map_cons, fromStringForm_of_isAddressForm a (h a (List.mem_cons_self _ _)),
          ih (fun x hx => h x (List.mem_cons_of_mem _ hx))]
    exact this _ hrcpt
  unfold GetAsMessage messageSave
  simp only [restore_saved msg.QueueId msg.CheckResults hdet hact, Option.map_some',
    toInt32_of_inInt32 _ hverdict, hf, hr, NewMessage, List.nil_append, List.map_map]
  rfl

theorem arr4_get?_range {α : Type} (arr : Arr4 α) (i : Int) (v : α)
    (h : arr.get? i = some v) : 0 ≤ i ∧ i ≤ 3 := by
  unfold Arr4.get? at h
  split_ifs at h <;> omega

theorem totalsLoop_results (l : List MessageCheckResult) :
    ∀ (acc res : Arr4 ℚ × List MessageCheckResult), totalsLoop acc l = some res →
      (∀ r ∈ acc.2, r.Determinants ≠ none ∧ 0 ≤ r.SuggestedAction ∧ r.SuggestedAction ≤ 3) →
      ∀ r ∈ res.2, r.Determinants ≠ none ∧ 0 ≤ r.SuggestedAction ∧ r.SuggestedAction ≤ 3 := by
  induction l with
  | nil =>
    intro acc res h hacc
    rw [totalsLoop] at h
    simp only [Option.some.injEq] at h
    subst h
    exact hacc
  | cons x rest ih =>
    intro acc res h hacc
    rw [totalsLoop] at h
    split at h
    · exact absurd h (by simp)
    · rename_i t hget
      have hrange := arr4_get?_range _ _ _ hget
      split at h
      · exact absurd h (by simp)
      · refine ih _ res h ?_
        intro r hr
        simp only at hr
        rcases List.mem_append.mp hr with hr | hr
        · exact hacc r hr
        · rw [List.mem_singleton] at hr
          subst hr
          by_cases hd : x.Determinants = none
          · rw [if_pos hd]
            exact ⟨by simp, hrange⟩
          · rw [if_neg hd]
            exact ⟨hd, hrange⟩

theorem verdictReduce_checkResults (g : Globals) (msg : Message) (st : Collected)
    (r : VerdictReturn) (h : verdictReduce g msg st = .ok r) :
    ∃ totalScores, totalsLoop (⟨0, 0, 0, 0⟩, [])
      (messageWeighResults g.MessageModuleGroups st.flatResults).1 =
        some (totalScores, r.msg.CheckResults) := by
  unfold verdictReduce at h
  simp only at h
  split at h
  · exact absurd h (by simp)
  · rename_i totalScores flatResults htot
    refine ⟨totalScores, ?_⟩
    rw [htot]
    split_ifs at h
    · split at h
      · exact absurd h (by simp)
      · simp only [Except.ok.injEq] at h
        subst h
        rfl
    · simp only [Except.ok.injEq] at h
      subst h
      rfl
    · split at h
      · exact absurd h (by simp)
      · simp only [Except.ok.injEq] at h
        subst h
        rfl
    · simp only [Except.ok.injEq] at h
      subst h
      rfl

/-- A message that `messageGetVerdict` decided without an internal failure: its verdict is
permit, tempfail or reject, and every check result stored on it has non-nil determinants and
one of the four known actions. -/
theorem decided_message_fields (g : Globals) (msg : Message)
    (arrivals : List MessageCheckResult) (r : VerdictReturn)
    (h : verdictBody g msg arrivals = .ok r) :
    inInt32 r.msg.Verdict ∧
      (∀ x ∈ r.msg.CheckResults, x.Determinants ≠ none) ∧
      (∀ x ∈ r.msg.CheckResults, inInt32 x.SuggestedAction) := by
  obtain ⟨hv, hstored, _, _⟩ := verdictBody_ok g msg arrivals r h
  have hres : ∀ x ∈ r.msg.CheckResults,
      x.Determinants ≠ none ∧ 0 ≤ x.SuggestedAction ∧ x.SuggestedAction ≤ 3 := by
    unfold verdictBody at h
    split at h
    · exact absurd h (by simp)
    · obtain ⟨totalScores, htot⟩ := verdictReduce_checkResults g msg _ r h
      exact totalsLoop_results _ _ _ htot (fun x hx => absurd hx (List.not_mem_nil x))
  refine ⟨?_, fun x hx => (hres x hx).1, ?_⟩
  · rw [hstored]
    unfold inInt32
    rcases hv with e | e | e <;> rw [e] <;> decide
  · intro x hx
    obtain ⟨_, h0, h3⟩ := hres x hx
    unfold inInt32
    constructor <;> omega

/-- C23 (amended): for every message whose check results all have non-nil determinants (with
verdict and actions in the range of `int32`, as they are on every message that
`messageGetVerdict` decided, and with sender and recipients that are string forms
`local@domain` of addresses), `GetAsMessage` returns on the record that `messageSave`
builds, and the message it gives has the sender and the recipients of the original, the
address read from the record being the one that was rendered into it; its
headers, in their order, with their keys and values, the fields `milterIdx`, `flagUnique`
and `deleted` being at their zero values; its verdict and status message; its reject and
tempfail scores and thresholds; and as many check results, with the module, action, score
and weighted score of the original ones. -/
theorem C23_archive_round_trip (MessageInsertHeaders : List MessageHeader) (msg : Message)
    (hdet : ∀ r ∈ msg.CheckResults, r.Determinants ≠ none)
    (hverdict : inInt32 msg.Verdict)
    (hact : ∀ r ∈ msg.CheckResults, inInt32 r.SuggestedAction)
    (hfrom : isAddressForm msg.From)
    (hrcpt : ∀ a ∈ msg.Rcpt, isAddressForm a) :
    ∃ out, GetAsMessage MessageInsertHeaders (messageSave msg) = some out ∧
      out.QueueId = msg.QueueId ∧ out.From = msg.From ∧ out.Rcpt = msg.Rcpt ∧
      (∀ a : Address, msg.From = addressString a → '@' ∉ a.Domain.data →
        addressFromString (messageSave msg).From = a) ∧
      out.Headers = msg.Headers.map MessageHeader.archived ∧
      out.Headers.map (fun h => (h.Key, h.Value)) =
        msg.Headers.map (fun h => (h.Key, h.Value)) ∧
      (∀ h ∈ out.Headers, h.milterIdx = 0 ∧ h.flagUnique = false ∧ h.deleted = false) ∧
      out.Verdict = msg.Verdict ∧ out.VerdictMsg = msg.VerdictMsg ∧
      out.RejectScore = msg.RejectScore ∧
      out.RejectScoreThreshold = msg.RejectScoreThreshold ∧
      out.TempfailScore = msg.TempfailScore ∧
      out.TempfailScoreThreshold = msg.TempfailScoreThreshold ∧
      out.CheckResults.map
          (fun r => (r.Module, r.SuggestedAction, r.Score, r.WeightedScore)) =
        msg.CheckResults.map
          (fun r => (r.Module, r.SuggestedAction, r.Score, r.WeightedScore)) := by
  refine ⟨_, archive_round_trip MessageInsertHeaders msg hdet hverdict hact hfrom
    hrcpt, rfl, rfl, rfl, ?_, rfl, ?_, ?_, rfl, rfl, rfl, rfl, rfl, rfl, ?_⟩
  · intro a ha hd
    show addressFromString msg.From = a
    rw [ha]
    exact addressFromString_addressString a hd
  · simp only [List.map_map]
    rfl
  · intro h hh
    simp only [List.mem_map] at hh
    obtain ⟨h0, _, rfl⟩ := hh
    exact ⟨rfl, rfl, rfl⟩
  · simp only [List.map_map]
    rfl

/-- C23, at the message of the first scenario once decided: the record is read back with the
sender, the recipient, the verdict reject and its scores, and the two check results. -/
theorem C23_witness :
    ((GetAsMessage [] (messageSave decidedExample)).map
        (fun out => out.From) = some "alice@example.org" ∧
      (GetAsMessage [] (messageSave decidedExample)).map
        (fun out => out.Rcpt) = some ["bob@example.net"] ∧
      (GetAsMessage [] (messageSave decidedExample)).map
        (fun out => out.Verdict) = some MessageReject ∧
      (GetAsMessage [] (messageSave decidedExample)).map
        (fun out => out.RejectScore) = some 10 ∧
      (GetAsMessage [] (messageSave decidedExample)).map
        (fun out => out.CheckResults.map (fun r => r.Module)) =
          some ["quotas", "greylisting"]) ∧
    ∃ out, GetAsMessage [] (messageSave decidedExample) = some out ∧
      out.QueueId = decidedExample.QueueId ∧ out.From = decidedExample.From ∧
      out.Rcpt = decidedExample.Rcpt ∧
      (∀ a : Address, decidedExample.From = addressString a → '@' ∉ a.Domain.data →
        addressFromString (messageSave decidedExample).From = a) ∧
      out.Headers = decidedExample.Headers.map MessageHeader.archived ∧
      out.Headers.map (fun h => (h.Key, h.Value)) =
        decidedExample.Headers.map (fun h => (h.Key, h.Value)) ∧
      (∀ h ∈ out.Headers, h.milterIdx = 0 ∧ h.flagUnique = false ∧ h.deleted = false) ∧
      out.Verdict = decidedExample.Verdict ∧ out.VerdictMsg = decidedExample.VerdictMsg ∧
      out.RejectScore = decidedExample.RejectScore ∧
      out.RejectScoreThreshold = decidedExample.RejectScoreThreshold ∧
      out.TempfailScore = decidedExample.TempfailScore ∧
      out.TempfailScoreThreshold = decidedExample.TempfailScoreThreshold ∧
      out.CheckResults.map
          (fun r => (r.Module, r.SuggestedAction, r.Score, r.WeightedScore)) =
        decidedExample.CheckResults.map
          (fun r => (r.Module, r.SuggestedAction, r.Score, r.WeightedScore)) :=
  ⟨by decide!, C23_archive_round_trip [] decidedExample (by decide!) (by decide!) (by decide!)
    ⟨⟨"alice", "example.org"⟩, by decide!, by decide⟩
    (fun a ha => ⟨⟨"bob", "example.net"⟩, by
      have hr : decidedExample.Rcpt = ["bob@example.net"] := by decide!
      rw [hr, List.mem_singleton] at ha
      rw [ha]
      decide, by decide⟩)⟩

/-- C23 (as stated, refuted): on a decided message with a header that is marked deleted, the
round trip gives the header back with its key and value but not marked deleted and with the
milter index 0: the headers of the message read back are not equal to the original ones. -/
theorem C23_counterexample :
    (∀ r ∈ decidedWithDeletedHeader.CheckResults, r.Determinants ≠ none) ∧
      (GetAsMessage [] (messageSave decidedWithDeletedHeader)).map (fun out => out.Headers) =
        some [{ Key := "Subject", Value := "hello" }, { Key := "X-Old", Value := "1" }] ∧
      (GetAsMessage [] (messageSave decidedWithDeletedHeader)).map (fun out => out.Headers) ≠
        some decidedWithDeletedHeader.Headers := by
  decide!

end ClueGetter
